import Mathlib

/-!
# CanSat-PIC32 firmware: clock, USART channel engine and sensor decoders

A shallow embedding of `FINAL.X/platform/systick.c`, `FINAL.X/platform/usart.c`
and `FINAL.X/main.c`.

Conventions of the embedding:

* `uint32_t` / `uint16_t` / `uint8_t` values are natural numbers; every C
  operation that can wrap is followed by an explicit reduction modulo `2^w`.
* A C pointer to an array is the list of the bytes (or elements) that start at
  the pointer; `NULL` is `none`; `p++` drops the head of the list.
* A function that writes through pointer arguments returns the new values.
-/

namespace CanSat

/-! ## `platform.h` / `systick.c`: timestamps -/

/-- Largest `uint32_t`. -/
def UINT32_MAX : Nat := 4294967295

/-- Reduction of an arithmetic result to `uint32_t`. -/
def u32 (x : Nat) : Nat := x % 4294967296

/-- Reduction of an arithmetic result to `uint16_t`. -/
def u16 (x : Nat) : Nat := x % 65536

/-- Reduction of an arithmetic result to `uint8_t`. -/
def u8 (x : Nat) : Nat := x % 256

/-- The C expression `a - b` on two `uint32_t` operands. -/
def u32_sub (a b : Nat) : Nat := (a + 4294967296 - b % 4294967296) % 4294967296

/-- The C statement `--x` (also `if (x == 0) x = UINT32_MAX; else --x;`) on
a `uint32_t`. -/
def u32_dec (x : Nat) : Nat := if x = 0 then UINT32_MAX else x - 1

/-- Structure `platform_timespec_t` of `platform.h`. -/
structure platform_timespec_t where
  nr_sec : Nat
  nr_nsec : Nat
deriving DecidableEq, Repr

/-- Macro `PLATFORM_TIMESPEC_ZERO`. -/
def PLATFORM_TIMESPEC_ZERO : platform_timespec_t := ⟨0, 0⟩

/-- Both fields of a timestamp fit their `uint32_t` storage. -/
def platform_timespec_t.fits (ts : platform_timespec_t) : Prop :=
  ts.nr_sec < 4294967296 ∧ ts.nr_nsec < 4294967296

instance (ts : platform_timespec_t) : Decidable ts.fits := by
  unfold platform_timespec_t.fits; infer_instance

/-- The instant a timestamp denotes, in nanoseconds. -/
def platform_timespec_t.total_ns (ts : platform_timespec_t) : Nat :=
  ts.nr_sec * 1000000000 + ts.nr_nsec

/-- Function `platform_timespec_compare` of `systick.c`. -/
def platform_timespec_compare (lhs rhs : platform_timespec_t) : Int :=
  if lhs.nr_sec < rhs.nr_sec then -1
  else if lhs.nr_sec > rhs.nr_sec then 1
  else if lhs.nr_nsec < rhs.nr_nsec then -1
  else if lhs.nr_nsec > rhs.nr_nsec then 1
  else 0

/-- The `while (c >= 1000000000)` loop of `platform_tick_delta` on the pair
`(c, d.nr_sec)`, unrolled `n` times. -/
def tick_delta_loop_n : Nat → Nat → Nat → Nat × Nat
  | 0, c, d_sec => (c, d_sec)
  | n + 1, c, d_sec =>
    if 1000000000 ≤ c then tick_delta_loop_n n (c - 1000000000) (u32_dec d_sec)
    else (c, d_sec)

/-- The `while (c >= 1000000000)` loop of `platform_tick_delta`: each iteration
takes `10^9` off `c`, so the body runs `c / 10^9` times. -/
def tick_delta_loop (c d_sec : Nat) : Nat × Nat :=
  tick_delta_loop_n (c / 1000000000) c d_sec

/-- Function `platform_tick_delta` of `systick.c`; the result is `*diff`. -/
def platform_tick_delta (lhs rhs : platform_timespec_t) : platform_timespec_t :=
  -- Seconds...
  let d_sec :=
    if lhs.nr_sec < rhs.nr_sec then
      u32 (u32 (u32_sub UINT32_MAX rhs.nr_sec + lhs.nr_sec) + 1)
    else
      u32_sub lhs.nr_sec rhs.nr_sec
  -- Nano-seconds...
  if lhs.nr_sec < rhs.nr_sec then
    let c := u32_sub rhs.nr_sec lhs.nr_sec
    let r := tick_delta_loop c d_sec
    ⟨u32_dec r.2, 0⟩
  else
    ⟨d_sec, u32_sub lhs.nr_nsec rhs.nr_nsec⟩

/-- Macro `PLATFORM_TICK_PERIOD_US`. -/
def PLATFORM_TICK_PERIOD_US : Nat := 5000

/-- Macro `SYSTICK_RELOAD_VAL`. -/
def SYSTICK_RELOAD_VAL : Nat := (24 / 2) * PLATFORM_TICK_PERIOD_US

/-- The `while (t.nr_nsec >= 1000000000)` loop of `platform_tick_hrcount` (and
of `SysTick_Handler`), unrolled `n` times; the seconds wrap around. -/
def tick_carry_loop_n : Nat → platform_timespec_t → platform_timespec_t
  | 0, t => t
  | n + 1, t =>
    if 1000000000 ≤ t.nr_nsec then
      tick_carry_loop_n n ⟨u32 (t.nr_sec + 1), t.nr_nsec - 1000000000⟩
    else t

/-- The `while (t.nr_nsec >= 1000000000)` loop: each iteration takes `10^9` off
the nanoseconds, so the body runs `t.nr_nsec / 10^9` times. -/
def tick_carry_loop (t : platform_timespec_t) : platform_timespec_t :=
  tick_carry_loop_n (t.nr_nsec / 1000000000) t

/-- Function `platform_tick_hrcount` of `systick.c`: `ts_wall` is the coherent
copy `platform_tick_count` returns and `val` the register `SysTick->VAL`. -/
def platform_tick_hrcount (ts_wall : platform_timespec_t) (val : Nat) : platform_timespec_t :=
  let s := u32_sub SYSTICK_RELOAD_VAL val
  tick_carry_loop ⟨ts_wall.nr_sec, u32 (ts_wall.nr_nsec + u32 (1000 * s) / 12)⟩

/-! ## `platform.h` / `usart.c`: the channel engine -/

/-- Structure `platform_usart_tx_bufdesc_t`: one transmit fragment. `buf` is
the memory the pointer refers to (`none` is `NULL`), `len` the declared size. -/
structure platform_usart_tx_bufdesc_t where
  buf : Option (List Nat)
  len : Nat
deriving DecidableEq, Repr

/-- Structure `platform_usart_rx_async_desc_t`: `buf` is the target array the
pointer refers to (`none` is `NULL`), `data_len` is `compl_info.data_len`. -/
structure platform_usart_rx_async_desc_t where
  buf : Option (List Nat)
  max_len : Nat
  compl_type : Nat
  data_len : Nat
deriving DecidableEq, Repr

/-- Macro `PLATFORM_USART_RX_COMPL_NONE`. -/
def PLATFORM_USART_RX_COMPL_NONE : Nat := 0
/-- Macro `PLATFORM_USART_RX_COMPL_DATA`. -/
def PLATFORM_USART_RX_COMPL_DATA : Nat := 1
/-- Macro `PLATFORM_USART_RX_COMPL_BREAK`. -/
def PLATFORM_USART_RX_COMPL_BREAK : Nat := 2

/-- Member `tx` of `ctx_usart_t`: `desc` points into the fragment array of the
caller, `buf` into the bytes of the fragment in flight. -/
structure ctx_usart_tx_t where
  desc : Option (List platform_usart_tx_bufdesc_t)
  nr_desc : Nat
  buf : Option (List Nat)
  len : Nat
deriving DecidableEq, Repr

/-- Member `rx` of `ctx_usart_t`. While a reception is armed the descriptor
object `desc` points to is held here; completion hands it back to the caller
(see `usart_rx_abort_helper`). -/
structure ctx_usart_rx_t where
  desc : Option platform_usart_rx_async_desc_t
  ts_idle : platform_timespec_t
  idx : Nat
deriving DecidableEq, Repr

/-- Member `cfg` of `ctx_usart_t`. -/
structure ctx_usart_cfg_t where
  ts_idle_timeout : platform_timespec_t
deriving DecidableEq, Repr

/-- Structure `ctx_usart_t` of `usart.c`. `regs` names the SERCOM instance the
register pointer refers to (`none` is `NULL`). -/
structure ctx_usart_t where
  regs : Option Nat
  tx : ctx_usart_tx_t
  rx : ctx_usart_rx_t
  cfg : ctx_usart_cfg_t
deriving DecidableEq, Repr

/-- The context after `memset(&ctx, 0, sizeof(ctx))`. -/
def ctx_usart_zero : ctx_usart_t :=
  { regs := none
    tx := { desc := none, nr_desc := 0, buf := none, len := 0 }
    rx := { desc := none, ts_idle := PLATFORM_TIMESPEC_ZERO, idx := 0 }
    cfg := { ts_idle_timeout := PLATFORM_TIMESPEC_ZERO } }

/-- The registers of `sercom_usart_int_registers_t` that the engine reads, with
the values they hold during one call. -/
structure sercom_usart_int_registers_t where
  SERCOM_INTFLAG : Nat
  SERCOM_STATUS : Nat
  SERCOM_DATA : Nat
deriving DecidableEq, Repr

/-- What one call of `usart_tick_handler_common` hands to its environment:
the values stored to `SERCOM_DATA`, to `SERCOM_INTENCLR` and or-ed into
`SERCOM_STATUS`, and the descriptor of a reception completed by this call. -/
structure usart_tick_out_t where
  data_tx : List Nat
  intenclr : List Nat
  status_clr : List Nat
  completed : Option platform_usart_rx_async_desc_t
deriving DecidableEq, Repr

/-- Function `usart_rx_abort_helper` of `usart.c`. The second component is the
descriptor the context pointed to, stamped with its completion fields; the
caller owns it again from here on. -/
def usart_rx_abort_helper (ctx : ctx_usart_t) :
    ctx_usart_t × Option platform_usart_rx_async_desc_t :=
  let released := match ctx.rx.desc with
    | some d => some { d with compl_type := PLATFORM_USART_RX_COMPL_DATA, data_len := ctx.rx.idx }
    | none => none
  ({ ctx with rx := { desc := none, ts_idle := ⟨0, 0⟩, idx := 0 } }, released)

/-- The block `// TX handling` of `usart_tick_handler_common`. Returns the new
context, the values stored to `SERCOM_DATA` and those stored to
`SERCOM_INTENCLR`. -/
def usart_tick_tx (ctx : ctx_usart_t) (regs : sercom_usart_int_registers_t) :
    ctx_usart_t × List Nat × List Nat :=
  if regs.SERCOM_INTFLAG &&& 1 ≠ 0 then
    -- if (ctx->tx.len > 0) { DATA = *(ctx->tx.buf++); --ctx->tx.len; }
    let tx1 : ctx_usart_tx_t × List Nat :=
      if ctx.tx.len > 0 then
        ({ ctx.tx with buf := ctx.tx.buf.map List.tail, len := ctx.tx.len - 1 },
          [(ctx.tx.buf.getD []).headD 0])
      else (ctx.tx, [])
    -- if (ctx->tx.len == 0) { ... }
    if tx1.1.len = 0 then
      if tx1.1.nr_desc > 0 then
        let d := (tx1.1.desc.getD []).headD ⟨none, 0⟩
        let tx2 : ctx_usart_tx_t :=
          { desc := tx1.1.desc.map List.tail, nr_desc := tx1.1.nr_desc - 1,
            buf := d.buf, len := d.len }
        if tx2.buf = none ∨ tx2.len = 0 then
          ({ ctx with tx := { tx2 with buf := none, len := 0 } }, tx1.2, [])
        else
          ({ ctx with tx := tx2 }, tx1.2, [])
      else
        ({ ctx with tx := { tx1.1 with desc := none, buf := none } }, tx1.2, [1])
    else
      ({ ctx with tx := tx1.1 }, tx1.2, [])
  else (ctx, [], [])

/-- The block `// RX handling` and the `do { ... } while (0)` block of
`usart_tick_handler_common`. Returns the new context, the value or-ed into
`SERCOM_STATUS` and the descriptor released by a completion. -/
def usart_tick_rx (ctx : ctx_usart_t) (tick : platform_timespec_t)
    (regs : sercom_usart_int_registers_t) :
    ctx_usart_t × List Nat × Option platform_usart_rx_async_desc_t :=
  let status : Nat :=
    if regs.SERCOM_INTFLAG &&& 4 ≠ 0 then u16 (regs.SERCOM_STATUS ||| 0x8000) else 0
  let data : Nat :=
    if regs.SERCOM_INTFLAG &&& 4 ≠ 0 then u8 regs.SERCOM_DATA else 0
  match ctx.rx.desc with
  | none => (ctx, [], none)
  | some d =>
    let ctx1 : ctx_usart_t :=
      if status &&& 0x8003 = 0x8000 then
        { ctx with rx :=
            { desc := some { d with buf := d.buf.map (fun b => b.set ctx.rx.idx data) },
              ts_idle := tick,
              idx := u16 (ctx.rx.idx + 1) } }
      else ctx
    -- Some housekeeping
    if ctx1.rx.idx ≥ d.max_len then
      ((usart_rx_abort_helper ctx1).1, [status &&& 0x00F7], (usart_rx_abort_helper ctx1).2)
    else if ctx1.rx.idx > 0 then
      let ts_delta := platform_tick_delta tick ctx1.rx.ts_idle
      if platform_timespec_compare ts_delta ctx1.cfg.ts_idle_timeout ≥ 0 then
        ((usart_rx_abort_helper ctx1).1, [status &&& 0x00F7], (usart_rx_abort_helper ctx1).2)
      else (ctx1, [status &&& 0x00F7], none)
    else (ctx1, [status &&& 0x00F7], none)

/-- Function `usart_tick_handler_common` of `usart.c` (`poll`). `regs` holds the
values of the registers `ctx->regs` points to. -/
def usart_tick_handler_common (ctx : ctx_usart_t) (tick : platform_timespec_t)
    (regs : sercom_usart_int_registers_t) : ctx_usart_t × usart_tick_out_t :=
  let t := usart_tick_tx ctx regs
  let r := usart_tick_rx t.1 tick regs
  (r.1, { data_tx := t.2.1, intenclr := t.2.2, status_clr := r.2.1, completed := r.2.2 })

/-- Macro `NR_USART_CHARS_MAX`. -/
def NR_USART_CHARS_MAX : Nat := 65528

/-- Macro `NR_USART_TX_FRAG_MAX`. -/
def NR_USART_TX_FRAG_MAX : Nat := 32

/-- Function `usart_tx_busy` of `usart.c`. -/
def usart_tx_busy (ctx : ctx_usart_t) (regs : sercom_usart_int_registers_t) : Bool :=
  decide (ctx.tx.len > 0) || decide (ctx.tx.nr_desc > 0) ||
    decide (regs.SERCOM_INTFLAG &&& 1 = 0)

/-- The `for (x = 0, y = 0; x < nr_desc; ++x)` loop of `usart_tx_async`; the
first argument is `nr_desc - x`, the result is `false` when the loop leaves
through `return false`. -/
def usart_tx_async_loop (desc : List platform_usart_tx_bufdesc_t) :
    Nat → Nat → Nat → Bool
  | 0, _, _ => true
  | n + 1, x, avail =>
    if (desc.getD x ⟨none, 0⟩).len > avail then false
    else usart_tx_async_loop desc n (x + 1) (avail - (desc.getD x ⟨none, 0⟩).len)

/-- Function `usart_tx_async` of `usart.c` (`send`). -/
def usart_tx_async (ctx : ctx_usart_t) (regs : sercom_usart_int_registers_t)
    (desc : Option (List platform_usart_tx_bufdesc_t)) (nr_desc : Nat) :
    Bool × ctx_usart_t :=
  match desc with
  | none => (true, ctx)
  | some ds =>
    if nr_desc = 0 then (true, ctx)
    else if nr_desc > NR_USART_TX_FRAG_MAX then (false, ctx)
    else if usart_tx_busy ctx regs then (false, ctx)
    else if usart_tx_async_loop ds nr_desc 0 NR_USART_CHARS_MAX then
      (true, { ctx with tx := { ctx.tx with desc := some ds, nr_desc := u16 nr_desc } })
    else (false, ctx)

/-- Function `usart_tx_abort` of `usart.c`. -/
def usart_tx_abort (ctx : ctx_usart_t) : ctx_usart_t :=
  { ctx with tx := { desc := none, nr_desc := 0, buf := none, len := 0 } }

/-- Function `usart_rx_busy` of `usart.c`. -/
def usart_rx_busy (ctx : ctx_usart_t) : Bool := ctx.rx.desc.isSome

/-- Function `usart_rx_async` of `usart.c` (`receive`). `hr` is the timestamp
`platform_tick_hrcount` stores. The third component is the descriptor object of
the caller after the call. -/
def usart_rx_async (ctx : ctx_usart_t) (desc : Option platform_usart_rx_async_desc_t)
    (hr : platform_timespec_t) :
    Bool × ctx_usart_t × Option platform_usart_rx_async_desc_t :=
  match desc with
  | none => (false, ctx, none)
  | some d =>
    if d.buf = none ∨ d.max_len = 0 ∨ d.max_len > NR_USART_CHARS_MAX then
      (false, ctx, some d)
    else if ctx.rx.desc ≠ none then
      (false, ctx, some d)
    else
      let d1 := { d with compl_type := PLATFORM_USART_RX_COMPL_NONE, data_len := 0 }
      (true, { ctx with rx := { desc := some d1, ts_idle := hr, idx := 0 } }, some d1)

/-- Repeated calls of `usart_tick_handler_common` on one channel, one per
`(tick, registers)` pair; the second component lists, call by call, the values
stored to `SERCOM_DATA`. -/
def usart_poll_run (ctx : ctx_usart_t) :
    List (platform_timespec_t × sercom_usart_int_registers_t) → ctx_usart_t × List (List Nat)
  | [] => (ctx, [])
  | p :: rest =>
    ((usart_poll_run (usart_tick_handler_common ctx p.1 p.2).1 rest).1,
      (usart_tick_handler_common ctx p.1 p.2).2.data_tx ::
        (usart_poll_run (usart_tick_handler_common ctx p.1 p.2).1 rest).2)

/-- The bytes a fragment denotes: the first `len` bytes at `buf`, nothing for a
`NULL` pointer. -/
def tx_fragment_bytes (f : platform_usart_tx_bufdesc_t) : List Nat :=
  match f.buf with
  | none => []
  | some m => m.take f.len

/-- The bytes a transmit state still has to put on the wire: the rest of the
fragment in flight, then the queued fragments. -/
def tx_pending (tx : ctx_usart_tx_t) : List Nat :=
  (if tx.len > 0 then (tx.buf.getD []).take tx.len else []) ++
    ((tx.desc.getD []).take tx.nr_desc).flatMap tx_fragment_bytes

/-- An upper bound on the number of polls a transmit state needs to drain. -/
def tx_measure (tx : ctx_usart_tx_t) : Nat :=
  tx.len + tx.nr_desc +
    (((tx.desc.getD []).take tx.nr_desc).map (fun f => (tx_fragment_bytes f).length)).sum

/-- The pointers of a transmit state are valid: the fragment in flight has
`len` readable bytes, the queue has `nr_desc` readable descriptors, and each of
those refers to `len` readable bytes. -/
def tx_valid (tx : ctx_usart_tx_t) : Prop :=
  (tx.len > 0 → ∃ m, tx.buf = some m ∧ tx.len ≤ m.length) ∧
  tx.nr_desc ≤ (tx.desc.getD []).length ∧
  ∀ f ∈ (tx.desc.getD []).take tx.nr_desc, ∀ m, f.buf = some m → f.len ≤ m.length

/-- A transmission session: `usart_tx_async` is handed the fragment array `ds`
(with `nr_desc` the number of its elements), then the channel is polled once
per element of `inputs`. -/
def usart_tx_session (ctx : ctx_usart_t) (regs : sercom_usart_int_registers_t)
    (ds : List platform_usart_tx_bufdesc_t)
    (inputs : List (platform_timespec_t × sercom_usart_int_registers_t)) :
    ctx_usart_t × List (List Nat) :=
  usart_poll_run (usart_tx_async ctx regs (some ds) ds.length).2 inputs

/-! ## C library functions used by `main.c` -/

/-- The C string held in a `char` array: the bytes before the first NUL. -/
def c_str (a : List Nat) : List Nat := a.takeWhile (fun b => b != 0)

/-- C library `strlen`. -/
def strlen (a : List Nat) : Nat := (c_str a).length

/-- C library `strnlen`. -/
def strnlen (a : List Nat) (maxlen : Nat) : Nat := min (strlen a) maxlen

/-- C library `strcat(dest, src)`: the new contents of the array `dest`. The
string of `src` and a NUL are written from the NUL of `dest` on; bytes written
past the last element make the list longer than the array was. -/
def strcat (dest src : List Nat) : List Nat :=
  dest.take (strlen dest) ++ c_str src ++ [0] ++ dest.drop (strlen dest + strlen src + 1)

/-- Whether the list `hay` begins with `needle`. -/
def starts_with : List Nat → List Nat → Bool
  | _, [] => true
  | [], _ :: _ => false
  | h :: hay, n :: needle => h == n && starts_with hay needle

/-- Whether `needle` occurs in the list `hay`. -/
def occurs_in (needle : List Nat) : List Nat → Bool
  | [] => starts_with [] needle
  | h :: hay => starts_with (h :: hay) needle || occurs_in needle hay

/-- C library `strstr(haystack, needle) != NULL`. -/
def strstr (haystack needle : List Nat) : Bool := occurs_in (c_str needle) (c_str haystack)

/-- C library `memset(a, 0, sizeof(a))` on an array of `n` bytes. -/
def memset_zero (n : Nat) : List Nat := List.replicate n 0

/-! ## `main.c` -/

/-- Macro `CO2_BUF_SIZE`. -/
def CO2_BUF_SIZE : Nat := 9
/-- Macro `PMS_START_1`. -/
def PMS_START_1 : Nat := 0x42
/-- Macro `PMS_START_2`. -/
def PMS_START_2 : Nat := 0x4D
/-- Macro `PMS_BUF_SIZE`. -/
def PMS_BUF_SIZE : Nat := 32
/-- Macro `GPS_BUF_SIZE`. -/
def GPS_BUF_SIZE : Nat := 128

/-- The string literal `"$GPGGA"` as a `char` array. -/
def GPGGA : List Nat := [0x24, 0x47, 0x50, 0x47, 0x47, 0x41, 0]

/-- Structure `prog_state_t` of `main.c`. Each array `xxx_rx_buf` is the
contents of the `buf` field of the descriptor `xxx_rx_desc` that `prog_setup`
makes point to it. -/
structure prog_state_t where
  flags : Nat
  esp_tx_desc : List platform_usart_tx_bufdesc_t
  esp_tx_buf : List Nat
  co2_tx_desc : platform_usart_tx_bufdesc_t
  co2_tx_buf : List Nat
  esp_rx_desc : platform_usart_rx_async_desc_t
  co2_rx_desc : platform_usart_rx_async_desc_t
  pms_rx_desc : platform_usart_rx_async_desc_t
  gps_rx_desc : platform_usart_rx_async_desc_t
deriving DecidableEq, Repr

/-- The variables of the firmware: the file-scope variables of `main.c`, the
four channel contexts of `usart.c`, and the `prog_state_t ps` of `main`. -/
structure firmware_t where
  co2_flag : Bool
  pms_flag : Bool
  gps_flag : Bool
  buffer : List Nat
  co2_buf : List Nat
  co2_idx : Nat
  pms_buf : List Nat
  pms_idx : Nat
  gps_buf : List Nat
  gps_idx : Nat
  gps_sentence_flag : Bool
  ctx_uart_esp : ctx_usart_t
  ctx_uart_co2 : ctx_usart_t
  ctx_uart_pms : ctx_usart_t
  ctx_uart_gps : ctx_usart_t
  ps : prog_state_t
deriving DecidableEq, Repr

/-- What the hardware presents during one scheduler pass: the coherent copy of
`ts_wall`, the register `SysTick->VAL`, and for each channel context the
registers its `regs` pointer refers to. -/
structure hw_t where
  ts_wall : platform_timespec_t
  systick_val : Nat
  esp : sercom_usart_int_registers_t
  co2 : sercom_usart_int_registers_t
  pms : sercom_usart_int_registers_t
  gps : sercom_usart_int_registers_t
deriving DecidableEq, Repr

/-- One call of `platform_usart_esp_tx_async`: the fragments passed (the first
`nr_desc` elements at `desc`, with the bytes their buffers hold at the time of
the call) and the value returned. -/
structure esp_send_t where
  desc : List platform_usart_tx_bufdesc_t
  accepted : Bool
deriving DecidableEq, Repr

/-- Function `PMS_Read` of `main.c`; the second component lists the calls of
`platform_usart_esp_tx_async` it makes. -/
def PMS_Read (fw : firmware_t) (hw : hw_t) : firmware_t × List esp_send_t :=
  if !usart_rx_busy fw.ctx_uart_pms then
    let data := fw.ps.pms_rx_desc.buf.getD []
    let pms_buf :=
      if data.getD 0 0 = PMS_START_1 ∧ data.getD 1 0 = PMS_START_2 then
        (((((((fw.pms_buf.set 0 (data.getD 12 0)).set 1 (data.getD 13 0)).set 2
          (data.getD 14 0)).set 3 (data.getD 15 0)).set 4 (data.getD 24 0)).set 5
          (data.getD 25 0)).set 6 (data.getD 26 0)).set 7 (data.getD 27 0)
      else fw.pms_buf
    -- Send to ESP8266
    let esp_tx_desc := fw.ps.esp_tx_desc.set 2 ⟨some pms_buf, 8⟩
    let t := usart_tx_async fw.ctx_uart_esp hw.esp (some (esp_tx_desc.drop 2)) 1
    -- Restart reception
    let rx_desc := { fw.ps.pms_rx_desc with
      buf := fw.ps.pms_rx_desc.buf.map (fun _ => memset_zero PMS_BUF_SIZE) }
    let a := usart_rx_async fw.ctx_uart_pms (some rx_desc)
      (platform_tick_hrcount hw.ts_wall hw.systick_val)
    ({ fw with
        pms_buf := pms_buf
        ctx_uart_esp := t.2
        ctx_uart_pms := a.2.1
        ps := { fw.ps with esp_tx_desc := esp_tx_desc, pms_rx_desc := a.2.2.getD rx_desc } },
      [⟨(esp_tx_desc.drop 2).take 1, t.1⟩])
  else (fw, [])

/-- The first `if`/`else` of `GPS_Read`: store the byte `data` in `gps_buf`. -/
def GPS_Read_store (fw : firmware_t) (data : Nat) : firmware_t :=
  if fw.gps_idx < GPS_BUF_SIZE - 1 then
    let fw1 := { fw with gps_buf := fw.gps_buf.set fw.gps_idx data, gps_idx := fw.gps_idx + 1 }
    if data = 10 then
      { fw1 with gps_buf := fw1.gps_buf.set fw1.gps_idx 0, gps_sentence_flag := true }
    else fw1
  else
    -- Buffer overflow: Reset buffer
    { fw with gps_idx := 0 }

/-- The block `if (gps_sentence_flag) { ... }` of `GPS_Read`. -/
def GPS_Read_forward (fw : firmware_t) (hw : hw_t) : firmware_t × List esp_send_t :=
  if fw.gps_sentence_flag then
    let r : firmware_t × List esp_send_t :=
      if strstr fw.gps_buf GPGGA then
        let buffer := strcat fw.buffer fw.gps_buf
        let esp_tx_desc := fw.ps.esp_tx_desc.set 0 ⟨some buffer, u16 (strnlen buffer GPS_BUF_SIZE)⟩
        let t := usart_tx_async fw.ctx_uart_esp hw.esp (some esp_tx_desc) 1
        ({ fw with
            buffer := buffer
            ctx_uart_esp := t.2
            ps := { fw.ps with esp_tx_desc := esp_tx_desc } },
          [⟨esp_tx_desc.take 1, t.1⟩])
      else (fw, [])
    ({ r.1 with gps_buf := memset_zero GPS_BUF_SIZE, gps_sentence_flag := false, gps_idx := 0 },
      r.2)
  else (fw, [])

/-- Function `GPS_Read` of `main.c`; the second component lists the calls of
`platform_usart_esp_tx_async` it makes. -/
def GPS_Read (fw : firmware_t) (hw : hw_t) : firmware_t × List esp_send_t :=
  if !usart_rx_busy fw.ctx_uart_gps then
    let data := (fw.ps.gps_rx_desc.buf.getD []).getD 0 0
    let r := GPS_Read_forward (GPS_Read_store fw data) hw
    -- Restart reception for the next byte
    let rx_desc := { r.1.ps.gps_rx_desc with
      buf := r.1.ps.gps_rx_desc.buf.map (fun _ => memset_zero GPS_BUF_SIZE) }
    let a := usart_rx_async r.1.ctx_uart_gps (some rx_desc)
      (platform_tick_hrcount hw.ts_wall hw.systick_val)
    ({ r.1 with
        ctx_uart_gps := a.2.1
        ps := { r.1.ps with gps_rx_desc := a.2.2.getD rx_desc } },
      r.2)
  else (fw, [])

/-! ## `usart.c` bring-up, `gpio.c`, and the scheduler of `main.c` -/

/-- What `platform_usart_esp_init` does to the channel contexts. -/
def platform_usart_esp_init (fw : firmware_t) : firmware_t :=
  { fw with ctx_uart_esp :=
      { ctx_usart_zero with regs := some 0, cfg := { ts_idle_timeout := ⟨0, 468750⟩ } } }

/-- What `platform_usart_co2_init` does to the channel contexts. -/
def platform_usart_co2_init (fw : firmware_t) : firmware_t :=
  { fw with ctx_uart_co2 :=
      { ctx_usart_zero with regs := some 1, cfg := { ts_idle_timeout := ⟨0, 468750⟩ } } }

/-- What `platform_usart_pms_init` does to the channel contexts: it clears
`ctx_uart_pms`, stores the SERCOM3 registers in `ctx_uart_esp.regs`, and sets
the idle timeout of `ctx_uart_pms`. -/
def platform_usart_pms_init (fw : firmware_t) : firmware_t :=
  { fw with
    ctx_uart_pms := { ctx_usart_zero with cfg := { ts_idle_timeout := ⟨0, 468750⟩ } }
    ctx_uart_esp := { fw.ctx_uart_esp with regs := some 3 } }

/-- What `platform_usart_gps_init` does to the channel contexts. -/
def platform_usart_gps_init (fw : firmware_t) : firmware_t :=
  { fw with ctx_uart_gps :=
      { ctx_usart_zero with regs := some 5, cfg := { ts_idle_timeout := ⟨0, 468750⟩ } } }

/-- Function `platform_init` of `gpio.c`, as far as it touches the variables of
the firmware. -/
def platform_init (fw : firmware_t) : firmware_t :=
  platform_usart_gps_init (platform_usart_pms_init (platform_usart_co2_init
    (platform_usart_esp_init fw)))

/-- Function `prog_setup` of `main.c`. `ps` is an automatic variable: the
indeterminate contents of its three receive arrays are parameters. -/
def prog_setup (fw : firmware_t) (hw : hw_t) (co2_rx_buf pms_rx_buf gps_rx_buf : List Nat) :
    firmware_t :=
  let fw0 := platform_init fw
  let hr := platform_tick_hrcount hw.ts_wall hw.systick_val
  let co2_desc := { fw0.ps.co2_rx_desc with buf := some co2_rx_buf, max_len := 9 }
  let c := usart_rx_async fw0.ctx_uart_co2 (some co2_desc) hr
  let pms_desc := { fw0.ps.pms_rx_desc with buf := some pms_rx_buf, max_len := 32 }
  let p := usart_rx_async fw0.ctx_uart_pms (some pms_desc) hr
  let gps_desc := { fw0.ps.gps_rx_desc with buf := some gps_rx_buf, max_len := GPS_BUF_SIZE }
  let g := usart_rx_async fw0.ctx_uart_gps (some gps_desc) hr
  { fw0 with
    ctx_uart_co2 := c.2.1
    ctx_uart_pms := p.2.1
    ctx_uart_gps := g.2.1
    ps := { fw0.ps with
      co2_rx_desc := c.2.2.getD co2_desc
      pms_rx_desc := p.2.2.getD pms_desc
      gps_rx_desc := g.2.2.getD gps_desc } }

/-- Function `platform_usart_tick_handler` of `usart.c`. A descriptor that a
call completes is one of the descriptors of `ps`; its new contents are stored
there. The second component lists what the four calls hand out, in the order
ESP, CO2, PMS, GPS. -/
def platform_usart_tick_handler (fw : firmware_t) (tick : platform_timespec_t) (hw : hw_t) :
    firmware_t × List usart_tick_out_t :=
  let e := usart_tick_handler_common fw.ctx_uart_esp tick hw.esp
  let c := usart_tick_handler_common fw.ctx_uart_co2 tick hw.co2
  let p := usart_tick_handler_common fw.ctx_uart_pms tick hw.pms
  let g := usart_tick_handler_common fw.ctx_uart_gps tick hw.gps
  ({ fw with
      ctx_uart_esp := e.1
      ctx_uart_co2 := c.1
      ctx_uart_pms := p.1
      ctx_uart_gps := g.1
      ps := { fw.ps with
        esp_rx_desc := e.2.completed.getD fw.ps.esp_rx_desc
        co2_rx_desc := c.2.completed.getD fw.ps.co2_rx_desc
        pms_rx_desc := p.2.completed.getD fw.ps.pms_rx_desc
        gps_rx_desc := g.2.completed.getD fw.ps.gps_rx_desc } },
    [e.2, c.2, p.2, g.2])

/-- Function `platform_do_loop_one` of `gpio.c`. -/
def platform_do_loop_one (fw : firmware_t) (hw : hw_t) : firmware_t × List usart_tick_out_t :=
  platform_usart_tick_handler fw (platform_tick_hrcount hw.ts_wall hw.systick_val) hw

/-- Function `prog_loop_one` of `main.c`; the second component lists the calls
of `platform_usart_esp_tx_async` made during the pass. -/
def prog_loop_one (fw : firmware_t) (hw : hw_t) : firmware_t × List esp_send_t :=
  GPS_Read (platform_do_loop_one fw hw).1 hw

/-- Successive scheduler passes, one per element of `hws`, with the calls of
`platform_usart_esp_tx_async` they make. -/
def prog_loop (fw : firmware_t) : List hw_t → firmware_t × List esp_send_t
  | [] => (fw, [])
  | hw :: hws =>
    ((prog_loop (prog_loop_one fw hw).1 hws).1,
      (prog_loop_one fw hw).2 ++ (prog_loop (prog_loop_one fw hw).1 hws).2)

/-- The variables of the firmware at reset: statics are zero-initialised. -/
def firmware_reset : firmware_t :=
  { co2_flag := false, pms_flag := false, gps_flag := false
    buffer := memset_zero 256
    co2_buf := memset_zero CO2_BUF_SIZE, co2_idx := 0
    pms_buf := memset_zero PMS_BUF_SIZE, pms_idx := 0
    gps_buf := memset_zero GPS_BUF_SIZE, gps_idx := 0, gps_sentence_flag := false
    ctx_uart_esp := ctx_usart_zero, ctx_uart_co2 := ctx_usart_zero
    ctx_uart_pms := ctx_usart_zero, ctx_uart_gps := ctx_usart_zero
    ps :=
      { flags := 0
        esp_tx_desc := List.replicate 4 ⟨none, 0⟩
        esp_tx_buf := memset_zero 128
        co2_tx_desc := ⟨none, 0⟩
        co2_tx_buf := memset_zero CO2_BUF_SIZE
        esp_rx_desc := ⟨none, 0, 0, 0⟩
        co2_rx_desc := ⟨none, 0, 0, 0⟩
        pms_rx_desc := ⟨none, 0, 0, 0⟩
        gps_rx_desc := ⟨none, 0, 0, 0⟩ } }

/-- A hardware snapshot in which every transmitter is ready and no receiver
has a byte, at wall time `sec` seconds and `nsec` nanoseconds. -/
def hw_quiet (sec nsec : Nat) : hw_t :=
  { ts_wall := ⟨sec, nsec⟩, systick_val := SYSTICK_RELOAD_VAL
    esp := ⟨1, 0, 0⟩, co2 := ⟨1, 0, 0⟩, pms := ⟨1, 0, 0⟩, gps := ⟨1, 0, 0⟩ }

/-- As `hw_quiet`, with the error-free byte `b` waiting in the GPS receiver. -/
def hw_gps_byte (sec nsec b : Nat) : hw_t :=
  { hw_quiet sec nsec with gps := ⟨5, 0, b⟩ }

/-- As `hw_quiet`, with the error-free byte `b` waiting in the PMS receiver. -/
def hw_pms_byte (sec nsec b : Nat) : hw_t :=
  { hw_quiet sec nsec with pms := ⟨5, 0, b⟩ }

/-- The firmware after `prog_setup` at reset, the receive arrays zeroed. -/
def firmware_start : firmware_t :=
  prog_setup firmware_reset (hw_quiet 0 0) (memset_zero CO2_BUF_SIZE) (memset_zero PMS_BUF_SIZE)
    (memset_zero GPS_BUF_SIZE)

/-- Hardware snapshots that deliver the bytes `bs` to the GPS receiver one per
completed reception: for each byte a pass in which it arrives and, one second
later, a pass with a silent line; `k` is the wall time of the first pass, in
seconds. -/
def hw_gps_bytes : Nat → List Nat → List hw_t
  | _, [] => []
  | k, b :: bs => hw_gps_byte k 0 b :: hw_quiet (k + 1) 0 :: hw_gps_bytes (k + 2) bs

/-- The line `"$GPGGA\n"`. -/
def gpgga_line : List Nat := [0x24, 0x47, 0x50, 0x47, 0x47, 0x41, 10]

/-! ## `systick.c`: normalisation and the tick handler -/

/-- The `while (ts->nr_nsec >= 1000000000)` loop of
`platform_timespec_normalize`, unrolled `n` times. -/
def platform_timespec_normalize_n : Nat → platform_timespec_t → platform_timespec_t
  | 0, ts => ts
  | n + 1, ts =>
    if 1000000000 ≤ ts.nr_nsec then
      if ts.nr_sec < UINT32_MAX then
        platform_timespec_normalize_n n ⟨ts.nr_sec + 1, ts.nr_nsec - 1000000000⟩
      else
        ⟨ts.nr_sec, 1000000000 - 1⟩
    else ts

/-- Function `platform_timespec_normalize` of `systick.c`; the result is `*ts`.
Each iteration takes `10^9` off the nanoseconds, so the body runs at most
`ts.nr_nsec / 10^9` times. -/
def platform_timespec_normalize (ts : platform_timespec_t) : platform_timespec_t :=
  platform_timespec_normalize_n (ts.nr_nsec / 1000000000) ts

/-- The file-scope variables `ts_wall` and `ts_wall_cookie` of `systick.c`. -/
structure systick_t where
  ts_wall : platform_timespec_t
  ts_wall_cookie : Nat
deriving DecidableEq, Repr

/-- The variables of `systick.c` at reset. -/
def systick_reset : systick_t := ⟨PLATFORM_TIMESPEC_ZERO, 0⟩

/-- Function `SysTick_Handler` of `systick.c`, run to completion. -/
def SysTick_Handler (st : systick_t) : systick_t :=
  let t := tick_carry_loop
    ⟨st.ts_wall.nr_sec, u32 (st.ts_wall.nr_nsec + PLATFORM_TICK_PERIOD_US * 1000)⟩
  { ts_wall := t, ts_wall_cookie := u32 (u32 (st.ts_wall_cookie + 1) + 1) }

/-- Runs `SysTick_Handler` `k` times. -/
def SysTick_ticks : Nat → systick_t → systick_t
  | 0, st => st
  | k + 1, st => SysTick_Handler (SysTick_ticks k st)

/-! ## `main.c`: the gas-sensor decoder -/

/-- One piece of the text `CO2_Read` formats into `debug`: the dump of the nine
bytes `rx[0..8]`, the line `CO2: %u ppm`, the line
`Checksum error (expected %02X, got %02X)`, or the line
`Invalid MH-Z19C header`. -/
inductive co2_report_t where
  | rx_dump (bytes : List Nat)
  | co2_ppm (co2 : Nat)
  | checksum_error (expected got : Nat)
  | invalid_header
deriving DecidableEq, Repr

/-- The initialiser `(uint8_t *)ps->co2_rx_buf[0]` of the pointer `rx` in
`CO2_Read`: the value of element 0 of the array, converted to a pointer. -/
def CO2_Read_rx (co2_rx_buf : List Nat) : Nat := co2_rx_buf.getD 0 0

/-- The loop `for (int i = 1; i < 8; ++i) sum += rx[i];` of `CO2_Read` on the
`uint8_t sum`; `rx_at i` is `rx[i]`. -/
def CO2_Read_sum (rx_at : Nat → Nat) : Nat :=
  (List.range' 1 7).foldl (fun sum i => u8 (sum + rx_at i)) 0

/-- The part of `CO2_Read` that fills `debug` (from `// Print raw RX` to the
end of the header check). `mem` is the address space, one byte per address,
and `rx` the value of the pointer `rx`; `char` is unsigned on this target. -/
def CO2_Read_report (mem : Nat → Nat) (rx : Nat) : List co2_report_t :=
  let rx_at : Nat → Nat := fun i => mem (u32 (rx + i))
  co2_report_t.rx_dump ((List.range 9).map rx_at) ::
    (if rx_at 0 = 0xFF ∧ rx_at 1 = 0x86 then
      let sum := CO2_Read_sum rx_at
      let expected := u8 (0xFF - sum + 1)
      let co2 := u16 ((rx_at 2 <<< 8) ||| rx_at 3)
      if expected = rx_at 8 then
        [co2_report_t.co2_ppm co2]
      else
        [co2_report_t.checksum_error expected (rx_at 8), co2_report_t.co2_ppm co2]
    else
      [co2_report_t.invalid_header])

/-- An address space that holds `bytes` from address `base` on and zero
elsewhere. -/
def mem_with (base : Nat) (bytes : List Nat) : Nat → Nat :=
  fun a => if base ≤ a then bytes.getD (a - base) 0 else 0

/-- The value of the variables of `systick.c` after `j` runs of the handler
from reset (see `SysTick_ticks_from_reset`). -/
def systick_after (j : Nat) : systick_t :=
  ⟨⟨(j / 200) % 4294967296, (j % 200) * 5000000⟩, (2 * j) % 4294967296⟩

/-- The GPS reception is armed and has stored nothing yet: the state in which
`prog_setup` and every re-arming `GPS_Read` leave the GPS channel. -/
def gps_listening (fw : firmware_t) : Prop :=
  fw.ctx_uart_gps.rx.idx = 0 ∧
  fw.ctx_uart_gps.cfg.ts_idle_timeout = ⟨0, 468750⟩ ∧
  ∃ b, fw.ctx_uart_gps.rx.desc = some ⟨some b, GPS_BUF_SIZE, 0, 0⟩ ∧ 0 < b.length

/-- Two firmware states that agree on everything except, possibly, bytes of
`gps_buf` at or above `gps_idx` (any byte of it when the accumulator is full):
the array has its 128 bytes in both and no sentence is pending. -/
def gps_same_text (fw1 fw2 : firmware_t) : Prop :=
  fw2 = { fw1 with gps_buf := fw2.gps_buf } ∧
  fw1.gps_buf.length = GPS_BUF_SIZE ∧ fw2.gps_buf.length = GPS_BUF_SIZE ∧
  fw1.gps_sentence_flag = false ∧
  (GPS_BUF_SIZE - 1 ≤ fw1.gps_idx ∨
    fw2.gps_buf.take fw1.gps_idx = fw1.gps_buf.take fw1.gps_idx)

/-! ## `systick.c`: the reader `platform_tick_count` under interruption -/

/-- The invocations of `SysTick_Handler` that interrupt one pass of the
`do { ... } while` loop of `platform_tick_count`: how many run before the load
of `ts_wall_cookie`, before the load of `ts_wall.nr_sec`, before the load of
`ts_wall.nr_nsec` and before the second load of `ts_wall_cookie`. The handler
is an interrupt, so each invocation runs to its end between two loads. -/
structure tick_count_pass_t where
  before_cookie : Nat
  before_sec : Nat
  before_nsec : Nat
  before_test : Nat
deriving DecidableEq, Repr

/-- One pass of the `do { ... } while` loop of `platform_tick_count`, the
structure assignment `*tick = ts_wall` loading the members in declaration
order. Returns the clock variables after the pass, the value stored to `*tick`
and whether the loop condition `ts_wall_cookie != cookie` holds. -/
def platform_tick_count_pass (st : systick_t) (p : tick_count_pass_t) :
    systick_t × platform_timespec_t × Bool :=
  let s0 := SysTick_ticks p.before_cookie st
  let cookie := s0.ts_wall_cookie
  let s1 := SysTick_ticks p.before_sec s0
  let s2 := SysTick_ticks p.before_nsec s1
  let s3 := SysTick_ticks p.before_test s2
  (s3, ⟨s1.ts_wall.nr_sec, s2.ts_wall.nr_nsec⟩, decide (s3.ts_wall_cookie ≠ cookie))

/-- Function `platform_tick_count` of `systick.c`, one element of the list per
pass of its loop. The second component is the value left in `*tick` when the
function returns, `none` when the list ends while the loop still repeats. -/
def platform_tick_count (st : systick_t) :
    List tick_count_pass_t → systick_t × Option platform_timespec_t
  | [] => (st, none)
  | p :: rest =>
    if (platform_tick_count_pass st p).2.2 then
      platform_tick_count (platform_tick_count_pass st p).1 rest
    else ((platform_tick_count_pass st p).1, some (platform_tick_count_pass st p).2.1)

/-! ## `systick.c`: `delay` -/

/-- The test `delta.nr_sec * 1000000000 + delta.nr_nsec >= delay_ticks` of
`delay`, in `uint32_t` arithmetic. -/
def delay_exit_test (delay_ticks : Nat) (delta : platform_timespec_t) : Bool :=
  decide (delay_ticks ≤ u32 (u32 (delta.nr_sec * 1000000000) + delta.nr_nsec))

/-- The `do { ... } while (1)` loop of `delay`: `readings` are the values that
the successive calls of `platform_tick_count` store in `current_time`. The
result is the reading at which the loop breaks, `none` when the readings end
before it does. -/
def delay_loop (delay_ticks : Nat) (start_time : platform_timespec_t) :
    List platform_timespec_t → Option platform_timespec_t
  | [] => none
  | current_time :: rest =>
    if delay_exit_test delay_ticks (platform_tick_delta current_time start_time) then
      some current_time
    else delay_loop delay_ticks start_time rest

/-- Function `delay` of `systick.c`; `start_time` is the value the first call of
`platform_tick_count` stores. -/
def delay (milliseconds : Nat) (start_time : platform_timespec_t)
    (readings : List platform_timespec_t) : Option platform_timespec_t :=
  delay_loop (u32 (milliseconds * 1000)) start_time readings

/-! ## `usart.c`: sequences of receive-side calls on one channel -/

/-- A call on the receive side of a channel: `usart_rx_async` with the
descriptor passed and the timestamp `platform_tick_hrcount` gives it,
`usart_tick_handler_common` with its tick and the register values, or
`usart_rx_abort_helper` (the body of `platform_usart_xxx_rx_abort`). -/
inductive usart_rx_call_t where
  | receive (desc : Option platform_usart_rx_async_desc_t) (hr : platform_timespec_t)
  | poll (tick : platform_timespec_t) (regs : sercom_usart_int_registers_t)
  | rx_abort

/-- One receive-side call: the context after it and the descriptor it
completes, if any. -/
def usart_rx_call (ctx : ctx_usart_t) :
    usart_rx_call_t → ctx_usart_t × Option platform_usart_rx_async_desc_t
  | usart_rx_call_t.receive desc hr => ((usart_rx_async ctx desc hr).2.1, none)
  | usart_rx_call_t.poll tick regs =>
    ((usart_tick_handler_common ctx tick regs).1,
      (usart_tick_handler_common ctx tick regs).2.completed)
  | usart_rx_call_t.rx_abort => usart_rx_abort_helper ctx

/-- A sequence of receive-side calls: the context after them and the
descriptors completed on the way, in order. -/
def usart_rx_calls (ctx : ctx_usart_t) :
    List usart_rx_call_t → ctx_usart_t × List platform_usart_rx_async_desc_t
  | [] => (ctx, [])
  | c :: cs =>
    ((usart_rx_calls (usart_rx_call ctx c).1 cs).1,
      (usart_rx_call ctx c).2.toList ++ (usart_rx_calls (usart_rx_call ctx c).1 cs).2)

/-- The receive index of an armed channel is below the capacity `max_len` of
its descriptor, itself at most `NR_USART_CHARS_MAX`. -/
def usart_rx_in_bounds (ctx : ctx_usart_t) : Prop :=
  ∀ d : platform_usart_rx_async_desc_t, ctx.rx.desc = some d →
    ctx.rx.idx < d.max_len ∧ d.max_len ≤ NR_USART_CHARS_MAX

/-- The text `$GPGGA` followed by 120 letters `A`: with its terminator, the
longest line the accumulator of `GPS_Read` takes. -/
def gpgga_long : List Nat := [0x24, 0x47, 0x50, 0x47, 0x47, 0x41] ++ List.replicate 120 0x41

/-! ## Theorems -/


/-- The unrolled loop of `platform_tick_delta` leaves through its condition:
what is left of `c` is below `10^9`. -/
theorem tick_delta_loop_n_exit (n : Nat) :
    ∀ c d : Nat, c / 1000000000 ≤ n → (tick_delta_loop_n n c d).1 < 1000000000 := by
  induction n with
  | zero =>
    intro c d h
    simp only [tick_delta_loop_n]
    omega
  | succ n ih =>
    intro c d h
    simp only [tick_delta_loop_n]
    split_ifs with hc
    · exact ih _ _ (by omega)
    · simp only; omega

theorem tick_delta_loop_exit (c d : Nat) : (tick_delta_loop c d).1 < 1000000000 :=
  tick_delta_loop_n_exit _ c d le_rfl

/-- The unrolled loop of `platform_tick_hrcount` leaves through its condition:
the nanoseconds end below `10^9`. -/
theorem tick_carry_loop_n_exit (n : Nat) :
    ∀ t : platform_timespec_t, t.nr_nsec / 1000000000 ≤ n →
      (tick_carry_loop_n n t).nr_nsec < 1000000000 := by
  induction n with
  | zero =>
    intro t h
    simp only [tick_carry_loop_n]
    omega
  | succ n ih =>
    intro t h
    simp only [tick_carry_loop_n]
    split_ifs with hc
    · exact ih _ (by simp only; omega)
    · omega

theorem tick_carry_loop_exit (t : platform_timespec_t) :
    (tick_carry_loop t).nr_nsec < 1000000000 :=
  tick_carry_loop_n_exit _ t le_rfl

theorem tick_delta_loop_lt (c d : Nat) (h : c < 1000000000) : tick_delta_loop c d = (c, d) := by
  have : c / 1000000000 = 0 := by omega
  simp [tick_delta_loop, this, tick_delta_loop_n]

theorem tick_delta_ge_idle_timeout (t t0 : platform_timespec_t) (ht : t.fits) (ht0 : t0.fits)
    (h : t0.total_ns + 468750 ≤ t.total_ns) :
    0 ≤ platform_timespec_compare (platform_tick_delta t t0) ⟨0, 468750⟩ := by
  obtain ⟨ts, tn⟩ := t
  obtain ⟨s0, n0⟩ := t0
  simp only [platform_timespec_t.fits, platform_timespec_t.total_ns] at ht ht0 h
  by_cases hw : ts < s0
  · have hc : u32_sub s0 ts < 1000000000 := by unfold u32_sub; omega
    simp only [platform_tick_delta, hw, if_true, tick_delta_loop_lt _ _ hc]
    have : 0 < u32_dec (u32 (u32 (u32_sub UINT32_MAX s0 + ts) + 1)) := by
      unfold u32_dec u32 u32_sub UINT32_MAX
      split <;> omega
    unfold platform_timespec_compare
    simp only []
    split_ifs <;> omega
  · simp only [platform_tick_delta, hw, if_false]
    have h1 : u32_sub ts s0 = ts - s0 := by unfold u32_sub; omega
    unfold platform_timespec_compare
    simp only [h1]
    by_cases he : ts = s0
    · subst he
      have h2 : u32_sub tn n0 = tn - n0 := by unfold u32_sub; omega
      simp only [h2]
      split_ifs <;> omega
    · split_ifs <;> omega

/-- C1 (code defect): with `lhs = (1 s, 0 ns)` and `rhs = (0 s, 999999999 ns)`,
one nanosecond apart, `platform_tick_delta` borrows nothing: it returns
`(1 s, 3294967297 ns)`, whose nanoseconds are not below `10^9` and whose total
is not the elapsed time. -/
theorem platform_tick_delta_no_borrow :
    platform_tick_delta ⟨1, 0⟩ ⟨0, 999999999⟩ = ⟨1, 3294967297⟩ ∧
    ¬ (platform_tick_delta ⟨1, 0⟩ ⟨0, 999999999⟩).nr_nsec < 1000000000 ∧
    (platform_tick_delta ⟨1, 0⟩ ⟨0, 999999999⟩).total_ns ≠
      (⟨1, 0⟩ : platform_timespec_t).total_ns -
        (⟨0, 999999999⟩ : platform_timespec_t).total_ns := by
  decide

theorem usart_tick_tx_rx (ctx : ctx_usart_t) (regs : sercom_usart_int_registers_t) :
    (usart_tick_tx ctx regs).1.rx = ctx.rx ∧ (usart_tick_tx ctx regs).1.cfg = ctx.cfg := by
  unfold usart_tick_tx
  dsimp only
  split_ifs <;> exact ⟨rfl, rfl⟩

theorem usart_tick_rx_tx (ctx : ctx_usart_t) (tick : platform_timespec_t)
    (regs : sercom_usart_int_registers_t) : (usart_tick_rx ctx tick regs).1.tx = ctx.tx := by
  unfold usart_tick_rx
  dsimp only
  split
  · rfl
  · split_ifs <;> rfl

/-- C2 (code defect): a reception of capacity 9 receives its first byte at
`0 s 999900000 ns`; the next poll, `200000 ns` later (less than the idle timeout
of `468750 ns`) and with no byte available, already completes it with
`data_len = 1`, because `platform_tick_delta` returns `(1 s, 3295167296 ns)` for
the two ticks. -/
theorem usart_rx_completes_before_capacity :
    (⟨1, 100000⟩ : platform_timespec_t).total_ns -
        (⟨0, 999900000⟩ : platform_timespec_t).total_ns = 200000 ∧
    platform_tick_delta ⟨1, 100000⟩ ⟨0, 999900000⟩ = ⟨1, 3295167296⟩ ∧
    (usart_tick_handler_common
        (usart_rx_async { ctx_usart_zero with cfg := { ts_idle_timeout := ⟨0, 468750⟩ } }
          (some ⟨some (memset_zero 9), 9, 0, 0⟩) ⟨0, 999000000⟩).2.1
        ⟨0, 999900000⟩ ⟨5, 0, 0x41⟩).2.completed = none ∧
    (usart_tick_handler_common
        (usart_tick_handler_common
          (usart_rx_async { ctx_usart_zero with cfg := { ts_idle_timeout := ⟨0, 468750⟩ } }
            (some ⟨some (memset_zero 9), 9, 0, 0⟩) ⟨0, 999000000⟩).2.1
          ⟨0, 999900000⟩ ⟨5, 0, 0x41⟩).1
        ⟨1, 100000⟩ ⟨1, 0, 0⟩).2.completed =
      some ⟨some [0x41, 0, 0, 0, 0, 0, 0, 0, 0], 9, PLATFORM_USART_RX_COMPL_DATA, 1⟩ := by
  decide

/-- C3: an armed reception holding `k` bytes, `0 < k < max_len`, polled with no
byte available at a tick at least 468750 ns after the last accepted byte,
completes with kind `data` and `data_len = k`, and the channel is unarmed. -/
theorem usart_idle_timeout_completes (ctx : ctx_usart_t) (d : platform_usart_rx_async_desc_t)
    (tick : platform_timespec_t) (regs : sercom_usart_int_registers_t)
    (harmed : ctx.rx.desc = some d)
    (hk0 : 0 < ctx.rx.idx) (hkn : ctx.rx.idx < d.max_len)
    (hcfg : ctx.cfg.ts_idle_timeout = ⟨0, 468750⟩)
    (hnobyte : regs.SERCOM_INTFLAG &&& 4 = 0)
    (htick : tick.fits) (hlast : ctx.rx.ts_idle.fits)
    (hidle : ctx.rx.ts_idle.total_ns + 468750 ≤ tick.total_ns) :
    (usart_tick_handler_common ctx tick regs).1.rx.desc = none ∧
    (usart_tick_handler_common ctx tick regs).2.completed =
      some { d with compl_type := PLATFORM_USART_RX_COMPL_DATA, data_len := ctx.rx.idx } := by
  obtain ⟨hrx, hcf⟩ := usart_tick_tx_rx ctx regs
  have hd := tick_delta_ge_idle_timeout tick ctx.rx.ts_idle htick hlast hidle
  have hn : ¬ d.max_len ≤ ctx.rx.idx := by omega
  simp [usart_tick_handler_common, usart_tick_rx, hrx, hcf, harmed, hnobyte, hcfg, hn, hk0, hd,
    usart_rx_abort_helper]

theorem usart_idle_timeout_completes_witness :
    (usart_tick_handler_common
        { ctx_usart_zero with
          rx := { desc := some ⟨some [1, 2, 3, 4, 5, 0, 0, 0], 8, 0, 0⟩, ts_idle := ⟨7, 100⟩, idx := 5 }
          cfg := { ts_idle_timeout := ⟨0, 468750⟩ } }
        ⟨7, 468850⟩ ⟨1, 0, 0⟩).1.rx.desc = none ∧
    (usart_tick_handler_common
        { ctx_usart_zero with
          rx := { desc := some ⟨some [1, 2, 3, 4, 5, 0, 0, 0], 8, 0, 0⟩, ts_idle := ⟨7, 100⟩, idx := 5 }
          cfg := { ts_idle_timeout := ⟨0, 468750⟩ } }
        ⟨7, 468850⟩ ⟨1, 0, 0⟩).2.completed =
      some ⟨some [1, 2, 3, 4, 5, 0, 0, 0], 8, PLATFORM_USART_RX_COMPL_DATA, 5⟩ :=
  usart_idle_timeout_completes _ ⟨some [1, 2, 3, 4, 5, 0, 0, 0], 8, 0, 0⟩ ⟨7, 468850⟩ ⟨1, 0, 0⟩
    rfl (by decide) (by decide) rfl (by decide) (by decide) (by decide) (by decide)

theorem usart_tx_async_loop_iff (ds : List platform_usart_tx_bufdesc_t) :
    ∀ (n x avail : Nat), x + n ≤ ds.length →
      (usart_tx_async_loop ds n x avail = true ↔
        (((ds.drop x).take n).map (fun f => f.len)).sum ≤ avail) := by
  intro n
  induction n with
  | zero => intro x avail _; simp [usart_tx_async_loop]
  | succ n ih =>
    intro x avail hx
    have hlt : x < ds.length := by omega
    have hdrop : ds.drop x = ds[x] :: ds.drop (x + 1) := List.drop_eq_getElem_cons hlt
    have hget : ds.getD x ⟨none, 0⟩ = ds[x] := by
      simp [List.getD, List.getElem?_eq_getElem hlt]
    rw [usart_tx_async_loop, hget, hdrop]
    simp only [List.take_succ_cons, List.map_cons, List.sum_cons]
    by_cases hgt : ds[x].len > avail
    · simp [hgt]; omega
    · simp only [hgt, if_false]
      rw [ih (x + 1) (avail - ds[x].len) (by omega)]
      omega

theorem usart_tx_async_true_iff (ctx : ctx_usart_t) (regs : sercom_usart_int_registers_t)
    (ds : List platform_usart_tx_bufdesc_t) (nr_desc : Nat)
    (hne : 1 ≤ nr_desc) (hlen : nr_desc ≤ ds.length) :
    (usart_tx_async ctx regs (some ds) nr_desc).1 = true ↔
      nr_desc ≤ 32 ∧
      (ctx.tx.len = 0 ∧ ctx.tx.nr_desc = 0 ∧ regs.SERCOM_INTFLAG &&& 1 ≠ 0) ∧
      ((ds.take nr_desc).map (fun f => f.len)).sum ≤ 65528 := by
  have hloop := usart_tx_async_loop_iff ds nr_desc 0 NR_USART_CHARS_MAX (by omega)
  simp only [List.drop_zero] at hloop
  have h0 : nr_desc ≠ 0 := by omega
  unfold usart_tx_async
  simp only [h0, if_false, NR_USART_TX_FRAG_MAX]
  by_cases h32 : nr_desc > 32
  · simp only [h32, if_true]
    constructor
    · intro h; cases h
    · rintro ⟨h, _⟩; omega
  · simp only [h32, if_false]
    by_cases hb : usart_tx_busy ctx regs = true
    · simp only [hb, if_true]
      simp only [usart_tx_busy, Bool.or_eq_true, decide_eq_true_eq] at hb
      constructor
      · intro h; cases h
      · rintro ⟨_, ⟨h1, h2, h3⟩, _⟩; omega
    · simp only [hb]
      simp only [usart_tx_busy, Bool.or_eq_true, decide_eq_true_eq, not_or] at hb
      by_cases hl : usart_tx_async_loop ds nr_desc 0 NR_USART_CHARS_MAX = true
      · simp only [hl, if_true]
        have := hloop.mp hl
        simp only [NR_USART_CHARS_MAX] at this
        exact ⟨fun _ => ⟨by omega, ⟨by omega, by omega, hb.2⟩, this⟩, fun _ => rfl⟩
      · simp only [hl]
        constructor
        · intro h; cases h
        · rintro ⟨_, _, h⟩; exact absurd (hloop.mpr h) hl

/-- C5: for a non-empty fragment list, `usart_tx_async` accepts exactly when
the count is at most 32, the channel is not transmit-busy (nothing in flight,
nothing queued, hardware transmit-ready) and the fragment lengths sum to at
most 65528. -/
theorem usart_tx_async_accepts_iff (ctx : ctx_usart_t) (regs : sercom_usart_int_registers_t)
    (ds : List platform_usart_tx_bufdesc_t) (nr_desc : Nat)
    (hne : 1 ≤ nr_desc) (hlen : nr_desc ≤ ds.length) :
    (usart_tx_async ctx regs (some ds) nr_desc).1 = true ↔
      nr_desc ≤ 32 ∧
      (ctx.tx.len = 0 ∧ ctx.tx.nr_desc = 0 ∧ regs.SERCOM_INTFLAG &&& 1 ≠ 0) ∧
      ((ds.take nr_desc).map (fun f => f.len)).sum ≤ 65528 :=
  usart_tx_async_true_iff ctx regs ds nr_desc hne hlen

theorem usart_tx_async_accepts_iff_witness :
    (usart_tx_async ctx_usart_zero ⟨1, 0, 0⟩
        (some (List.replicate 32 ⟨some [0x41, 0x42], 2⟩)) 32).1 = true :=
  (usart_tx_async_accepts_iff ctx_usart_zero ⟨1, 0, 0⟩
      (List.replicate 32 ⟨some [0x41, 0x42], 2⟩) 32 (by decide) (by decide)).mpr
    ⟨by decide, ⟨rfl, rfl, by decide⟩, by decide⟩

theorem tx_fragment_bytes_empty (d : platform_usart_tx_bufdesc_t)
    (h : d.buf = none ∨ d.len = 0) : tx_fragment_bytes d = [] := by
  unfold tx_fragment_bytes
  rcases h with h | h
  · rw [h]
  · rw [h]; cases d.buf <;> simp

theorem tx_fragment_bytes_loaded (d : platform_usart_tx_bufdesc_t)
    (hv : ∀ m, d.buf = some m → d.len ≤ m.length) (h : ¬ (d.buf = none ∨ d.len = 0)) :
    ∃ m, d.buf = some m ∧ d.len ≤ m.length ∧ 0 < d.len ∧
      tx_fragment_bytes d = m.take d.len ∧ (tx_fragment_bytes d).length = d.len := by
  simp only [not_or] at h
  cases hb : d.buf with
  | none => exact absurd hb h.1
  | some m =>
    have := hv m hb
    refine ⟨m, rfl, this, by omega, ?_, ?_⟩
    · simp [tx_fragment_bytes, hb]
    · simp [tx_fragment_bytes, hb]; omega

/-- The part of one poll that loads the next queued fragment, on a state with
nothing in flight. -/
theorem usart_tick_tx_load (rg : Option Nat) (rx : ctx_usart_rx_t) (cfg : ctx_usart_cfg_t)
    (regs : sercom_usart_int_registers_t) (hready : regs.SERCOM_INTFLAG &&& 1 ≠ 0)
    (desc : Option (List platform_usart_tx_bufdesc_t)) (nr : Nat) (buf : Option (List Nat))
    (hv : tx_valid ⟨desc, nr, buf, 0⟩) :
    tx_valid (usart_tick_tx ⟨rg, ⟨desc, nr, buf, 0⟩, rx, cfg⟩ regs).1.tx ∧
    tx_pending ⟨desc, nr, buf, 0⟩ =
      tx_pending (usart_tick_tx ⟨rg, ⟨desc, nr, buf, 0⟩, rx, cfg⟩ regs).1.tx ∧
    (usart_tick_tx ⟨rg, ⟨desc, nr, buf, 0⟩, rx, cfg⟩ regs).2.1 = [] ∧
    tx_measure (usart_tick_tx ⟨rg, ⟨desc, nr, buf, 0⟩, rx, cfg⟩ regs).1.tx ≤
      tx_measure ⟨desc, nr, buf, 0⟩ - 1 := by
  obtain ⟨-, hv2, hv3⟩ := hv
  simp only at hv2 hv3
  have hready2 : regs.SERCOM_INTFLAG % 2 = 1 := by
    have := Nat.and_one_is_mod regs.SERCOM_INTFLAG
    omega
  by_cases hnr : nr > 0
  · obtain ⟨k, rfl⟩ : ∃ k, nr = k + 1 := ⟨nr - 1, by omega⟩
    cases desc with
    | none => simp at hv2
    | some l =>
      cases l with
      | nil => simp at hv2
      | cons d ds =>
        simp only [Option.getD_some, List.length_cons, List.take_succ_cons, List.mem_cons,
          forall_eq_or_imp] at hv2 hv3
        by_cases hd : d.buf = none ∨ d.len = 0
        · have hres : usart_tick_tx ⟨rg, ⟨some (d :: ds), k + 1, buf, 0⟩, rx, cfg⟩ regs =
              (⟨rg, ⟨some ds, k, none, 0⟩, rx, cfg⟩, [], []) := by
            simp [usart_tick_tx, hready2, hd]
          rw [hres]
          refine ⟨⟨by simp, by simp; omega, by simpa using hv3.2⟩, ?_, rfl, ?_⟩
          · simp [tx_pending, tx_fragment_bytes_empty d hd]
          · simp [tx_measure]
        · obtain ⟨m, hm, hle, hpos, hbytes, hblen⟩ := tx_fragment_bytes_loaded d hv3.1 hd
          have hres : usart_tick_tx ⟨rg, ⟨some (d :: ds), k + 1, buf, 0⟩, rx, cfg⟩ regs =
              (⟨rg, ⟨some ds, k, some m, d.len⟩, rx, cfg⟩, [], []) := by
            simp only [not_or] at hd
            simp [usart_tick_tx, hready2, hd, hm]
          rw [hres]
          refine ⟨⟨fun _ => ⟨m, rfl, hle⟩, by simp; omega, by simpa using hv3.2⟩, ?_, rfl, ?_⟩
          · simp [tx_pending, hbytes, hpos]
          · simp [tx_measure, hblen]; omega
  · have h0 : nr = 0 := by omega
    subst h0
    have hres : usart_tick_tx ⟨rg, ⟨desc, 0, buf, 0⟩, rx, cfg⟩ regs =
        (⟨rg, ⟨none, 0, none, 0⟩, rx, cfg⟩, [], [1]) := by
      simp [usart_tick_tx, hready2]
    rw [hres]
    simp [tx_valid, tx_pending, tx_measure]

theorem usart_tick_tx_step (ctx : ctx_usart_t) (regs : sercom_usart_int_registers_t)
    (hready : regs.SERCOM_INTFLAG &&& 1 ≠ 0) (hv : tx_valid ctx.tx) :
    tx_valid (usart_tick_tx ctx regs).1.tx ∧
    tx_pending ctx.tx = (usart_tick_tx ctx regs).2.1 ++ tx_pending (usart_tick_tx ctx regs).1.tx ∧
    (usart_tick_tx ctx regs).2.1.length ≤ 1 ∧
    tx_measure (usart_tick_tx ctx regs).1.tx ≤ tx_measure ctx.tx - 1 := by
  obtain ⟨rg, ⟨desc, nr, buf, len⟩, rx, cfg⟩ := ctx
  have hready2 : regs.SERCOM_INTFLAG % 2 = 1 := by
    have := Nat.and_one_is_mod regs.SERCOM_INTFLAG
    omega
  by_cases hlen : len > 0
  · obtain ⟨m, hm, hle⟩ := hv.1 hlen
    simp only at hm hle
    subst hm
    cases m with
    | nil => simp at hle; omega
    | cons b m =>
      simp only [List.length_cons] at hle
      by_cases h1 : len = 1
      · subst h1
        have hvB : tx_valid ⟨desc, nr, some m, 0⟩ := ⟨by simp, hv.2.1, hv.2.2⟩
        obtain ⟨l1, l2, l3, l4⟩ := usart_tick_tx_load rg rx cfg regs hready desc nr (some m) hvB
        have hres : usart_tick_tx ⟨rg, ⟨desc, nr, some (b :: m), 1⟩, rx, cfg⟩ regs =
            ((usart_tick_tx ⟨rg, ⟨desc, nr, some m, 0⟩, rx, cfg⟩ regs).1, [b],
              (usart_tick_tx ⟨rg, ⟨desc, nr, some m, 0⟩, rx, cfg⟩ regs).2.2) := by
          simp only [usart_tick_tx, hready, if_true, ne_eq, not_false_eq_true]
          simp
          split_ifs <;> simp
        rw [hres]
        refine ⟨l1, ?_, by simp, ?_⟩
        · simp only [← l2]
          simp [tx_pending]
        · simp only [tx_measure] at l4 ⊢
          omega
      · have hres : usart_tick_tx ⟨rg, ⟨desc, nr, some (b :: m), len⟩, rx, cfg⟩ regs =
            (⟨rg, ⟨desc, nr, some m, len - 1⟩, rx, cfg⟩, [b], []) := by
          have : ¬ (len - 1 = 0) := by omega
          simp [usart_tick_tx, hready2, hlen, this]
        rw [hres]
        obtain ⟨k, rfl⟩ : ∃ k, len = k + 2 := ⟨len - 2, by omega⟩
        refine ⟨⟨fun _ => ⟨m, rfl, by simp; omega⟩, hv.2.1, hv.2.2⟩, ?_, by simp, ?_⟩
        · simp [tx_pending]
        · simp only [tx_measure]
          omega
  · have h0 : len = 0 := by omega
    subst h0
    obtain ⟨l1, l2, l3, l4⟩ := usart_tick_tx_load rg rx cfg regs hready desc nr buf hv
    exact ⟨l1, by rw [l3]; simpa using l2, by rw [l3]; simp, l4⟩

theorem usart_poll_run_tx (inputs : List (platform_timespec_t × sercom_usart_int_registers_t)) :
    ∀ ctx : ctx_usart_t, tx_valid ctx.tx →
      (∀ p ∈ inputs, p.2.SERCOM_INTFLAG &&& 1 ≠ 0) →
      tx_valid (usart_poll_run ctx inputs).1.tx ∧
      tx_pending ctx.tx =
        (usart_poll_run ctx inputs).2.flatten ++ tx_pending (usart_poll_run ctx inputs).1.tx ∧
      (∀ w ∈ (usart_poll_run ctx inputs).2, w.length ≤ 1) ∧
      tx_measure (usart_poll_run ctx inputs).1.tx ≤ tx_measure ctx.tx - inputs.length := by
  induction inputs with
  | nil => intro ctx hv _; simp [usart_poll_run, hv]
  | cons p rest ih =>
    intro ctx hv hready
    have hp : p.2.SERCOM_INTFLAG &&& 1 ≠ 0 := hready p (List.mem_cons_self _ _)
    obtain ⟨s1, s2, s3, s4⟩ := usart_tick_tx_step ctx p.2 hp hv
    have htx : (usart_tick_handler_common ctx p.1 p.2).1.tx = (usart_tick_tx ctx p.2).1.tx := by
      simp [usart_tick_handler_common, usart_tick_rx_tx]
    have hout : (usart_tick_handler_common ctx p.1 p.2).2.data_tx = (usart_tick_tx ctx p.2).2.1 := rfl
    obtain ⟨i1, i2, i3, i4⟩ := ih (usart_tick_handler_common ctx p.1 p.2).1 (by rw [htx]; exact s1)
      (fun q hq => hready q (List.mem_cons_of_mem _ hq))
    rw [htx] at i2 i4
    simp only [usart_poll_run, List.flatten_cons, List.mem_cons, forall_eq_or_imp, List.length_cons]
    refine ⟨i1, ?_, ⟨by rw [hout]; exact s3, i3⟩, by omega⟩
    rw [hout, s2, i2, List.append_assoc]

theorem usart_tick_idle_silent (ctx : ctx_usart_t) (tick : platform_timespec_t)
    (regs : sercom_usart_int_registers_t) (h1 : ctx.tx.len = 0) (h2 : ctx.tx.nr_desc = 0) :
    (usart_tick_handler_common ctx tick regs).2.data_tx = [] ∧
    (usart_tick_handler_common ctx tick regs).1.tx.len = 0 ∧
    (usart_tick_handler_common ctx tick regs).1.tx.nr_desc = 0 := by
  have htx : (usart_tick_handler_common ctx tick regs).1.tx = (usart_tick_tx ctx regs).1.tx := by
    simp [usart_tick_handler_common, usart_tick_rx_tx]
  have hout : (usart_tick_handler_common ctx tick regs).2.data_tx = (usart_tick_tx ctx regs).2.1 := rfl
  rw [htx, hout]
  unfold usart_tick_tx
  by_cases hr : regs.SERCOM_INTFLAG &&& 1 ≠ 0
  · rw [if_pos hr]; simp [h1, h2]
  · rw [if_neg hr]; exact ⟨rfl, h1, h2⟩

theorem usart_tx_async_accepted (ctx : ctx_usart_t) (regs : sercom_usart_int_registers_t)
    (ds : List platform_usart_tx_bufdesc_t) (nr_desc : Nat)
    (hne : 1 ≤ nr_desc) (hlen : nr_desc ≤ ds.length)
    (h : (usart_tx_async ctx regs (some ds) nr_desc).1 = true) :
    (usart_tx_async ctx regs (some ds) nr_desc).2 =
      { ctx with tx := { ctx.tx with desc := some ds, nr_desc := nr_desc } } := by
  have hc := (usart_tx_async_true_iff ctx regs ds nr_desc hne hlen).mp h
  have h0 : nr_desc ≠ 0 := by omega
  have h32 : ¬ nr_desc > NR_USART_TX_FRAG_MAX := by simp [NR_USART_TX_FRAG_MAX]; omega
  have hu : u16 nr_desc = nr_desc := by unfold u16; omega
  unfold usart_tx_async at h ⊢
  simp only [h0, h32, if_false] at h ⊢
  by_cases hb : usart_tx_busy ctx regs = true
  · simp [hb] at h
  · simp only [hb] at h ⊢
    by_cases hl : usart_tx_async_loop ds nr_desc 0 NR_USART_CHARS_MAX = true
    · simp [hl, hu]
    · simp [hl] at h

/-- C6: after `usart_tx_async` accepts the fragments `ds` (their buffers being
readable), polls with the hardware transmit-ready write at most one byte each,
the bytes written are, in order, an initial segment of the concatenation of the
fragments (empty and `NULL` fragments contribute nothing), and once at least
`count + total length` polls have run the whole concatenation has been written,
the transmitter is idle, and any further poll writes nothing and leaves it
idle. -/
theorem usart_tx_drains_fragments (ctx : ctx_usart_t) (regs : sercom_usart_int_registers_t)
    (ds : List platform_usart_tx_bufdesc_t)
    (inputs : List (platform_timespec_t × sercom_usart_int_registers_t))
    (hne : ds ≠ [])
    (hvalid : ∀ f ∈ ds, ∀ m, f.buf = some m → f.len ≤ m.length)
    (haccept : (usart_tx_async ctx regs (some ds) ds.length).1 = true)
    (hready : ∀ p ∈ inputs, p.2.SERCOM_INTFLAG &&& 1 ≠ 0) :
    (∀ w ∈ (usart_tx_session ctx regs ds inputs).2, w.length ≤ 1) ∧
    (usart_tx_session ctx regs ds inputs).2.flatten <+: ds.flatMap tx_fragment_bytes ∧
    (ds.length + (ds.map (fun f => f.len)).sum ≤ inputs.length →
      (usart_tx_session ctx regs ds inputs).2.flatten = ds.flatMap tx_fragment_bytes ∧
      (usart_tx_session ctx regs ds inputs).1.tx.len = 0 ∧
      (usart_tx_session ctx regs ds inputs).1.tx.nr_desc = 0 ∧
      ∀ tick regs2,
        (usart_tick_handler_common (usart_tx_session ctx regs ds inputs).1 tick regs2).2.data_tx = [] ∧
        (usart_tick_handler_common (usart_tx_session ctx regs ds inputs).1 tick regs2).1.tx.len = 0 ∧
        (usart_tick_handler_common (usart_tx_session ctx regs ds inputs).1 tick regs2).1.tx.nr_desc
          = 0) := by
  have hlen1 : 1 ≤ ds.length := by
    cases ds with
    | nil => exact absurd rfl hne
    | cons _ _ => simp
  have hc := (usart_tx_async_true_iff ctx regs ds ds.length hlen1 le_rfl).mp haccept
  have hst := usart_tx_async_accepted ctx regs ds ds.length hlen1 le_rfl haccept
  obtain ⟨_, ⟨hidle1, hidle2, _⟩, hsum⟩ := hc
  simp only [List.take_length] at hsum
  -- the state right after the call
  have hv0 : tx_valid (usart_tx_async ctx regs (some ds) ds.length).2.tx := by
    rw [hst]
    refine ⟨by simp [hidle1], by simp, ?_⟩
    simpa using hvalid
  have hp0 : tx_pending (usart_tx_async ctx regs (some ds) ds.length).2.tx
      = ds.flatMap tx_fragment_bytes := by
    rw [hst]; simp [tx_pending, hidle1]
  have hm0 : tx_measure (usart_tx_async ctx regs (some ds) ds.length).2.tx
      ≤ ds.length + (ds.map (fun f => f.len)).sum := by
    rw [hst]
    simp only [tx_measure, hidle1, Option.getD_some, List.take_length, zero_add]
    have : ∀ l : List platform_usart_tx_bufdesc_t,
        (l.map (fun f => (tx_fragment_bytes f).length)).sum ≤ (l.map (fun f => f.len)).sum := by
      intro l
      induction l with
      | nil => simp
      | cons f l ih =>
        have hf : (tx_fragment_bytes f).length ≤ f.len := by
          unfold tx_fragment_bytes
          cases f.buf <;> simp
        simp only [List.map_cons, List.sum_cons]
        omega
    have := this ds
    omega
  obtain ⟨r1, r2, r3, r4⟩ := usart_poll_run_tx inputs _ hv0 hready
  rw [hp0] at r2
  refine ⟨r3, ⟨_, r2.symm⟩, fun hN => ?_⟩
  have hz : tx_measure (usart_tx_session ctx regs ds inputs).1.tx = 0 := by
    unfold usart_tx_session; omega
  have hl0 : (usart_tx_session ctx regs ds inputs).1.tx.len = 0 := by
    unfold tx_measure at hz; omega
  have hn0 : (usart_tx_session ctx regs ds inputs).1.tx.nr_desc = 0 := by
    unfold tx_measure at hz; omega
  have hpe : tx_pending (usart_tx_session ctx regs ds inputs).1.tx = [] := by
    simp [tx_pending, hl0, hn0]
  refine ⟨?_, hl0, hn0, fun tick regs2 => usart_tick_idle_silent _ tick regs2 hl0 hn0⟩
  unfold usart_tx_session at hpe ⊢
  rw [hpe, List.append_nil] at r2
  exact r2.symm

theorem usart_tx_drains_fragments_witness :
    (usart_tx_session ctx_usart_zero ⟨1, 0, 0⟩
        [⟨some [0x41, 0x42], 2⟩, ⟨none, 3⟩, ⟨some [0x43], 1⟩]
        (List.replicate 9 (⟨0, 0⟩, ⟨1, 0, 0⟩))).2.flatten = [0x41, 0x42, 0x43] :=
  ((usart_tx_drains_fragments ctx_usart_zero ⟨1, 0, 0⟩
      [⟨some [0x41, 0x42], 2⟩, ⟨none, 3⟩, ⟨some [0x43], 1⟩]
      (List.replicate 9 (⟨0, 0⟩, ⟨1, 0, 0⟩))
      (by decide) (by simp) (by decide) (by decide)).2.2 (by decide)).1

/-- C7: `usart_rx_async` succeeds exactly when the descriptor and its buffer are
non-null, `1 <= max_len <= 65528` and the channel is not armed. On success the
descriptor has kind `none` and `data_len = 0`, the index is 0, the
last-activity timestamp is the high-resolution time and the channel is armed
with that descriptor; on failure context and descriptor are unchanged. -/
theorem usart_rx_async_spec (ctx : ctx_usart_t)
    (desc : Option platform_usart_rx_async_desc_t) (ts_wall : platform_timespec_t) (val : Nat) :
    ((usart_rx_async ctx desc (platform_tick_hrcount ts_wall val)).1 = true ↔
      ∃ d b, desc = some d ∧ d.buf = some b ∧ 1 ≤ d.max_len ∧ d.max_len ≤ 65528 ∧
        ctx.rx.desc = none) ∧
    ((usart_rx_async ctx desc (platform_tick_hrcount ts_wall val)).1 = true →
      ∃ d, desc = some d ∧
        (usart_rx_async ctx desc (platform_tick_hrcount ts_wall val)).2.2 =
          some { d with compl_type := PLATFORM_USART_RX_COMPL_NONE, data_len := 0 } ∧
        (usart_rx_async ctx desc (platform_tick_hrcount ts_wall val)).2.1 =
          { ctx with rx :=
              { desc := some { d with compl_type := PLATFORM_USART_RX_COMPL_NONE, data_len := 0 }
                ts_idle := platform_tick_hrcount ts_wall val
                idx := 0 } }) ∧
    ((usart_rx_async ctx desc (platform_tick_hrcount ts_wall val)).1 = false →
      (usart_rx_async ctx desc (platform_tick_hrcount ts_wall val)).2.1 = ctx ∧
      (usart_rx_async ctx desc (platform_tick_hrcount ts_wall val)).2.2 = desc) := by
  cases desc with
  | none => simp [usart_rx_async]
  | some d =>
    unfold usart_rx_async
    simp only [NR_USART_CHARS_MAX]
    by_cases h1 : d.buf = none ∨ d.max_len = 0 ∨ d.max_len > 65528
    · rw [if_pos h1]
      refine ⟨⟨fun h => ?_, ?_⟩, fun h => ?_, fun _ => ?_⟩
      · simp at h
      · rintro ⟨d2, b, hd, hb, h3, h4, _⟩
        cases hd
        rcases h1 with h | h | h
        · rw [hb] at h; cases h
        · omega
        · omega
      · simp at h
      · exact ⟨rfl, rfl⟩
    · rw [if_neg h1]
      by_cases h2 : ctx.rx.desc ≠ none
      · rw [if_pos h2]
        refine ⟨⟨fun h => ?_, ?_⟩, fun h => ?_, fun _ => ?_⟩
        · simp at h
        · rintro ⟨_, _, _, _, _, _, h⟩
          exact absurd h h2
        · simp at h
        · exact ⟨rfl, rfl⟩
      · rw [if_neg h2]
        simp only [not_or] at h1
        obtain ⟨hb, h3, h4⟩ := h1
        refine ⟨⟨fun _ => ?_, fun _ => ?_⟩, fun _ => ⟨d, rfl, rfl, rfl⟩, fun h => ?_⟩
        · cases hbuf : d.buf with
          | none => exact absurd hbuf hb
          | some b => exact ⟨d, b, rfl, hbuf, by omega, by omega, by simpa using h2⟩
        · rfl
        · simp at h

/-- C8 (code defect): a particulate reception completes with first bytes
`0x55, 0x00`; `PMS_Read` nevertheless calls `platform_usart_esp_tx_async` with
the 8 bytes of `pms_buf`, and the call is accepted. -/
theorem PMS_Read_forwards_without_marker :
    (prog_loop firmware_start [hw_pms_byte 1 0 0x55, hw_quiet 2 0]).1.ps.pms_rx_desc =
      ⟨some (0x55 :: memset_zero 31), 32, PLATFORM_USART_RX_COMPL_DATA, 1⟩ ∧
    usart_rx_busy
      (prog_loop firmware_start [hw_pms_byte 1 0 0x55, hw_quiet 2 0]).1.ctx_uart_pms = false ∧
    (PMS_Read (prog_loop firmware_start [hw_pms_byte 1 0 0x55, hw_quiet 2 0]).1
        (hw_quiet 3 0)).2 = [⟨[⟨some (memset_zero 32), 8⟩], true⟩] := by
  decide

/-- `GPS_Read` reads `gps_rx_buf[0]` only. Were a GPS reception to complete
carrying the two bytes `"$G"`, which takes two bytes 100 us apart on a line
whose characters are more than an idle timeout apart, the first of them alone
would reach `gps_buf`. -/
theorem GPS_Read_drops_second_byte :
    (platform_do_loop_one
        (prog_loop firmware_start [hw_gps_byte 1 0 0x24, hw_gps_byte 1 100000 0x47]).1
        (hw_quiet 2 0)).1.ps.gps_rx_desc =
      ⟨some (0x24 :: 0x47 :: memset_zero 126), 128, PLATFORM_USART_RX_COMPL_DATA, 2⟩ ∧
    (prog_loop firmware_start
        [hw_gps_byte 1 0 0x24, hw_gps_byte 1 100000 0x47, hw_quiet 2 0]).1.gps_idx = 1 ∧
    (prog_loop firmware_start
        [hw_gps_byte 1 0 0x24, hw_gps_byte 1 100000 0x47, hw_quiet 2 0]).1.gps_buf =
      0x24 :: memset_zero 127 := by
  decide

set_option maxRecDepth 100000 in
/-- C10 (code defect): after one line `"$GPGGA\n"` has been forwarded the line
accumulator is empty again; feeding the same line once more, one byte per
reception, makes `GPS_Read` issue one send whose payload is the 14 bytes
`"$GPGGA\n$GPGGA\n"`, not the line. -/
theorem GPS_Read_forwards_stale_buffer :
    (prog_loop firmware_start (hw_gps_bytes 1 gpgga_line)).1.gps_idx = 0 ∧
    (prog_loop firmware_start (hw_gps_bytes 1 gpgga_line)).1.gps_buf = memset_zero 128 ∧
    (prog_loop firmware_start (hw_gps_bytes 1 gpgga_line)).2.map
      (fun s => s.desc.map tx_fragment_bytes) = [[gpgga_line]] ∧
    (prog_loop (prog_loop firmware_start (hw_gps_bytes 1 gpgga_line)).1
        (hw_gps_bytes 15 gpgga_line)).2.map (fun s => s.desc.map tx_fragment_bytes) =
      [[gpgga_line ++ gpgga_line]] := by
  decide


theorem platform_timespec_normalize_n_eq (n : Nat) :
    ∀ ts : platform_timespec_t, ts.nr_nsec / 1000000000 ≤ n → ts.nr_sec ≤ UINT32_MAX →
      platform_timespec_normalize_n n ts =
        if ts.nr_sec + ts.nr_nsec / 1000000000 ≤ UINT32_MAX then
          ⟨ts.nr_sec + ts.nr_nsec / 1000000000, ts.nr_nsec % 1000000000⟩
        else ⟨UINT32_MAX, 999999999⟩ := by
  induction n with
  | zero =>
    intro ts h hs
    obtain ⟨s, m⟩ := ts
    simp only at h hs
    have h0 : m / 1000000000 = 0 := by omega
    have h1 : m % 1000000000 = m := by omega
    simp [platform_timespec_normalize_n, h0, h1, hs]
  | succ n ih =>
    intro ts h hs
    obtain ⟨s, m⟩ := ts
    simp only at h hs
    simp only [platform_timespec_normalize_n]
    by_cases hm : 1000000000 ≤ m
    · rw [if_pos hm]
      by_cases hlt : s < UINT32_MAX
      · rw [if_pos hlt, ih ⟨s + 1, m - 1000000000⟩ (by simp only; omega) (by simp only; omega)]
        simp only
        have e1 : (m - 1000000000) / 1000000000 = m / 1000000000 - 1 := by omega
        have e2 : (m - 1000000000) % 1000000000 = m % 1000000000 := by omega
        have e3 : 1 ≤ m / 1000000000 := by omega
        rw [e1, e2]
        by_cases hc : s + m / 1000000000 ≤ UINT32_MAX
        · have hc2 : s + 1 + (m / 1000000000 - 1) ≤ UINT32_MAX := by omega
          rw [if_pos hc, if_pos hc2]
          have e4 : s + 1 + (m / 1000000000 - 1) = s + m / 1000000000 := by omega
          rw [e4]
        · have hc2 : ¬ s + 1 + (m / 1000000000 - 1) ≤ UINT32_MAX := by omega
          rw [if_neg hc, if_neg hc2]
      · rw [if_neg hlt]
        have e3 : 1 ≤ m / 1000000000 := by omega
        have hc : ¬ s + m / 1000000000 ≤ UINT32_MAX := by omega
        rw [if_neg hc]
        have : s = UINT32_MAX := by omega
        rw [this]
    · rw [if_neg hm]
      have h0 : m / 1000000000 = 0 := by omega
      have h1 : m % 1000000000 = m := by omega
      simp [h0, h1, hs]


/-- C15: on a timestamp of two `uint32_t` fields `platform_timespec_normalize`
yields `(s + n div 10^9, n mod 10^9)` when that number of seconds fits, and the
clamp `(2^32 - 1, 999999999)` otherwise; the nanoseconds end below `10^9` and
the seconds neither wrap nor decrease. -/
theorem platform_timespec_normalize_spec (ts : platform_timespec_t) (hfit : ts.fits) :
    platform_timespec_normalize ts =
      (if ts.nr_sec + ts.nr_nsec / 1000000000 ≤ 4294967295 then
        ⟨ts.nr_sec + ts.nr_nsec / 1000000000, ts.nr_nsec % 1000000000⟩
      else ⟨4294967295, 999999999⟩) ∧
    (platform_timespec_normalize ts).nr_nsec < 1000000000 ∧
    ts.nr_sec ≤ (platform_timespec_normalize ts).nr_sec ∧
    (platform_timespec_normalize ts).nr_sec ≤ 4294967295 := by
  have hs : ts.nr_sec ≤ UINT32_MAX := by
    have := hfit.1
    unfold UINT32_MAX; omega
  have h := platform_timespec_normalize_n_eq _ ts le_rfl hs
  unfold UINT32_MAX at h hs
  unfold platform_timespec_normalize
  rw [h]
  refine ⟨rfl, ?_, ?_, ?_⟩ <;> split_ifs <;> simp only <;> omega


theorem platform_timespec_normalize_spec_witness :
    platform_timespec_normalize ⟨4294967294, 3500000000⟩ = ⟨4294967295, 999999999⟩ ∧
    platform_timespec_normalize ⟨7, 3500000000⟩ = ⟨10, 500000000⟩ :=
  ⟨(platform_timespec_normalize_spec ⟨4294967294, 3500000000⟩ (by decide)).1,
    (platform_timespec_normalize_spec ⟨7, 3500000000⟩ (by decide)).1⟩


theorem tick_carry_loop_once (s m : Nat) (hm : m < 2000000000) :
    tick_carry_loop ⟨s, m⟩ =
      if 1000000000 ≤ m then ⟨u32 (s + 1), m - 1000000000⟩ else ⟨s, m⟩ := by
  unfold tick_carry_loop
  by_cases h : 1000000000 ≤ m
  · have h1 : m / 1000000000 = 1 := by omega
    simp only [h1, tick_carry_loop_n, h, if_true]
  · have h0 : m / 1000000000 = 0 := by omega
    simp only [h0, tick_carry_loop_n, h, if_false]


theorem SysTick_Handler_eq (st : systick_t) (hn : st.ts_wall.nr_nsec < 1000000000)
    (hs : st.ts_wall.nr_sec < 4294967296) :
    SysTick_Handler st =
      ⟨⟨(st.ts_wall.nr_sec + (st.ts_wall.nr_nsec + 5000000) / 1000000000) % 4294967296,
          (st.ts_wall.nr_nsec + 5000000) % 1000000000⟩,
        (st.ts_wall_cookie + 2) % 4294967296⟩ := by
  obtain ⟨⟨s, n⟩, c⟩ := st
  simp only at hn hs
  have hu : u32 (n + PLATFORM_TICK_PERIOD_US * 1000) = n + 5000000 := by
    unfold u32 PLATFORM_TICK_PERIOD_US; omega
  have hc : u32 (u32 (c + 1) + 1) = (c + 2) % 4294967296 := by unfold u32; omega
  simp only [SysTick_Handler, hu, hc, tick_carry_loop_once s (n + 5000000) (by omega)]
  by_cases h : 1000000000 ≤ n + 5000000
  · have e1 : (n + 5000000) / 1000000000 = 1 := by omega
    have e2 : (n + 5000000) % 1000000000 = n + 5000000 - 1000000000 := by omega
    rw [if_pos h, e1, e2]
    rfl
  · have e1 : (n + 5000000) / 1000000000 = 0 := by omega
    have e2 : (n + 5000000) % 1000000000 = n + 5000000 := by omega
    have e3 : s % 4294967296 = s := by omega
    rw [if_neg h, e1, e2]
    simp [e3]


theorem tick_step_sec (j : Nat) :
    ((j / 200) % 4294967296 + ((j % 200) * 5000000 + 5000000) / 1000000000) % 4294967296 =
      ((j + 1) / 200) % 4294967296 := by
  by_cases h : j % 200 = 199
  · have e1 : ((j % 200) * 5000000 + 5000000) / 1000000000 = 1 := by omega
    have e2 : (j + 1) / 200 = j / 200 + 1 := by omega
    rw [e1, e2]
    omega
  · have e1 : ((j % 200) * 5000000 + 5000000) / 1000000000 = 0 := by omega
    have e2 : (j + 1) / 200 = j / 200 := by omega
    rw [e1, e2]
    omega

theorem tick_step_nsec (j : Nat) :
    ((j % 200) * 5000000 + 5000000) % 1000000000 = ((j + 1) % 200) * 5000000 := by
  by_cases h : j % 200 = 199
  · have e2 : (j + 1) % 200 = 0 := by omega
    rw [h, e2]
  · have e2 : (j + 1) % 200 = j % 200 + 1 := by omega
    rw [e2]
    omega

theorem tick_step_cookie (j : Nat) :
    ((2 * j) % 4294967296 + 2) % 4294967296 = (2 * (j + 1)) % 4294967296 := by
  omega

theorem SysTick_ticks_succ (k : Nat) (st : systick_t) :
    SysTick_ticks (k + 1) st = SysTick_Handler (SysTick_ticks k st) := rfl

theorem SysTick_Handler_at (j : Nat) :
    SysTick_Handler (systick_after j) = systick_after (j + 1) := by
  have hn : (j % 200) * 5000000 < 1000000000 := by omega
  have hs : (j / 200) % 4294967296 < 4294967296 := by omega
  have h := SysTick_Handler_eq
    ⟨⟨(j / 200) % 4294967296, (j % 200) * 5000000⟩, (2 * j) % 4294967296⟩ hn hs
  have h2 : (⟨⟨((j / 200) % 4294967296 + ((j % 200) * 5000000 + 5000000) / 1000000000) %
          4294967296, ((j % 200) * 5000000 + 5000000) % 1000000000⟩,
        ((2 * j) % 4294967296 + 2) % 4294967296⟩ : systick_t) =
      ⟨⟨((j + 1) / 200) % 4294967296, ((j + 1) % 200) * 5000000⟩,
          (2 * (j + 1)) % 4294967296⟩ := by
    simp only [systick_t.mk.injEq, platform_timespec_t.mk.injEq]
    exact ⟨⟨tick_step_sec j, tick_step_nsec j⟩, tick_step_cookie j⟩
  exact h.trans h2

theorem SysTick_ticks_at (k : Nat) :
    ∀ j : Nat, SysTick_ticks k (systick_after j) = systick_after (j + k) := by
  induction k with
  | zero => intro j; rfl
  | succ k ih =>
    intro j
    have h1 := SysTick_ticks_succ k (systick_after j)
    have h2 : SysTick_Handler (SysTick_ticks k (systick_after j)) =
        SysTick_Handler (systick_after (j + k)) := congrArg SysTick_Handler (ih j)
    exact h1.trans (h2.trans (SysTick_Handler_at (j + k)))

theorem SysTick_ticks_from_reset (k : Nat) :
    SysTick_ticks k systick_reset =
      ⟨⟨(k / 200) % 4294967296, (k % 200) * 5000000⟩, (2 * k) % 4294967296⟩ := by
  have h0 : systick_reset = systick_after 0 := rfl
  have e : 0 + k = k := by omega
  have h := (SysTick_ticks_at k 0).trans (congrArg systick_after e)
  rw [h0]
  exact h

/-- C16: on a wall timestamp with nanoseconds below `10^9`, one run of
`SysTick_Handler` leaves the nanoseconds below `10^9`, advances the total by
exactly 5,000,000 ns (seconds modulo `2^32`) and the generation counter by 2
(modulo `2^32`); from reset, `k` runs give
`((k div 200) mod 2^32, (k mod 200) * 5000000)` and the counter `2 k`. -/
theorem SysTick_Handler_spec (st : systick_t) (k : Nat)
    (hn : st.ts_wall.nr_nsec < 1000000000) (hs : st.ts_wall.nr_sec < 4294967296) :
    (SysTick_Handler st).ts_wall.nr_nsec < 1000000000 ∧
    (SysTick_Handler st).ts_wall.nr_sec < 4294967296 ∧
    (SysTick_Handler st).ts_wall.total_ns =
      (st.ts_wall.total_ns + 5000000) % (4294967296 * 1000000000) ∧
    (SysTick_Handler st).ts_wall_cookie = (st.ts_wall_cookie + 2) % 4294967296 ∧
    SysTick_ticks k systick_reset =
      ⟨⟨(k / 200) % 4294967296, (k % 200) * 5000000⟩, (2 * k) % 4294967296⟩ := by
  rw [SysTick_Handler_eq st hn hs]
  refine ⟨?_, ?_, ?_, rfl, SysTick_ticks_from_reset k⟩
  · simp only; omega
  · simp only; omega
  · simp only [platform_timespec_t.total_ns]
    omega


theorem SysTick_Handler_spec_witness :
    (SysTick_Handler ⟨⟨4294967295, 995000000⟩, 4294967294⟩).ts_wall.total_ns =
      ((⟨4294967295, 995000000⟩ : platform_timespec_t).total_ns + 5000000) %
        (4294967296 * 1000000000) ∧
    SysTick_ticks 401 systick_reset =
      ⟨⟨(401 / 200) % 4294967296, (401 % 200) * 5000000⟩, (2 * 401) % 4294967296⟩ :=
  ⟨(SysTick_Handler_spec ⟨⟨4294967295, 995000000⟩, 4294967294⟩ 401 (by decide) (by decide)).2.2.1,
    (SysTick_Handler_spec ⟨⟨4294967295, 995000000⟩, 4294967294⟩ 401 (by decide)
      (by decide)).2.2.2.2⟩


/-- C17: `platform_timespec_compare` returns -1, 0 or +1 by the lexicographic
order on (seconds, nanoseconds): 0 exactly for equal timestamps, antisymmetric,
and for nanoseconds below `10^9` the sign of the difference of the totals. -/
theorem platform_timespec_compare_spec (a b : platform_timespec_t) :
    (platform_timespec_compare a b = -1 ↔
      (a.nr_sec < b.nr_sec ∨ (a.nr_sec = b.nr_sec ∧ a.nr_nsec < b.nr_nsec))) ∧
    (platform_timespec_compare a b = 0 ↔ a = b) ∧
    (platform_timespec_compare a b = 1 ↔
      (b.nr_sec < a.nr_sec ∨ (a.nr_sec = b.nr_sec ∧ b.nr_nsec < a.nr_nsec))) ∧
    (platform_timespec_compare a b = -1 ∨ platform_timespec_compare a b = 0 ∨
      platform_timespec_compare a b = 1) ∧
    platform_timespec_compare a b = - platform_timespec_compare b a ∧
    (a.nr_nsec < 1000000000 → b.nr_nsec < 1000000000 →
      platform_timespec_compare a b = Int.sign ((a.total_ns : Int) - (b.total_ns : Int))) := by
  obtain ⟨as, an⟩ := a
  obtain ⟨bs, bn⟩ := b
  simp only [platform_timespec_compare, platform_timespec_t.total_ns, platform_timespec_t.mk.injEq]
  refine ⟨?_, ?_, ?_, ?_, ?_, ?_⟩
  · split_ifs <;> simp <;> omega
  · split_ifs <;> simp <;> omega
  · split_ifs <;> simp <;> omega
  · split_ifs <;> simp
  · split_ifs <;> simp <;> omega
  · intro ha hb
    rcases Nat.lt_trichotomy as bs with h | h | h
    · have : ((as : Int) * 1000000000 + an) - ((bs : Int) * 1000000000 + bn) < 0 := by omega
      simp only [h, if_true]
      push_cast
      rw [Int.sign_eq_neg_one_of_neg this]
    · subst h
      rcases Nat.lt_trichotomy an bn with h2 | h2 | h2
      · have : ((as : Int) * 1000000000 + an) - ((as : Int) * 1000000000 + bn) < 0 := by omega
        simp only [lt_irrefl, if_false, gt_iff_lt, h2, if_true]
        push_cast
        rw [Int.sign_eq_neg_one_of_neg this]
      · subst h2
        simp
      · have : 0 < ((as : Int) * 1000000000 + an) - ((as : Int) * 1000000000 + bn) := by omega
        have h3 : ¬ an < bn := by omega
        simp only [lt_irrefl, if_false, gt_iff_lt, h2, h3, if_true]
        push_cast
        rw [Int.sign_eq_one_of_pos this]
    · have : 0 < ((as : Int) * 1000000000 + an) - ((bs : Int) * 1000000000 + bn) := by omega
      have h3 : ¬ as < bs := by omega
      simp only [h3, if_false, gt_iff_lt, h, if_true]
      push_cast
      rw [Int.sign_eq_one_of_pos this]


/-- C18: `usart_tx_async` with a null fragment array or the count 0 returns
`true` and leaves the channel context as it was, whatever its state; the bytes
later polls emit are therefore those emitted without the call. -/
theorem usart_tx_async_empty (ctx : ctx_usart_t) (regs : sercom_usart_int_registers_t)
    (desc : Option (List platform_usart_tx_bufdesc_t)) (nr_desc : Nat)
    (inputs : List (platform_timespec_t × sercom_usart_int_registers_t)) :
    usart_tx_async ctx regs none nr_desc = (true, ctx) ∧
    usart_tx_async ctx regs desc 0 = (true, ctx) ∧
    usart_poll_run (usart_tx_async ctx regs none nr_desc).2 inputs = usart_poll_run ctx inputs ∧
    usart_poll_run (usart_tx_async ctx regs desc 0).2 inputs = usart_poll_run ctx inputs := by
  have h1 : usart_tx_async ctx regs none nr_desc = (true, ctx) := rfl
  have h2 : usart_tx_async ctx regs desc 0 = (true, ctx) := by
    cases desc <;> simp [usart_tx_async]
  exact ⟨h1, h2, by rw [h1], by rw [h2]⟩


/-- C11 (code defect): for the reception `FF 86 02 8F 00 00 00 00 E9`, held in
RAM at address `0x20000000`, the pointer `rx` of `CO2_Read` is `0xFF`, the value
of byte 0, so the decoder reads addresses `0xFF..0x107` and reports an invalid
header; pointed at the reception itself the same code reports 655 ppm. The
report is the same for every reception whose byte 0 is `0xFF`. -/
theorem CO2_Read_decodes_wrong_address :
    CO2_Read_rx [0xFF, 0x86, 0x02, 0x8F, 0, 0, 0, 0, 0xE9] = 0xFF ∧
    CO2_Read_report (mem_with 0x20000000 [0xFF, 0x86, 0x02, 0x8F, 0, 0, 0, 0, 0xE9])
        (CO2_Read_rx [0xFF, 0x86, 0x02, 0x8F, 0, 0, 0, 0, 0xE9]) =
      [co2_report_t.rx_dump [0, 0, 0, 0, 0, 0, 0, 0, 0], co2_report_t.invalid_header] ∧
    CO2_Read_report (mem_with 0x20000000 [0xFF, 0x86, 0x02, 0x8F, 0, 0, 0, 0, 0xE9])
        0x20000000 =
      [co2_report_t.rx_dump [0xFF, 0x86, 0x02, 0x8F, 0, 0, 0, 0, 0xE9],
        co2_report_t.co2_ppm 655] ∧
    ∀ mem : Nat → Nat,
      CO2_Read_report mem (CO2_Read_rx [0xFF, 0x86, 0x02, 0x8F, 0, 0, 0, 0, 0xE9]) =
        CO2_Read_report mem (CO2_Read_rx [0xFF, 0x86, 0x00, 0x01, 0, 0, 0, 0, 0x79]) := by
  refine ⟨by decide, by decide, by decide, fun mem => rfl⟩


theorem list_length_ge_eight (l : List Nat) (h : 8 ≤ l.length) :
    ∃ a0 a1 a2 a3 a4 a5 a6 a7 r, l = a0 :: a1 :: a2 :: a3 :: a4 :: a5 :: a6 :: a7 :: r := by
  match l, h with
  | a0 :: a1 :: a2 :: a3 :: a4 :: a5 :: a6 :: a7 :: r, _ => exact ⟨a0, a1, a2, a3, a4, a5, a6, a7, r, rfl⟩


/-- C12: when a particulate reception has completed and its buffer `d` begins
`0x42, 0x4D`, `PMS_Read` issues exactly one send, of one fragment of length 8
whose bytes are `d[12], d[13], d[14], d[15], d[24], d[25], d[26], d[27]`. -/
theorem PMS_Read_forwards_summary (fw : firmware_t) (hw : hw_t) (d : List Nat)
    (hdone : usart_rx_busy fw.ctx_uart_pms = false)
    (hbuf : fw.ps.pms_rx_desc.buf = some d) (hlen : d.length = 32)
    (h0 : d.getD 0 0 = 0x42) (h1 : d.getD 1 0 = 0x4D)
    (hpms : fw.pms_buf.length = PMS_BUF_SIZE) (hdesc : fw.ps.esp_tx_desc.length = 4) :
    (PMS_Read fw hw).2.map (fun s => s.desc.map (fun f => (f.len, tx_fragment_bytes f))) =
      [[(8, [d.getD 12 0, d.getD 13 0, d.getD 14 0, d.getD 15 0,
             d.getD 24 0, d.getD 25 0, d.getD 26 0, d.getD 27 0])]] := by
  obtain ⟨a0, a1, a2, a3, a4, a5, a6, a7, r, hp⟩ :=
    list_length_ge_eight fw.pms_buf (by rw [hpms]; decide)
  obtain ⟨e0, e1, e2, e3, he⟩ : ∃ e0 e1 e2 e3, fw.ps.esp_tx_desc = [e0, e1, e2, e3] := by
    match h : fw.ps.esp_tx_desc, hdesc with
    | [e0, e1, e2, e3], _ => exact ⟨e0, e1, e2, e3, rfl⟩
  have _ := hlen
  have h0b : d[0]?.getD 0 = 66 := by simpa [List.getD_eq_getElem?_getD] using h0
  have h1b : d[1]?.getD 0 = 77 := by simpa [List.getD_eq_getElem?_getD] using h1
  simp [PMS_Read, hdone, hbuf, h0b, h1b, hp, he, PMS_START_1, PMS_START_2, tx_fragment_bytes]


theorem PMS_Read_forwards_summary_witness :
    (PMS_Read
        { firmware_start with
          ctx_uart_pms := (usart_rx_abort_helper firmware_start.ctx_uart_pms).1
          ps := { firmware_start.ps with
            pms_rx_desc := ⟨some (0x42 :: 0x4D :: List.range 30), 32, 1, 32⟩ } }
        (hw_quiet 3 0)).2.map (fun s => s.desc.map (fun f => (f.len, tx_fragment_bytes f))) =
      [[(8, [10, 11, 12, 13, 22, 23, 24, 25])]] :=
  PMS_Read_forwards_summary _ (hw_quiet 3 0) (0x42 :: 0x4D :: List.range 30)
    (by decide) rfl (by decide) (by decide) (by decide) (by decide) (by decide)


theorem usart_tick_unarmed (ctx : ctx_usart_t) (tick : platform_timespec_t)
    (regs : sercom_usart_int_registers_t) (h : ctx.rx.desc = none) :
    (usart_tick_handler_common ctx tick regs).1.rx.desc = none ∧
    (usart_tick_handler_common ctx tick regs).2.completed = none := by
  have hrx := (usart_tick_tx_rx ctx regs).1
  have hd : (usart_tick_tx ctx regs).1.rx.desc = none := by rw [hrx]; exact h
  simp only [usart_tick_handler_common, usart_tick_rx, hd]
  exact ⟨trivial, trivial⟩


theorem GPS_Read_store_frame (fw : firmware_t) (data : Nat) :
    (GPS_Read_store fw data).ctx_uart_esp = fw.ctx_uart_esp ∧
    (GPS_Read_store fw data).ctx_uart_co2 = fw.ctx_uart_co2 ∧
    (GPS_Read_store fw data).ctx_uart_pms = fw.ctx_uart_pms ∧
    (GPS_Read_store fw data).ctx_uart_gps = fw.ctx_uart_gps ∧
    (GPS_Read_store fw data).ps = fw.ps ∧
    (GPS_Read_store fw data).buffer = fw.buffer := by
  unfold GPS_Read_store
  split_ifs <;> simp


theorem GPS_Read_forward_frame (fw : firmware_t) (hw : hw_t) :
    (GPS_Read_forward fw hw).1.ctx_uart_co2 = fw.ctx_uart_co2 ∧
    (GPS_Read_forward fw hw).1.ctx_uart_pms = fw.ctx_uart_pms ∧
    (GPS_Read_forward fw hw).1.ctx_uart_gps = fw.ctx_uart_gps ∧
    (GPS_Read_forward fw hw).1.ps.gps_rx_desc = fw.ps.gps_rx_desc ∧
    (GPS_Read_forward fw hw).1.ps.pms_rx_desc = fw.ps.pms_rx_desc ∧
    (GPS_Read_forward fw hw).1.ps.co2_rx_desc = fw.ps.co2_rx_desc := by
  unfold GPS_Read_forward
  split_ifs <;> simp


theorem GPS_Read_frame (fw : firmware_t) (hw : hw_t) :
    (GPS_Read fw hw).1.ctx_uart_co2 = fw.ctx_uart_co2 ∧
    (GPS_Read fw hw).1.ctx_uart_pms = fw.ctx_uart_pms ∧
    (GPS_Read fw hw).1.ps.pms_rx_desc = fw.ps.pms_rx_desc ∧
    (GPS_Read fw hw).1.ps.co2_rx_desc = fw.ps.co2_rx_desc := by
  obtain ⟨s1, s2, s3, s4, s5, s6⟩ := GPS_Read_store_frame fw ((fw.ps.gps_rx_desc.buf.getD []).getD 0 0)
  obtain ⟨f1, f2, f3, f4, f5, f6⟩ := GPS_Read_forward_frame
    (GPS_Read_store fw ((fw.ps.gps_rx_desc.buf.getD []).getD 0 0)) hw
  unfold GPS_Read
  split_ifs
  · simp only [f1, f2, f5, f6, s2, s3, s5]
    exact ⟨trivial, trivial, trivial, trivial⟩
  · exact ⟨rfl, rfl, rfl, rfl⟩


theorem prog_loop_one_pms_unarmed (fw : firmware_t) (hw : hw_t)
    (h : fw.ctx_uart_pms.rx.desc = none) :
    (prog_loop_one fw hw).1.ctx_uart_pms.rx.desc = none := by
  unfold prog_loop_one
  rw [(GPS_Read_frame _ hw).2.1]
  exact (usart_tick_unarmed fw.ctx_uart_pms _ hw.pms h).1


theorem prog_loop_one_co2_unarmed (fw : firmware_t) (hw : hw_t)
    (h : fw.ctx_uart_co2.rx.desc = none) :
    (prog_loop_one fw hw).1.ctx_uart_co2.rx.desc = none := by
  unfold prog_loop_one
  rw [(GPS_Read_frame _ hw).1]
  exact (usart_tick_unarmed fw.ctx_uart_co2 _ hw.co2 h).1


theorem prog_loop_unarmed (hws : List hw_t) :
    ∀ fw : firmware_t,
      (fw.ctx_uart_pms.rx.desc = none → (prog_loop fw hws).1.ctx_uart_pms.rx.desc = none) ∧
      (fw.ctx_uart_co2.rx.desc = none → (prog_loop fw hws).1.ctx_uart_co2.rx.desc = none) := by
  induction hws with
  | nil => intro fw; exact ⟨fun h => h, fun h => h⟩
  | cons hw hws ih =>
    intro fw
    simp only [prog_loop]
    exact ⟨fun h => (ih _).1 (prog_loop_one_pms_unarmed fw hw h),
      fun h => (ih _).2 (prog_loop_one_co2_unarmed fw hw h)⟩


/-- C19 (code defect): after `prog_setup` the three receptions are armed; a
pass in which the particulate (or the gas) reception completes leaves it
unarmed, and so does every later pass: `prog_loop_one` runs `GPS_Read` only. -/
theorem prog_loop_one_rearms_gps_only :
    usart_rx_busy firmware_start.ctx_uart_co2 = true ∧
    usart_rx_busy firmware_start.ctx_uart_pms = true ∧
    usart_rx_busy firmware_start.ctx_uart_gps = true ∧
    (prog_loop firmware_start [hw_pms_byte 1 0 0x42, hw_quiet 2 0]).1.ps.pms_rx_desc =
      ⟨some (0x42 :: memset_zero 31), 32, PLATFORM_USART_RX_COMPL_DATA, 1⟩ ∧
    (∀ hws : List hw_t,
      usart_rx_busy (prog_loop (prog_loop firmware_start
        [hw_pms_byte 1 0 0x42, hw_quiet 2 0]).1 hws).1.ctx_uart_pms = false) ∧
    (prog_loop firmware_start
        [{ hw_quiet 1 0 with co2 := ⟨5, 0, 0xFF⟩ }, hw_quiet 2 0]).1.ps.co2_rx_desc =
      ⟨some (0xFF :: memset_zero 8), 9, PLATFORM_USART_RX_COMPL_DATA, 1⟩ ∧
    (∀ hws : List hw_t,
      usart_rx_busy (prog_loop (prog_loop firmware_start
        [{ hw_quiet 1 0 with co2 := ⟨5, 0, 0xFF⟩ }, hw_quiet 2 0]).1 hws).1.ctx_uart_co2 =
        false) := by
  refine ⟨by decide, by decide, by decide, by decide, fun hws => ?_, by decide, fun hws => ?_⟩
  · have h := (prog_loop_unarmed hws (prog_loop firmware_start
      [hw_pms_byte 1 0 0x42, hw_quiet 2 0]).1).1 (by decide)
    simp [usart_rx_busy, h]
  · have h := (prog_loop_unarmed hws (prog_loop firmware_start
      [{ hw_quiet 1 0 with co2 := ⟨5, 0, 0xFF⟩ }, hw_quiet 2 0]).1).2 (by decide)
    simp [usart_rx_busy, h]



theorem platform_tick_hrcount_reload (s n : Nat) (hn : n < 1000000000) :
    platform_tick_hrcount ⟨s, n⟩ SYSTICK_RELOAD_VAL = ⟨s, n⟩ := by
  have h1 : u32_sub SYSTICK_RELOAD_VAL SYSTICK_RELOAD_VAL = 0 := by decide
  have h2 : u32 (n + u32 (1000 * 0) / 12) = n := by unfold u32; omega
  simp only [platform_tick_hrcount, h1, h2]
  rw [tick_carry_loop_once s n (by omega), if_neg (by omega)]

theorem platform_tick_delta_self (t : platform_timespec_t) :
    platform_tick_delta t t = ⟨0, 0⟩ := by
  have h : ∀ a : Nat, u32_sub a a = 0 := by intro a; unfold u32_sub; omega
  simp [platform_tick_delta, h]

/-- A poll of an armed, still empty reception (capacity above 1, idle timeout
above zero) in which an error-free byte is available stores it and stays
armed. -/
theorem usart_tick_first_byte (ctx : ctx_usart_t) (tick : platform_timespec_t)
    (d : platform_usart_rx_async_desc_t) (byte : Nat)
    (harmed : ctx.rx.desc = some d) (hidx : ctx.rx.idx = 0) (hmax : 1 < d.max_len)
    (hcfg : ctx.cfg.ts_idle_timeout = ⟨0, 468750⟩) :
    (usart_tick_handler_common ctx tick ⟨5, 0, byte⟩).1.rx =
      { desc := some { d with buf := d.buf.map (fun b => b.set 0 (u8 byte)) },
        ts_idle := tick, idx := 1 } ∧
    (usart_tick_handler_common ctx tick ⟨5, 0, byte⟩).1.cfg = ctx.cfg ∧
    (usart_tick_handler_common ctx tick ⟨5, 0, byte⟩).2.completed = none := by
  obtain ⟨hrx, hcf⟩ := usart_tick_tx_rx ctx ⟨5, 0, byte⟩
  have hs : u16 (0 ||| 0x8000) &&& 0x8003 = 0x8000 := by decide
  have h4 : (5 : Nat) &&& 4 ≠ 0 := by decide
  have hm : ¬ d.max_len ≤ u16 (0 + 1) := by
    have : u16 (0 + 1) = 1 := by decide
    rw [this]; omega
  have hpos : u16 (0 + 1) > 0 := by decide
  have hcmp : ¬ platform_timespec_compare (platform_tick_delta tick tick) ⟨0, 468750⟩ ≥ 0 := by
    rw [platform_tick_delta_self]; decide
  have h1 : u16 (0 + 1) = 1 := by decide
  simp only [usart_tick_handler_common, usart_tick_rx, hrx, hcf, harmed, hidx, h4, ne_eq,
    not_false_eq_true, if_true, hs, ge_iff_le, hm, if_false, hpos, hcfg]
  simp only [ge_iff_le] at hcmp
  simp only [hcmp, if_false, h1]
  exact ⟨trivial, trivial, trivial⟩

/-- A poll of an armed reception that holds bytes but is not full, with no
byte available and the tick at least the idle timeout after the last byte,
completes it. -/
theorem usart_tick_idle_complete (ctx : ctx_usart_t) (tick : platform_timespec_t)
    (d : platform_usart_rx_async_desc_t)
    (harmed : ctx.rx.desc = some d) (hk0 : 0 < ctx.rx.idx) (hkn : ctx.rx.idx < d.max_len)
    (hcfg : ctx.cfg.ts_idle_timeout = ⟨0, 468750⟩)
    (htick : tick.fits) (hlast : ctx.rx.ts_idle.fits)
    (hidle : ctx.rx.ts_idle.total_ns + 468750 ≤ tick.total_ns) :
    (usart_tick_handler_common ctx tick ⟨1, 0, 0⟩).1.rx = ⟨none, ⟨0, 0⟩, 0⟩ ∧
    (usart_tick_handler_common ctx tick ⟨1, 0, 0⟩).1.cfg = ctx.cfg ∧
    (usart_tick_handler_common ctx tick ⟨1, 0, 0⟩).2.completed =
      some { d with compl_type := PLATFORM_USART_RX_COMPL_DATA, data_len := ctx.rx.idx } := by
  obtain ⟨hrx, hcf⟩ := usart_tick_tx_rx ctx ⟨1, 0, 0⟩
  have hd := tick_delta_ge_idle_timeout tick ctx.rx.ts_idle htick hlast hidle
  have hn : ¬ d.max_len ≤ ctx.rx.idx := by omega
  have h4 : (1 : Nat) &&& 4 = 0 := by decide
  simp [usart_tick_handler_common, usart_tick_rx, hrx, hcf, harmed, h4, hcfg, hn, hk0, hd,
    usart_rx_abort_helper]

theorem GPS_Read_busy (fw : firmware_t) (hw : hw_t) (h : usart_rx_busy fw.ctx_uart_gps = true) :
    GPS_Read fw hw = (fw, []) := by
  simp [GPS_Read, h]

/-- What `GPS_Read` does once the reception has completed: the decoder
variables and the sends are those of the store and forward blocks, and the
reception is armed again on the zeroed array. -/
theorem GPS_Read_done (fw : firmware_t) (hw : hw_t) (b : List Nat)
    (h : usart_rx_busy fw.ctx_uart_gps = false)
    (hbuf : fw.ps.gps_rx_desc.buf = some b) (hmax : fw.ps.gps_rx_desc.max_len = GPS_BUF_SIZE)
    (hcfg : fw.ctx_uart_gps.cfg.ts_idle_timeout = ⟨0, 468750⟩) :
    (GPS_Read fw hw).2 = (GPS_Read_forward (GPS_Read_store fw (b.getD 0 0)) hw).2 ∧
    (GPS_Read fw hw).1.gps_buf = (GPS_Read_forward (GPS_Read_store fw (b.getD 0 0)) hw).1.gps_buf ∧
    (GPS_Read fw hw).1.gps_idx = (GPS_Read_forward (GPS_Read_store fw (b.getD 0 0)) hw).1.gps_idx ∧
    (GPS_Read fw hw).1.gps_sentence_flag =
      (GPS_Read_forward (GPS_Read_store fw (b.getD 0 0)) hw).1.gps_sentence_flag ∧
    (GPS_Read fw hw).1.buffer = (GPS_Read_forward (GPS_Read_store fw (b.getD 0 0)) hw).1.buffer ∧
    gps_listening (GPS_Read fw hw).1 := by
  obtain ⟨s1, s2, s3, s4, s5, s6⟩ := GPS_Read_store_frame fw (b.getD 0 0)
  obtain ⟨f1, f2, f3, f4, f5, f6⟩ := GPS_Read_forward_frame (GPS_Read_store fw (b.getD 0 0)) hw
  have hdesc : (GPS_Read_forward (GPS_Read_store fw (b.getD 0 0)) hw).1.ps.gps_rx_desc =
      fw.ps.gps_rx_desc := by rw [f4, s5]
  have hctx : (GPS_Read_forward (GPS_Read_store fw (b.getD 0 0)) hw).1.ctx_uart_gps =
      fw.ctx_uart_gps := by rw [f3, s4]
  have hnone : fw.ctx_uart_gps.rx.desc = none := by
    simpa [usart_rx_busy] using h
  simp only [GPS_Read, h, Bool.not_false, if_true, hbuf, Option.getD_some, hdesc, hctx]
  refine ⟨trivial, trivial, trivial, trivial, trivial, ?_⟩
  simp only [gps_listening, usart_rx_async, hbuf, Option.map_some', hmax, hnone, hcfg,
    GPS_BUF_SIZE, NR_USART_CHARS_MAX, PLATFORM_USART_RX_COMPL_NONE, memset_zero]
  simp [hcfg]

theorem platform_do_loop_one_gps (fw : firmware_t) (hw : hw_t) :
    (platform_do_loop_one fw hw).1.ctx_uart_gps =
      (usart_tick_handler_common fw.ctx_uart_gps
        (platform_tick_hrcount hw.ts_wall hw.systick_val) hw.gps).1 ∧
    (platform_do_loop_one fw hw).1.ps.gps_rx_desc =
      (usart_tick_handler_common fw.ctx_uart_gps
        (platform_tick_hrcount hw.ts_wall hw.systick_val) hw.gps).2.completed.getD
          fw.ps.gps_rx_desc :=
  ⟨rfl, rfl⟩

/-- Two scheduler passes that deliver one byte to the listening GPS channel:
the byte arrives in the first, the line is silent in the second, one second
later. They amount to one `GPS_Read` on a completed reception of one byte
(`data_len = 1`), the byte delivered, the decoder variables being untouched
until then. -/
theorem prog_loop_gps_byte (fw : firmware_t) (k byte : Nat)
    (hl : gps_listening fw) (hk : k + 1 < 4294967296) :
    ∃ (fwB : firmware_t) (b : List Nat),
      prog_loop fw [hw_gps_byte k 0 byte, hw_quiet (k + 1) 0] =
        GPS_Read fwB (hw_quiet (k + 1) 0) ∧
      usart_rx_busy fwB.ctx_uart_gps = false ∧
      fwB.ps.gps_rx_desc.buf = some b ∧ b.getD 0 0 = u8 byte ∧
      fwB.ps.gps_rx_desc.max_len = GPS_BUF_SIZE ∧
      fwB.ctx_uart_gps.cfg.ts_idle_timeout = ⟨0, 468750⟩ ∧
      fwB.gps_buf = fw.gps_buf ∧ fwB.gps_idx = fw.gps_idx ∧
      fwB.gps_sentence_flag = fw.gps_sentence_flag ∧ fwB.buffer = fw.buffer ∧
      fwB.ps.gps_rx_desc.data_len = 1 := by
  obtain ⟨hidx, hcfg, b, hdesc, hb⟩ := hl
  -- first pass: the byte is stored, the reception stays armed
  have hA := usart_tick_first_byte fw.ctx_uart_gps ⟨k, 0⟩ ⟨some b, GPS_BUF_SIZE, 0, 0⟩ byte
    hdesc hidx (by simp [GPS_BUF_SIZE]) hcfg
  obtain ⟨hA1, hA2, hA3⟩ := hA
  simp only [Option.map_some'] at hA1
  have htA : platform_tick_hrcount (hw_gps_byte k 0 byte).ts_wall
      (hw_gps_byte k 0 byte).systick_val = ⟨k, 0⟩ :=
    platform_tick_hrcount_reload k 0 (by omega)
  have htB : platform_tick_hrcount (hw_quiet (k + 1) 0).ts_wall
      (hw_quiet (k + 1) 0).systick_val = ⟨k + 1, 0⟩ :=
    platform_tick_hrcount_reload (k + 1) 0 (by omega)
  have hgA : (hw_gps_byte k 0 byte).gps = ⟨5, 0, byte⟩ := rfl
  have hgB : (hw_quiet (k + 1) 0).gps = ⟨1, 0, 0⟩ := rfl
  -- the state after the first pass
  have hctxA : (platform_do_loop_one fw (hw_gps_byte k 0 byte)).1.ctx_uart_gps =
      (usart_tick_handler_common fw.ctx_uart_gps ⟨k, 0⟩ ⟨5, 0, byte⟩).1 := by
    rw [(platform_do_loop_one_gps fw (hw_gps_byte k 0 byte)).1, htA, hgA]
  have hbusyA : usart_rx_busy (platform_do_loop_one fw (hw_gps_byte k 0 byte)).1.ctx_uart_gps
      = true := by
    rw [hctxA]; simp [usart_rx_busy, hA1]
  have hpA : prog_loop_one fw (hw_gps_byte k 0 byte) =
      ((platform_do_loop_one fw (hw_gps_byte k 0 byte)).1, []) := by
    unfold prog_loop_one
    exact GPS_Read_busy _ _ hbusyA
  -- second pass: the idle timeout completes the reception
  have hB := usart_tick_idle_complete
    (usart_tick_handler_common fw.ctx_uart_gps ⟨k, 0⟩ ⟨5, 0, byte⟩).1 ⟨k + 1, 0⟩
    { buf := some (b.set 0 (u8 byte)), max_len := GPS_BUF_SIZE, compl_type := 0, data_len := 0 }
    (by rw [hA1]) (by rw [hA1]; simp) (by rw [hA1]; simp [GPS_BUF_SIZE])
    (by rw [hA2]; exact hcfg)
    (by unfold platform_timespec_t.fits; simp only; omega)
    (by rw [hA1]; unfold platform_timespec_t.fits; simp only; omega)
    (by rw [hA1]; simp only [platform_timespec_t.total_ns]; omega)
  obtain ⟨hB1, hB2, hB3⟩ := hB
  have hctxB : (platform_do_loop_one (platform_do_loop_one fw (hw_gps_byte k 0 byte)).1
      (hw_quiet (k + 1) 0)).1.ctx_uart_gps =
      (usart_tick_handler_common
        (usart_tick_handler_common fw.ctx_uart_gps ⟨k, 0⟩ ⟨5, 0, byte⟩).1 ⟨k + 1, 0⟩
        ⟨1, 0, 0⟩).1 := by
    rw [(platform_do_loop_one_gps _ (hw_quiet (k + 1) 0)).1, htB, hgB, hctxA]
  have hdescB : (platform_do_loop_one (platform_do_loop_one fw (hw_gps_byte k 0 byte)).1
      (hw_quiet (k + 1) 0)).1.ps.gps_rx_desc =
      { buf := some (b.set 0 (u8 byte)), max_len := GPS_BUF_SIZE,
        compl_type := PLATFORM_USART_RX_COMPL_DATA, data_len := 1 } := by
    rw [(platform_do_loop_one_gps _ (hw_quiet (k + 1) 0)).2, htB, hgB, hctxA, hB3, hA1]
    rfl
  refine ⟨(platform_do_loop_one (platform_do_loop_one fw (hw_gps_byte k 0 byte)).1
    (hw_quiet (k + 1) 0)).1, b.set 0 (u8 byte), ?_, ?_, ?_, ?_, ?_, ?_, rfl, rfl, rfl, rfl, ?_⟩
  · simp only [prog_loop, hpA, List.nil_append, List.append_nil]
    rfl
  · rw [hctxB]
    simp [usart_rx_busy, hB1]
  · rw [hdescB]
  · cases b with
    | nil => simp at hb
    | cons x xs => simp
  · rw [hdescB]
  · rw [hctxB, hB2, hA2]
    exact hcfg
  · rw [hdescB]

theorem take_succ_set (l : List Nat) (n a : Nat) (h : n < l.length) :
    (l.set n a).take (n + 1) = l.take n ++ [a] := by
  rw [List.set_eq_take_cons_drop a h]
  have hl : (l.take n).length = n := by simp; omega
  rw [List.take_append_eq_append_take, hl]
  simp

theorem c_str_append_zero (a b : List Nat) : c_str (a ++ 0 :: b) = c_str a := by
  induction a with
  | nil => simp [c_str]
  | cons x xs ih =>
    unfold c_str at ih ⊢
    rw [List.cons_append, List.takeWhile_cons, List.takeWhile_cons, ih]

theorem c_str_set_zero (l : List Nat) (n : Nat) (h : n < l.length) :
    c_str (l.set n 0) = c_str (l.take n) := by
  rw [List.set_eq_take_cons_drop 0 h, c_str_append_zero]

theorem GPS_Read_store_overflow (fw : firmware_t) (d : Nat) (h : ¬ fw.gps_idx < 127) :
    GPS_Read_store fw d = { fw with gps_idx := 0 } := by
  simp [GPS_Read_store, GPS_BUF_SIZE, h]

theorem GPS_Read_store_byte (fw : firmware_t) (d : Nat) (h : fw.gps_idx < 127) (hd : d ≠ 10) :
    GPS_Read_store fw d =
      { fw with gps_buf := fw.gps_buf.set fw.gps_idx d, gps_idx := fw.gps_idx + 1 } := by
  simp [GPS_Read_store, GPS_BUF_SIZE, h, hd]

theorem GPS_Read_store_newline (fw : firmware_t) (h : fw.gps_idx < 127) :
    GPS_Read_store fw 10 =
      { fw with
        gps_buf := (fw.gps_buf.set fw.gps_idx 10).set (fw.gps_idx + 1) 0
        gps_idx := fw.gps_idx + 1
        gps_sentence_flag := true } := by
  simp [GPS_Read_store, GPS_BUF_SIZE, h]

theorem GPS_Read_forward_idle (fw : firmware_t) (hw : hw_t)
    (h : fw.gps_sentence_flag = false) : GPS_Read_forward fw hw = (fw, []) := by
  simp [GPS_Read_forward, h]

theorem GPS_Read_forward_clears (fw : firmware_t) (hw : hw_t)
    (h : fw.gps_sentence_flag = true) :
    (GPS_Read_forward fw hw).1.gps_buf = memset_zero GPS_BUF_SIZE ∧
    (GPS_Read_forward fw hw).1.gps_idx = 0 ∧
    (GPS_Read_forward fw hw).1.gps_sentence_flag = false := by
  simp [GPS_Read_forward, h]

theorem GPS_Read_forward_no_match (fw : firmware_t) (hw : hw_t)
    (h : fw.gps_sentence_flag = true) (hs : strstr fw.gps_buf GPGGA = false) :
    (GPS_Read_forward fw hw).2 = [] := by
  simp [GPS_Read_forward, h, hs]

theorem GPS_Read_forward_congr (fw : firmware_t) (g : List Nat) (hw : hw_t)
    (h : fw.gps_sentence_flag = true) (hc : c_str g = c_str fw.gps_buf) :
    GPS_Read_forward { fw with gps_buf := g } hw = GPS_Read_forward fw hw := by
  have hs : strstr g GPGGA = strstr fw.gps_buf GPGGA := by simp [strstr, hc]
  have hcat : strcat fw.buffer g = strcat fw.buffer fw.gps_buf := by simp [strcat, strlen, hc]
  cases hm : strstr fw.gps_buf GPGGA <;> simp [GPS_Read_forward, h, hs, hcat, hm]

theorem platform_do_loop_one_gps_buf (fw : firmware_t) (g : List Nat) (hw : hw_t) :
    platform_do_loop_one { fw with gps_buf := g } hw =
      ({ (platform_do_loop_one fw hw).1 with gps_buf := g }, (platform_do_loop_one fw hw).2) ∧
    (platform_do_loop_one fw hw).1.gps_buf = fw.gps_buf ∧
    (platform_do_loop_one fw hw).1.gps_idx = fw.gps_idx ∧
    (platform_do_loop_one fw hw).1.gps_sentence_flag = fw.gps_sentence_flag :=
  ⟨rfl, rfl, rfl, rfl⟩

theorem GPS_Read_decode_same_text (fw : firmware_t) (g : List Nat) (d : Nat) (hw : hw_t)
    (hl1 : fw.gps_buf.length = GPS_BUF_SIZE) (hl2 : g.length = GPS_BUF_SIZE)
    (hf : fw.gps_sentence_flag = false)
    (hp : GPS_BUF_SIZE - 1 ≤ fw.gps_idx ∨ g.take fw.gps_idx = fw.gps_buf.take fw.gps_idx) :
    ∃ g2 : List Nat,
      GPS_Read_forward (GPS_Read_store { fw with gps_buf := g } d) hw =
        ({ (GPS_Read_forward (GPS_Read_store fw d) hw).1 with gps_buf := g2 },
          (GPS_Read_forward (GPS_Read_store fw d) hw).2) ∧
      (GPS_Read_forward (GPS_Read_store fw d) hw).1.gps_buf.length = GPS_BUF_SIZE ∧
      g2.length = GPS_BUF_SIZE ∧
      (GPS_Read_forward (GPS_Read_store fw d) hw).1.gps_sentence_flag = false ∧
      (GPS_BUF_SIZE - 1 ≤ (GPS_Read_forward (GPS_Read_store fw d) hw).1.gps_idx ∨
        g2.take (GPS_Read_forward (GPS_Read_store fw d) hw).1.gps_idx =
          (GPS_Read_forward (GPS_Read_store fw d) hw).1.gps_buf.take
            (GPS_Read_forward (GPS_Read_store fw d) hw).1.gps_idx) := by
  simp only [GPS_BUF_SIZE] at hl1 hl2 hp ⊢
  by_cases hi : fw.gps_idx < 127
  · have hp2 : g.take fw.gps_idx = fw.gps_buf.take fw.gps_idx := by
      rcases hp with hp | hp
      · omega
      · exact hp
    by_cases hd : d = 10
    · subst hd
      have hi2 : ({ fw with gps_buf := g } : firmware_t).gps_idx < 127 := hi
      rw [GPS_Read_store_newline fw hi, GPS_Read_store_newline _ hi2]
      have hc : c_str ((g.set fw.gps_idx 10).set (fw.gps_idx + 1) 0) =
          c_str ((fw.gps_buf.set fw.gps_idx 10).set (fw.gps_idx + 1) 0) := by
        rw [c_str_set_zero _ _ (by simp; omega), c_str_set_zero _ _ (by simp; omega),
          take_succ_set _ _ _ (by omega), take_succ_set _ _ _ (by omega), hp2]
      have hcg := GPS_Read_forward_congr
        { fw with
          gps_buf := (fw.gps_buf.set fw.gps_idx 10).set (fw.gps_idx + 1) 0
          gps_idx := fw.gps_idx + 1
          gps_sentence_flag := true }
        ((g.set fw.gps_idx 10).set (fw.gps_idx + 1) 0) hw rfl hc
      obtain ⟨c1, c2, c3⟩ := GPS_Read_forward_clears
        { fw with
          gps_buf := (fw.gps_buf.set fw.gps_idx 10).set (fw.gps_idx + 1) 0
          gps_idx := fw.gps_idx + 1
          gps_sentence_flag := true } hw rfl
      refine ⟨memset_zero 128, ?_, ?_, ?_, ?_, ?_⟩
      · refine Eq.trans hcg ?_
        have e : memset_zero 128 = (GPS_Read_forward
          { fw with
            gps_buf := (fw.gps_buf.set fw.gps_idx 10).set (fw.gps_idx + 1) 0
            gps_idx := fw.gps_idx + 1
            gps_sentence_flag := true } hw).1.gps_buf := c1.symm
        rw [e]
      · rw [c1]; simp [memset_zero, GPS_BUF_SIZE]
      · simp [memset_zero]
      · exact c3
      · right; rw [c2]; simp
    · have hi2 : ({ fw with gps_buf := g } : firmware_t).gps_idx < 127 := hi
      rw [GPS_Read_store_byte fw d hi hd, GPS_Read_store_byte _ d hi2 hd,
        GPS_Read_forward_idle
          { fw with gps_buf := fw.gps_buf.set fw.gps_idx d, gps_idx := fw.gps_idx + 1 } hw hf,
        GPS_Read_forward_idle
          { fw with gps_buf := g.set fw.gps_idx d, gps_idx := fw.gps_idx + 1 } hw hf]
      refine ⟨g.set fw.gps_idx d, rfl, by simp [hl1], by simp [hl2], hf, ?_⟩
      right
      show (g.set fw.gps_idx d).take (fw.gps_idx + 1) =
        (fw.gps_buf.set fw.gps_idx d).take (fw.gps_idx + 1)
      rw [take_succ_set _ _ _ (by omega), take_succ_set _ _ _ (by omega), hp2]
  · have hi2 : ¬ ({ fw with gps_buf := g } : firmware_t).gps_idx < 127 := hi
    rw [GPS_Read_store_overflow fw d hi, GPS_Read_store_overflow _ d hi2,
      GPS_Read_forward_idle { fw with gps_idx := 0 } hw hf,
      GPS_Read_forward_idle { fw with gps_buf := g, gps_idx := 0 } hw hf]
    refine ⟨g, rfl, hl1, hl2, hf, ?_⟩
    right
    simp

theorem GPS_Read_decode_idx_le (fw : firmware_t) (d : Nat) (hw : hw_t) :
    (GPS_Read_forward (GPS_Read_store fw d) hw).1.gps_idx ≤ GPS_BUF_SIZE - 1 := by
  have hs : (GPS_Read_store fw d).gps_idx ≤ 127 := by
    unfold GPS_Read_store
    split_ifs with h1 h2
    · simp only [GPS_BUF_SIZE] at h1; simp; omega
    · simp only [GPS_BUF_SIZE] at h1; simp; omega
    · simp
  cases hfl : (GPS_Read_store fw d).gps_sentence_flag
  · rw [GPS_Read_forward_idle _ hw hfl]; exact hs
  · rw [(GPS_Read_forward_clears _ hw hfl).2.1]; simp

theorem GPS_Read_idx_le (fw : firmware_t) (hw : hw_t) (h : fw.gps_idx ≤ GPS_BUF_SIZE - 1) :
    (GPS_Read fw hw).1.gps_idx ≤ GPS_BUF_SIZE - 1 := by
  unfold GPS_Read
  split_ifs
  · exact GPS_Read_decode_idx_le fw _ hw
  · exact h

theorem prog_loop_idx_le (hws : List hw_t) :
    ∀ fw : firmware_t, fw.gps_idx ≤ GPS_BUF_SIZE - 1 →
      (prog_loop fw hws).1.gps_idx ≤ GPS_BUF_SIZE - 1 := by
  induction hws with
  | nil => intro fw h; exact h
  | cons hw hws ih =>
    intro fw h
    exact ih _ (GPS_Read_idx_le _ hw h)

theorem GPS_Read_same_text_aux (fw : firmware_t) (g : List Nat) (hw : hw_t)
    (hl1 : fw.gps_buf.length = GPS_BUF_SIZE) (hl2 : g.length = GPS_BUF_SIZE)
    (hf : fw.gps_sentence_flag = false)
    (hp : GPS_BUF_SIZE - 1 ≤ fw.gps_idx ∨ g.take fw.gps_idx = fw.gps_buf.take fw.gps_idx) :
    gps_same_text (GPS_Read fw hw).1 (GPS_Read { fw with gps_buf := g } hw).1 ∧
    (GPS_Read { fw with gps_buf := g } hw).2 = (GPS_Read fw hw).2 := by
  cases hb : usart_rx_busy fw.ctx_uart_gps
  · obtain ⟨g2, e, k1, k2, k3, k4⟩ := GPS_Read_decode_same_text fw g
      ((fw.ps.gps_rx_desc.buf.getD []).getD 0 0) hw hl1 hl2 hf hp
    simp only [GPS_Read, hb, Bool.not_false, if_true]
    rw [e]
    exact ⟨⟨rfl, k1, k2, k3, k4⟩, rfl⟩
  · have hb2 : usart_rx_busy ({ fw with gps_buf := g } : firmware_t).ctx_uart_gps = true := hb
    rw [GPS_Read_busy fw hw hb, GPS_Read_busy _ hw hb2]
    exact ⟨⟨rfl, hl1, hl2, hf, hp⟩, rfl⟩

theorem prog_loop_one_same_text (fw1 fw2 : firmware_t) (hw : hw_t)
    (h : gps_same_text fw1 fw2) :
    gps_same_text (prog_loop_one fw1 hw).1 (prog_loop_one fw2 hw).1 ∧
    (prog_loop_one fw2 hw).2 = (prog_loop_one fw1 hw).2 := by
  obtain ⟨he, hl1, hl2, hf, hp⟩ := h
  have a := GPS_Read_same_text_aux (platform_do_loop_one fw1 hw).1 fw2.gps_buf hw hl1 hl2 hf hp
  have e : prog_loop_one fw2 hw =
      GPS_Read { (platform_do_loop_one fw1 hw).1 with gps_buf := fw2.gps_buf } hw := by
    rw [he]
    rfl
  rw [e]
  exact a

theorem prog_loop_same_text (hws : List hw_t) :
    ∀ fw1 fw2 : firmware_t, gps_same_text fw1 fw2 →
      (prog_loop fw2 hws).2 = (prog_loop fw1 hws).2 := by
  induction hws with
  | nil => intro fw1 fw2 _; rfl
  | cons hw hws ih =>
    intro fw1 fw2 h
    obtain ⟨h1, h2⟩ := prog_loop_one_same_text fw1 fw2 hw h
    show (prog_loop_one fw2 hw).2 ++ (prog_loop (prog_loop_one fw2 hw).1 hws).2 =
      (prog_loop_one fw1 hw).2 ++ (prog_loop (prog_loop_one fw1 hw).1 hws).2
    rw [h2, ih _ _ h1]

/-- Claim C14. Take a decoder state whose accumulator holds 127 bytes without a
terminator (`gps_idx = 127`, no sentence pending) and whose reception has
completed. `GPS_Read` then stores nothing (`gps_buf` is unchanged), resets the
index to 0 and sends nothing. The index stays at or below 127 through any
scheduler passes, from this state and from the state after `prog_setup`. And
the 127 bytes held have no influence on what is sent later: put any other 128
bytes `g` in the accumulator and every later call of
`platform_usart_esp_tx_async`, with the text it is given, is the same. -/
theorem GPS_Read_overflow_discards (fw : firmware_t) (hw : hw_t) (g : List Nat)
    (hws : List hw_t)
    (hdone : usart_rx_busy fw.ctx_uart_gps = false)
    (hidx : fw.gps_idx = GPS_BUF_SIZE - 1) (hflag : fw.gps_sentence_flag = false)
    (hlen : fw.gps_buf.length = GPS_BUF_SIZE) (hg : g.length = GPS_BUF_SIZE) :
    (GPS_Read fw hw).1.gps_buf = fw.gps_buf ∧
    (GPS_Read fw hw).1.gps_idx = 0 ∧
    (GPS_Read fw hw).2 = [] ∧
    (prog_loop fw hws).1.gps_idx ≤ GPS_BUF_SIZE - 1 ∧
    (prog_loop firmware_start hws).1.gps_idx ≤ GPS_BUF_SIZE - 1 ∧
    (prog_loop { fw with gps_buf := g } hws).2 = (prog_loop fw hws).2 := by
  have hi : ¬ fw.gps_idx < 127 := by rw [hidx]; simp [GPS_BUF_SIZE]
  have hst := GPS_Read_store_overflow fw ((fw.ps.gps_rx_desc.buf.getD []).getD 0 0) hi
  have hfw := GPS_Read_forward_idle { fw with gps_idx := 0 } hw hflag
  refine ⟨?_, ?_, ?_, ?_, ?_, ?_⟩
  · simp only [GPS_Read, hdone, Bool.not_false, if_true, hst, hfw]
  · simp only [GPS_Read, hdone, Bool.not_false, if_true, hst, hfw]
  · simp only [GPS_Read, hdone, Bool.not_false, if_true, hst, hfw]
  · exact prog_loop_idx_le hws fw (le_of_eq hidx)
  · exact prog_loop_idx_le hws firmware_start (Nat.zero_le _)
  · exact prog_loop_same_text hws fw { fw with gps_buf := g }
      ⟨rfl, hlen, hg, hflag, Or.inl (le_of_eq hidx.symm)⟩

theorem GPS_Read_overflow_discards_witness :
    (GPS_Read { (platform_do_loop_one (prog_loop firmware_start [hw_gps_byte 1 0 0x42]).1
          (hw_quiet 2 0)).1 with
        gps_buf := List.replicate 127 0x41 ++ [0], gps_idx := 127 } (hw_quiet 2 0)).1.gps_buf =
      List.replicate 127 0x41 ++ [0] ∧
    (GPS_Read { (platform_do_loop_one (prog_loop firmware_start [hw_gps_byte 1 0 0x42]).1
          (hw_quiet 2 0)).1 with
        gps_buf := List.replicate 127 0x41 ++ [0], gps_idx := 127 } (hw_quiet 2 0)).1.gps_idx = 0 ∧
    (prog_loop { (platform_do_loop_one (prog_loop firmware_start [hw_gps_byte 1 0 0x42]).1
          (hw_quiet 2 0)).1 with
        gps_buf := gpgga_line ++ List.replicate 121 0x41, gps_idx := 127 }
        (hw_quiet 2 0 :: hw_gps_bytes 3 [10])).2 =
      (prog_loop { (platform_do_loop_one (prog_loop firmware_start [hw_gps_byte 1 0 0x42]).1
          (hw_quiet 2 0)).1 with
        gps_buf := List.replicate 127 0x41 ++ [0], gps_idx := 127 }
        (hw_quiet 2 0 :: hw_gps_bytes 3 [10])).2 :=
  have h := GPS_Read_overflow_discards
    { (platform_do_loop_one (prog_loop firmware_start [hw_gps_byte 1 0 0x42]).1
          (hw_quiet 2 0)).1 with
        gps_buf := List.replicate 127 0x41 ++ [0], gps_idx := 127 }
    (hw_quiet 2 0) (gpgga_line ++ List.replicate 121 0x41)
    (hw_quiet 2 0 :: hw_gps_bytes 3 [10])
    (by decide) (by decide) (by decide) (by simp [GPS_BUF_SIZE])
    (by simp [GPS_BUF_SIZE, gpgga_line])
  ⟨h.1, h.2.1, h.2.2.2.2.2⟩

theorem starts_with_sound (needle : List Nat) :
    ∀ hay : List Nat, starts_with hay needle = true → needle <+: hay := by
  induction needle with
  | nil => intro hay _; exact List.nil_prefix
  | cons n needle ih =>
    intro hay h
    cases hay with
    | nil => simp [starts_with] at h
    | cons x hay =>
      simp only [starts_with, Bool.and_eq_true, beq_iff_eq] at h
      obtain ⟨h1, h2⟩ := h
      subst h1
      exact (List.prefix_cons_inj x).2 (ih hay h2)

theorem occurs_in_sound (needle : List Nat) :
    ∀ hay : List Nat, occurs_in needle hay = true → needle <:+: hay := by
  intro hay
  induction hay with
  | nil =>
    intro h
    exact (starts_with_sound needle [] h).isInfix
  | cons x hay ih =>
    intro h
    simp only [occurs_in, Bool.or_eq_true] at h
    rcases h with h | h
    · exact (starts_with_sound needle _ h).isInfix
    · exact (ih h).trans (List.suffix_cons x hay).isInfix

theorem c_str_initial (l : List Nat) : c_str l <+: l :=
  List.takeWhile_prefix _

theorem prog_loop_two (fw : firmware_t) (a b : hw_t) (hws : List hw_t) :
    (prog_loop fw (a :: b :: hws)).2 =
      (prog_loop fw [a, b]).2 ++ (prog_loop (prog_loop fw [a, b]).1 hws).2 := by
  simp [prog_loop, List.append_assoc]

/-- One completed reception of the byte `d` in a decoder with no sentence
pending: if the text accumulated so far, followed by `d` and the bytes `rest`
still to come, nowhere contains the marker, nothing is sent and the same holds
of the new accumulated text followed by `rest`. -/
theorem GPS_Read_decode_no_marker (fw : firmware_t) (d : Nat) (hw : hw_t) (rest : List Nat)
    (hf : fw.gps_sentence_flag = false) (hlen : fw.gps_buf.length = GPS_BUF_SIZE)
    (hno : ¬ c_str GPGGA <:+: fw.gps_buf.take fw.gps_idx ++ d :: rest) :
    (GPS_Read_forward (GPS_Read_store fw d) hw).2 = [] ∧
    (GPS_Read_forward (GPS_Read_store fw d) hw).1.gps_sentence_flag = false ∧
    (GPS_Read_forward (GPS_Read_store fw d) hw).1.gps_buf.length = GPS_BUF_SIZE ∧
    ¬ c_str GPGGA <:+:
      (GPS_Read_forward (GPS_Read_store fw d) hw).1.gps_buf.take
        (GPS_Read_forward (GPS_Read_store fw d) hw).1.gps_idx ++ rest := by
  simp only [GPS_BUF_SIZE] at hlen ⊢
  have hrest : ¬ c_str GPGGA <:+: rest := fun h =>
    hno (h.trans ⟨fw.gps_buf.take fw.gps_idx ++ [d], [], by simp⟩)
  by_cases hi : fw.gps_idx < 127
  · by_cases hd : d = 10
    · subst hd
      rw [GPS_Read_store_newline fw hi]
      have hs : strstr ((fw.gps_buf.set fw.gps_idx 10).set (fw.gps_idx + 1) 0) GPGGA = false := by
        cases hm : strstr ((fw.gps_buf.set fw.gps_idx 10).set (fw.gps_idx + 1) 0) GPGGA
        · rfl
        · exfalso
          have h1 := occurs_in_sound _ _ hm
          rw [c_str_set_zero _ _ (by simp; omega), take_succ_set _ _ _ (by omega)] at h1
          have h2 : c_str (fw.gps_buf.take fw.gps_idx ++ [10]) <:+:
              fw.gps_buf.take fw.gps_idx ++ 10 :: rest :=
            ((c_str_initial _).trans ⟨rest, by simp⟩).isInfix
          exact hno (h1.trans h2)
      obtain ⟨c1, c2, c3⟩ := GPS_Read_forward_clears
        { fw with
          gps_buf := (fw.gps_buf.set fw.gps_idx 10).set (fw.gps_idx + 1) 0
          gps_idx := fw.gps_idx + 1
          gps_sentence_flag := true } hw rfl
      refine ⟨GPS_Read_forward_no_match _ hw rfl hs, c3, ?_, ?_⟩
      · rw [c1]; simp [memset_zero, GPS_BUF_SIZE]
      · rw [c2]; simpa using hrest
    · rw [GPS_Read_store_byte fw d hi hd,
        GPS_Read_forward_idle
          { fw with gps_buf := fw.gps_buf.set fw.gps_idx d, gps_idx := fw.gps_idx + 1 } hw hf]
      refine ⟨rfl, hf, by simp [hlen], ?_⟩
      show ¬ c_str GPGGA <:+: (fw.gps_buf.set fw.gps_idx d).take (fw.gps_idx + 1) ++ rest
      rw [take_succ_set _ _ _ (by omega)]
      simpa using hno
  · rw [GPS_Read_store_overflow fw d hi, GPS_Read_forward_idle { fw with gps_idx := 0 } hw hf]
    refine ⟨rfl, hf, hlen, ?_⟩
    simpa using hrest

theorem prog_loop_gps_byte_no_marker (fw : firmware_t) (k byte : Nat) (rest : List Nat)
    (hl : gps_listening fw) (hf : fw.gps_sentence_flag = false)
    (hlen : fw.gps_buf.length = GPS_BUF_SIZE) (hb : byte < 256) (hk : k + 1 < 4294967296)
    (hno : ¬ c_str GPGGA <:+: fw.gps_buf.take fw.gps_idx ++ byte :: rest) :
    (prog_loop fw [hw_gps_byte k 0 byte, hw_quiet (k + 1) 0]).2 = [] ∧
    gps_listening (prog_loop fw [hw_gps_byte k 0 byte, hw_quiet (k + 1) 0]).1 ∧
    (prog_loop fw [hw_gps_byte k 0 byte, hw_quiet (k + 1) 0]).1.gps_sentence_flag = false ∧
    (prog_loop fw [hw_gps_byte k 0 byte, hw_quiet (k + 1) 0]).1.gps_buf.length = GPS_BUF_SIZE ∧
    ¬ c_str GPGGA <:+:
      (prog_loop fw [hw_gps_byte k 0 byte, hw_quiet (k + 1) 0]).1.gps_buf.take
        (prog_loop fw [hw_gps_byte k 0 byte, hw_quiet (k + 1) 0]).1.gps_idx ++ rest := by
  obtain ⟨fwB, b, e, h1, h2, h3, h4, h5, h6, h7, h8, _⟩ := prog_loop_gps_byte fw k byte hl hk
  have hd : b.getD 0 0 = byte := by rw [h3]; exact Nat.mod_eq_of_lt hb
  obtain ⟨r1, r2, r3, r4, _, r6⟩ := GPS_Read_done fwB (hw_quiet (k + 1) 0) b h1 h2 h4 h5
  rw [hd] at r1 r2 r3 r4
  obtain ⟨d1, d2, d3, d4⟩ := GPS_Read_decode_no_marker fwB byte (hw_quiet (k + 1) 0) rest
    (h8.trans hf) (by rw [h6]; exact hlen) (by rw [h6, h7]; exact hno)
  rw [e, r1, r2, r3, r4]
  exact ⟨d1, r6, d2, d3, d4⟩

theorem prog_loop_gps_bytes_no_marker (line : List Nat) :
    ∀ (fw : firmware_t) (k : Nat), gps_listening fw → fw.gps_sentence_flag = false →
      fw.gps_buf.length = GPS_BUF_SIZE → (∀ b ∈ line, b < 256) →
      k + 2 * line.length < 4294967296 →
      ¬ c_str GPGGA <:+: fw.gps_buf.take fw.gps_idx ++ line →
      (prog_loop fw (hw_gps_bytes k line)).2 = [] := by
  induction line with
  | nil => intro fw k _ _ _ _ _ _; rfl
  | cons byte rest ih =>
    intro fw k hl hf hlen hb hk hno
    have hk1 : k + 1 < 4294967296 := by simp only [List.length_cons] at hk; omega
    have hk2 : k + 2 + 2 * rest.length < 4294967296 := by
      simp only [List.length_cons] at hk; omega
    obtain ⟨s1, s2, s3, s4, s5⟩ := prog_loop_gps_byte_no_marker fw k byte rest hl hf hlen
      (hb byte (List.mem_cons_self _ _)) hk1 hno
    show (prog_loop fw (hw_gps_byte k 0 byte :: hw_quiet (k + 1) 0 ::
      hw_gps_bytes (k + 2) rest)).2 = []
    rw [prog_loop_two, s1, List.nil_append]
    exact ih _ (k + 2) s2 s3 s4 (fun b hbm => hb b (List.mem_cons_of_mem _ hbm)) hk2 s5

theorem gps_listening_start : gps_listening firmware_start :=
  ⟨rfl, rfl, memset_zero GPS_BUF_SIZE, rfl, by simp [memset_zero, GPS_BUF_SIZE]⟩

theorem prog_loop_append (xs : List hw_t) :
    ∀ (fw : firmware_t) (ys : List hw_t),
      prog_loop fw (xs ++ ys) =
        ((prog_loop (prog_loop fw xs).1 ys).1,
          (prog_loop fw xs).2 ++ (prog_loop (prog_loop fw xs).1 ys).2) := by
  induction xs with
  | nil => intro fw ys; simp [prog_loop]
  | cons x xs ih =>
    intro fw ys
    simp only [List.cons_append, prog_loop, List.append_eq, ih, List.append_assoc]

theorem hw_gps_bytes_append (a : List Nat) :
    ∀ (k : Nat) (b : List Nat),
      hw_gps_bytes k (a ++ b) = hw_gps_bytes k a ++ hw_gps_bytes (k + 2 * a.length) b := by
  induction a with
  | nil => intro k b; simp [hw_gps_bytes]
  | cons x a ih =>
    intro k b
    have e : k + 2 + 2 * a.length = k + 2 * (a.length + 1) := by omega
    simp only [List.cons_append, hw_gps_bytes, List.append_eq, ih, List.length_cons, e]

/-- One byte other than the terminator delivered to a listening decoder whose
accumulator has room: it is stored at the index, which advances. -/
theorem prog_loop_gps_byte_stored (fw : firmware_t) (k byte : Nat)
    (hl : gps_listening fw) (hf : fw.gps_sentence_flag = false)
    (hi : fw.gps_idx < 127) (hb : byte < 256) (hn : byte ≠ 10) (hk : k + 1 < 4294967296) :
    gps_listening (prog_loop fw [hw_gps_byte k 0 byte, hw_quiet (k + 1) 0]).1 ∧
    (prog_loop fw [hw_gps_byte k 0 byte, hw_quiet (k + 1) 0]).1.gps_sentence_flag = false ∧
    (prog_loop fw [hw_gps_byte k 0 byte, hw_quiet (k + 1) 0]).1.gps_idx = fw.gps_idx + 1 ∧
    (prog_loop fw [hw_gps_byte k 0 byte, hw_quiet (k + 1) 0]).1.gps_buf =
      fw.gps_buf.set fw.gps_idx byte := by
  obtain ⟨fwB, b, e, h1, h2, h3, h4, h5, h6, h7, h8, _⟩ := prog_loop_gps_byte fw k byte hl hk
  have hd : b.getD 0 0 = byte := by rw [h3]; exact Nat.mod_eq_of_lt hb
  obtain ⟨_, r2, r3, r4, _, r6⟩ := GPS_Read_done fwB (hw_quiet (k + 1) 0) b h1 h2 h4 h5
  have hfB : fwB.gps_sentence_flag = false := h8.trans hf
  rw [hd, GPS_Read_store_byte fwB byte (by rw [h7]; exact hi) hn,
    GPS_Read_forward_idle
      { fwB with gps_buf := fwB.gps_buf.set fwB.gps_idx byte, gps_idx := fwB.gps_idx + 1 }
      (hw_quiet (k + 1) 0) hfB] at r2 r3 r4
  rw [e]
  refine ⟨r6, r4.trans hfB, ?_, ?_⟩
  · rw [r3]; show fwB.gps_idx + 1 = fw.gps_idx + 1; rw [h7]
  · rw [r2]; show fwB.gps_buf.set fwB.gps_idx byte = fw.gps_buf.set fw.gps_idx byte; rw [h6, h7]

/-- One byte delivered to a listening decoder whose accumulator is full: the
overflow branch resets the index and leaves the accumulator as it is. -/
theorem prog_loop_gps_byte_overflow (fw : firmware_t) (k byte : Nat)
    (hl : gps_listening fw) (hf : fw.gps_sentence_flag = false)
    (hi : ¬ fw.gps_idx < 127) (hk : k + 1 < 4294967296) :
    (prog_loop fw [hw_gps_byte k 0 byte, hw_quiet (k + 1) 0]).2 = [] ∧
    (prog_loop fw [hw_gps_byte k 0 byte, hw_quiet (k + 1) 0]).1.gps_sentence_flag = false ∧
    (prog_loop fw [hw_gps_byte k 0 byte, hw_quiet (k + 1) 0]).1.gps_idx = 0 ∧
    (prog_loop fw [hw_gps_byte k 0 byte, hw_quiet (k + 1) 0]).1.gps_buf = fw.gps_buf := by
  obtain ⟨fwB, b, e, h1, h2, h3, h4, h5, h6, h7, h8, _⟩ := prog_loop_gps_byte fw k byte hl hk
  obtain ⟨r1, r2, r3, r4, _, r6⟩ := GPS_Read_done fwB (hw_quiet (k + 1) 0) b h1 h2 h4 h5
  have hfB : fwB.gps_sentence_flag = false := h8.trans hf
  rw [GPS_Read_store_overflow fwB _ (by rw [h7]; exact hi),
    GPS_Read_forward_idle { fwB with gps_idx := 0 } (hw_quiet (k + 1) 0) hfB] at r1 r2 r3 r4
  rw [e]
  exact ⟨r1, r4.trans hfB, r3, r2.trans h6⟩

theorem prog_loop_gps_fill (d : Nat) (hd : d < 256) (hn : d ≠ 10) (n : Nat) :
    ∀ (fw : firmware_t) (k : Nat), gps_listening fw → fw.gps_sentence_flag = false →
      fw.gps_buf.length = GPS_BUF_SIZE → fw.gps_idx + n ≤ 127 → k + 2 * n < 4294967296 →
      gps_listening (prog_loop fw (hw_gps_bytes k (List.replicate n d))).1 ∧
      (prog_loop fw (hw_gps_bytes k (List.replicate n d))).1.gps_sentence_flag = false ∧
      (prog_loop fw (hw_gps_bytes k (List.replicate n d))).1.gps_idx = fw.gps_idx + n ∧
      (prog_loop fw (hw_gps_bytes k (List.replicate n d))).1.gps_buf.take (fw.gps_idx + n) =
        fw.gps_buf.take fw.gps_idx ++ List.replicate n d ∧
      (prog_loop fw (hw_gps_bytes k (List.replicate n d))).1.gps_buf.drop (fw.gps_idx + n) =
        fw.gps_buf.drop (fw.gps_idx + n) := by
  induction n with
  | zero =>
    intro fw k hl hf _ _ _
    exact ⟨hl, hf, rfl, by simp [hw_gps_bytes, prog_loop], rfl⟩
  | succ n ih =>
    intro fw k hl hf hlen hi hk
    simp only [GPS_BUF_SIZE] at hlen
    obtain ⟨s1, s2, s3, s4⟩ := prog_loop_gps_byte_stored fw k d hl hf (by omega) hd hn (by omega)
    have hlen2 : (prog_loop fw [hw_gps_byte k 0 d, hw_quiet (k + 1) 0]).1.gps_buf.length =
        GPS_BUF_SIZE := by rw [s4]; simp [hlen, GPS_BUF_SIZE]
    obtain ⟨t1, t2, t3, t4, t5⟩ := ih (prog_loop fw [hw_gps_byte k 0 d, hw_quiet (k + 1) 0]).1
      (k + 2) s1 s2 hlen2 (by rw [s3]; omega) (by omega)
    have e : (prog_loop fw (hw_gps_bytes k (List.replicate (n + 1) d))).1 =
        (prog_loop (prog_loop fw [hw_gps_byte k 0 d, hw_quiet (k + 1) 0]).1
          (hw_gps_bytes (k + 2) (List.replicate n d))).1 := by
      simp only [List.replicate_succ, hw_gps_bytes, prog_loop]
    have ea : fw.gps_idx + (n + 1) = fw.gps_idx + 1 + n := by omega
    rw [e, ea]
    rw [s3] at t3 t4 t5
    refine ⟨t1, t2, t3, ?_, ?_⟩
    · rw [t4, s4, take_succ_set _ _ _ (by omega), List.replicate_succ]
      simp
    · rw [t5, s4, List.drop_set_of_lt _ _ (by omega)]

/-- Claim C13, counterexample. From the state after `prog_setup`, the line of
127 bytes `A` and the terminator is fed one byte per reception. It does not
contain the marker, and the terminator is the byte received with
`gps_idx = 127`: `GPS_Read` takes the overflow branch, so after the reception
that carries the terminator the accumulator still holds the 127 bytes `A`; it
is not all zero. The index is 0, the flag false and nothing was sent. -/
theorem GPS_Read_terminator_keeps_full_buffer :
    (prog_loop firmware_start (hw_gps_bytes 1 (List.replicate 127 0x41 ++ [10]))).1.gps_buf =
      List.replicate 127 0x41 ++ [0] ∧
    (prog_loop firmware_start (hw_gps_bytes 1 (List.replicate 127 0x41 ++ [10]))).1.gps_buf ≠
      memset_zero GPS_BUF_SIZE ∧
    (prog_loop firmware_start (hw_gps_bytes 1 (List.replicate 127 0x41 ++ [10]))).1.gps_idx = 0 ∧
    (prog_loop firmware_start
      (hw_gps_bytes 1 (List.replicate 127 0x41 ++ [10]))).1.gps_sentence_flag = false ∧
    (prog_loop firmware_start (hw_gps_bytes 1 (List.replicate 127 0x41 ++ [10]))).2 = [] := by
  have hlen0 : firmware_start.gps_buf.length = GPS_BUF_SIZE := by
    show (memset_zero 128).length = 128
    simp [memset_zero]
  obtain ⟨f1, f2, f3, f4, f5⟩ := prog_loop_gps_fill 0x41 (by omega) (by omega) 127
    firmware_start 1 gps_listening_start rfl hlen0 (le_of_eq rfl) (by omega)
  have h0 : firmware_start.gps_idx + 127 = 127 := rfl
  have ht : firmware_start.gps_buf.take firmware_start.gps_idx = [] := rfl
  have hdr : firmware_start.gps_buf.drop 127 = [0] := by
    show (memset_zero 128).drop 127 = [0]
    simp [memset_zero]
  rw [h0] at f3 f4 f5
  rw [ht, List.nil_append] at f4
  rw [hdr] at f5
  have hbuf : (prog_loop firmware_start
      (hw_gps_bytes 1 (List.replicate 127 0x41))).1.gps_buf = List.replicate 127 0x41 ++ [0] := by
    rw [← List.take_append_drop 127 (prog_loop firmware_start
      (hw_gps_bytes 1 (List.replicate 127 0x41))).1.gps_buf, f4, f5]
  obtain ⟨o1, o2, o3, o4⟩ := prog_loop_gps_byte_overflow
    (prog_loop firmware_start (hw_gps_bytes 1 (List.replicate 127 0x41))).1 255 10 f1 f2
    (by rw [f3]; omega) (by omega)
  have hsend : (prog_loop firmware_start (hw_gps_bytes 1 (List.replicate 127 0x41))).2 = [] :=
    prog_loop_gps_bytes_no_marker (List.replicate 127 0x41) firmware_start 1
      gps_listening_start rfl hlen0
      (fun b hb => by rw [List.eq_of_mem_replicate hb]; omega)
      (by simp)
      (by
        rw [ht, List.nil_append]
        rintro ⟨s, t, e⟩
        have hm : (0x24 : Nat) ∈ List.replicate 127 0x41 := by
          rw [← e]; simp [c_str, GPGGA]
        have := List.eq_of_mem_replicate hm
        omega)
  have e : hw_gps_bytes 1 (List.replicate 127 0x41 ++ [10]) =
      hw_gps_bytes 1 (List.replicate 127 0x41) ++ [hw_gps_byte 255 0 10, hw_quiet (255 + 1) 0] := by
    rw [hw_gps_bytes_append, List.length_replicate]
    rfl
  rw [e, prog_loop_append, hsend, o1, o2, o3, o4, hbuf]
  refine ⟨rfl, ?_, rfl, rfl, rfl⟩
  intro h
  have hm : (0x41 : Nat) ∈ memset_zero GPS_BUF_SIZE := by rw [← h]; simp
  have := List.eq_of_mem_replicate hm
  omega

/-- Claim C13, amended. A byte list `line` that nowhere contains the text
`$GPGGA` is fed one byte per reception, by scheduler passes, to a decoder that
listens with an empty accumulator: no call of `platform_usart_esp_tx_async` is
made. And when `GPS_Read` finds a completed reception whose byte is the
terminator while `gps_idx` is below 127, it leaves the accumulator all zero
bytes, its index 0 and the sentence flag false, whether or not the line
matched. -/
theorem GPS_Read_clears_after_terminator (fw : firmware_t) (k : Nat) (line : List Nat)
    (fw2 : firmware_t) (hw2 : hw_t)
    (hl : gps_listening fw) (hidx : fw.gps_idx = 0) (hflag : fw.gps_sentence_flag = false)
    (hlen : fw.gps_buf.length = GPS_BUF_SIZE)
    (hbytes : ∀ b ∈ line, b < 256) (hk : k + 2 * line.length < 4294967296)
    (hno : ¬ [0x24, 0x47, 0x50, 0x47, 0x47, 0x41] <:+: line)
    (hdone : usart_rx_busy fw2.ctx_uart_gps = false)
    (hnl : (fw2.ps.gps_rx_desc.buf.getD []).getD 0 0 = 10)
    (hidx2 : fw2.gps_idx < GPS_BUF_SIZE - 1) :
    (prog_loop fw (hw_gps_bytes k line)).2 = [] ∧
    (GPS_Read fw2 hw2).1.gps_buf = memset_zero GPS_BUF_SIZE ∧
    (GPS_Read fw2 hw2).1.gps_idx = 0 ∧
    (GPS_Read fw2 hw2).1.gps_sentence_flag = false := by
  have hm : c_str GPGGA = [0x24, 0x47, 0x50, 0x47, 0x47, 0x41] := by decide
  have hcl := GPS_Read_forward_clears (GPS_Read_store fw2 10) hw2
    (by rw [GPS_Read_store_newline fw2 hidx2])
  refine ⟨?_, ?_, ?_, ?_⟩
  · refine prog_loop_gps_bytes_no_marker line fw k hl hflag hlen hbytes hk ?_
    rw [hidx, List.take_zero, List.nil_append, hm]
    exact hno
  · simp only [GPS_Read, hdone, Bool.not_false, if_true, hnl]
    exact hcl.1
  · simp only [GPS_Read, hdone, Bool.not_false, if_true, hnl]
    exact hcl.2.1
  · simp only [GPS_Read, hdone, Bool.not_false, if_true, hnl]
    exact hcl.2.2

theorem GPS_Read_clears_after_terminator_witness :
    (prog_loop firmware_start
      (hw_gps_bytes 1 [0x24, 0x47, 0x50, 0x52, 0x4D, 0x43, 10])).2 = [] ∧
    (GPS_Read (platform_do_loop_one (prog_loop firmware_start [hw_gps_byte 1 0 10]).1
      (hw_quiet 2 0)).1 (hw_quiet 2 0)).1.gps_buf = memset_zero GPS_BUF_SIZE ∧
    (GPS_Read (platform_do_loop_one (prog_loop firmware_start [hw_gps_byte 1 0 10]).1
      (hw_quiet 2 0)).1 (hw_quiet 2 0)).1.gps_idx = 0 ∧
    (GPS_Read (platform_do_loop_one (prog_loop firmware_start [hw_gps_byte 1 0 10]).1
      (hw_quiet 2 0)).1 (hw_quiet 2 0)).1.gps_sentence_flag = false :=
  GPS_Read_clears_after_terminator firmware_start 1 [0x24, 0x47, 0x50, 0x52, 0x4D, 0x43, 10]
    (platform_do_loop_one (prog_loop firmware_start [hw_gps_byte 1 0 10]).1 (hw_quiet 2 0)).1
    (hw_quiet 2 0)
    ⟨rfl, rfl, memset_zero GPS_BUF_SIZE, rfl, by simp [memset_zero, GPS_BUF_SIZE]⟩
    rfl rfl (by show (memset_zero 128).length = 128; simp [memset_zero])
    (by decide) (by decide) (by decide) (by decide) (by decide) (by decide)

theorem systick_reset_ticks (j : Nat) : SysTick_ticks j systick_reset = systick_after j :=
  SysTick_ticks_from_reset j

theorem platform_tick_count_pass_at (j : Nat) (p : tick_count_pass_t) :
    platform_tick_count_pass (systick_after j) p =
      (systick_after (j + p.before_cookie + p.before_sec + p.before_nsec + p.before_test),
        ⟨((j + p.before_cookie + p.before_sec) / 200) % 4294967296,
          ((j + p.before_cookie + p.before_sec + p.before_nsec) % 200) * 5000000⟩,
        decide ((2 * (j + p.before_cookie + p.before_sec + p.before_nsec + p.before_test)) %
          4294967296 ≠ (2 * (j + p.before_cookie)) % 4294967296)) := by
  simp only [platform_tick_count_pass, SysTick_ticks_at]
  rfl

/-- Why `platform_tick_count_coherent` bounds the handler invocations inside
one pass. The clock has run 199 ticks since reset: the wall timestamp is
(0, 995000000) and the generation counter 398. The reader loads the counter and
`nr_sec = 0`; were `2^31` handler invocations to run before the next load,
which at one tick per 5 ms takes about 124 days, `nr_nsec` would be 235000000
and the counter, advanced by `2^32`, 398 again, and the loop would return
(0, 235000000). -/
theorem platform_tick_count_torn_after_wrap :
    (SysTick_ticks 199 systick_reset).ts_wall = ⟨0, 995000000⟩ ∧
    (platform_tick_count (SysTick_ticks 199 systick_reset) [⟨0, 0, 2147483648, 0⟩]).2 =
      some ⟨0, 235000000⟩ ∧
    (platform_tick_count (SysTick_ticks 199 systick_reset) [⟨0, 0, 2147483648, 0⟩]).1 =
      SysTick_ticks 2147483648 (SysTick_ticks 199 systick_reset) ∧
    ∀ m : Nat, m ≤ 2147483648 →
      (SysTick_ticks m (SysTick_ticks 199 systick_reset)).ts_wall ≠ ⟨0, 235000000⟩ := by
  rw [systick_reset_ticks 199]
  have hpass := platform_tick_count_pass_at 199 ⟨0, 0, 2147483648, 0⟩
  have hc : ¬ ((2 * (199 + 0 + 0 + 2147483648 + 0)) % 4294967296 ≠
      (2 * (199 + 0)) % 4294967296) := by omega
  have hrun : platform_tick_count (systick_after 199) [⟨0, 0, 2147483648, 0⟩] =
      (systick_after (199 + 0 + 0 + 2147483648 + 0),
        some ⟨((199 + 0 + 0) / 200) % 4294967296,
          ((199 + 0 + 0 + 2147483648) % 200) * 5000000⟩) := by
    simp only [platform_tick_count, hpass]
    rw [if_neg (by rw [decide_eq_false hc]; exact Bool.false_ne_true)]
  refine ⟨?_, ?_, ?_, ?_⟩
  · show (⟨(199 / 200) % 4294967296, (199 % 200) * 5000000⟩ : platform_timespec_t) =
      ⟨0, 995000000⟩
    simp only [platform_timespec_t.mk.injEq]
  · rw [hrun]
  · rw [hrun, SysTick_ticks_at]
  · intro m hm
    rw [SysTick_ticks_at]
    show (⟨((199 + m) / 200) % 4294967296, ((199 + m) % 200) * 5000000⟩ :
      platform_timespec_t) ≠ ⟨0, 235000000⟩
    simp only [ne_eq, platform_timespec_t.mk.injEq]
    omega

/-- Claim C21 (code defect). `delay(1000)` is called at wall time 0. At the
first tick, 5 ms later, `platform_tick_delta` gives (0, 5000000) and the exit
test passes, `delay_ticks` being 1000000: the function returns after 5 ms, not
after 1000 ms. In general, for an argument below 4294967 and an elapsed time
under one second the test passes exactly when the elapsed nanoseconds reach
`milliseconds * 1000`, a thousandth of the time asked for. -/
theorem delay_returns_early :
    platform_tick_delta ⟨0, 5000000⟩ ⟨0, 0⟩ = ⟨0, 5000000⟩ ∧
    delay_exit_test (u32 (1000 * 1000)) ⟨0, 5000000⟩ = true ∧
    (⟨0, 5000000⟩ : platform_timespec_t).total_ns < 1000 * 1000000 ∧
    delay 1000 ⟨0, 0⟩ [⟨0, 0⟩, ⟨0, 5000000⟩, ⟨0, 10000000⟩] = some ⟨0, 5000000⟩ ∧
    ∀ milliseconds nsec : Nat, milliseconds < 4294967 → nsec < 1000000000 →
      (delay_exit_test (u32 (milliseconds * 1000)) ⟨0, nsec⟩ = true ↔
        milliseconds * 1000 ≤ nsec) := by
  refine ⟨by decide, by decide, by decide, by decide, ?_⟩
  intro ms nsec hms hn
  simp only [delay_exit_test, u32, decide_eq_true_eq]
  omega

/-- Claim C22 (code defect). After the four bring-up routines in the order of
`platform_init`, `ctx_uart_pms.regs` is `NULL` and `ctx_uart_esp.regs` refers to
SERCOM3, not SERCOM0: `platform_usart_pms_init` stores its register pointer in
`ctx_uart_esp`. The gas and GPS contexts refer to SERCOM1 and SERCOM5. -/
theorem platform_init_pms_regs_null (fw : firmware_t) :
    (platform_init fw).ctx_uart_pms.regs = none ∧
    (platform_init fw).ctx_uart_esp.regs = some 3 ∧
    (platform_init fw).ctx_uart_co2.regs = some 1 ∧
    (platform_init fw).ctx_uart_gps.regs = some 5 ∧
    (platform_usart_esp_init fw).ctx_uart_esp.regs = some 0 :=
  ⟨rfl, rfl, rfl, rfl, rfl⟩

theorem usart_rx_abort_helper_in_bounds (ctx : ctx_usart_t) (h : usart_rx_in_bounds ctx) :
    usart_rx_in_bounds (usart_rx_abort_helper ctx).1 ∧
    ∀ d, (usart_rx_abort_helper ctx).2 = some d →
      d.compl_type = PLATFORM_USART_RX_COMPL_DATA ∧ d.data_len ≤ d.max_len := by
  refine ⟨fun d hd => by simp [usart_rx_abort_helper] at hd, ?_⟩
  intro d hd
  cases hc : ctx.rx.desc with
  | none => simp [usart_rx_abort_helper, hc] at hd
  | some d0 =>
    have hb := (h d0 hc).1
    simp only [usart_rx_abort_helper, hc, Option.some.injEq] at hd
    subst hd
    exact ⟨rfl, le_of_lt hb⟩

theorem usart_rx_async_in_bounds (ctx : ctx_usart_t)
    (desc : Option platform_usart_rx_async_desc_t) (hr : platform_timespec_t)
    (h : usart_rx_in_bounds ctx) : usart_rx_in_bounds (usart_rx_async ctx desc hr).2.1 := by
  unfold usart_rx_async
  cases desc with
  | none => exact h
  | some d =>
    dsimp only
    split_ifs with h1 h2
    · exact h
    · exact h
    · intro d2 hd2
      simp only [Option.some.injEq] at hd2
      subst hd2
      simp only [not_or, not_lt] at h1
      exact ⟨Nat.pos_of_ne_zero h1.2.1, h1.2.2⟩

theorem usart_tick_rx_in_bounds (ctx : ctx_usart_t) (tick : platform_timespec_t)
    (regs : sercom_usart_int_registers_t) (h : usart_rx_in_bounds ctx) :
    usart_rx_in_bounds (usart_tick_rx ctx tick regs).1 ∧
    ∀ d, (usart_tick_rx ctx tick regs).2.2 = some d →
      d.compl_type = PLATFORM_USART_RX_COMPL_DATA ∧ d.data_len ≤ d.max_len := by
  cases hc : ctx.rx.desc with
  | none =>
    simp only [usart_tick_rx, hc]
    exact ⟨h, fun d hd => by cases hd⟩
  | some d0 =>
    obtain ⟨hb, hm⟩ := h d0 hc
    simp only [NR_USART_CHARS_MAX] at hm
    have hu : u16 (ctx.rx.idx + 1) = ctx.rx.idx + 1 := by unfold u16; omega
    simp only [usart_tick_rx, hc, hu]
    split_ifs <;>
      simp_all [usart_rx_in_bounds, usart_rx_abort_helper, NR_USART_CHARS_MAX] <;> omega

theorem usart_rx_call_in_bounds (ctx : ctx_usart_t) (c : usart_rx_call_t)
    (h : usart_rx_in_bounds ctx) :
    usart_rx_in_bounds (usart_rx_call ctx c).1 ∧
    ∀ d, (usart_rx_call ctx c).2 = some d →
      d.compl_type = PLATFORM_USART_RX_COMPL_DATA ∧ d.data_len ≤ d.max_len := by
  cases c with
  | receive desc hr =>
    exact ⟨usart_rx_async_in_bounds ctx desc hr h, fun d hd => by cases hd⟩
  | poll tick regs =>
    have ht : usart_rx_in_bounds (usart_tick_tx ctx regs).1 := by
      intro d hd
      rw [(usart_tick_tx_rx ctx regs).1] at hd ⊢
      exact h d hd
    exact usart_tick_rx_in_bounds (usart_tick_tx ctx regs).1 tick regs ht
  | rx_abort => exact usart_rx_abort_helper_in_bounds ctx h

theorem usart_rx_calls_in_bounds (calls : List usart_rx_call_t) :
    ∀ ctx : ctx_usart_t, usart_rx_in_bounds ctx →
      usart_rx_in_bounds (usart_rx_calls ctx calls).1 ∧
      ∀ d ∈ (usart_rx_calls ctx calls).2,
        d.compl_type = PLATFORM_USART_RX_COMPL_DATA ∧ d.data_len ≤ d.max_len := by
  induction calls with
  | nil => intro ctx h; exact ⟨h, fun d hd => by cases hd⟩
  | cons c cs ih =>
    intro ctx h
    obtain ⟨h1, h2⟩ := usart_rx_call_in_bounds ctx c h
    obtain ⟨h3, h4⟩ := ih _ h1
    refine ⟨h3, fun d hd => ?_⟩
    rcases List.mem_append.1 hd with hd | hd
    · exact h2 d (by simpa [Option.mem_toList] using hd)
    · exact h4 d hd

/-- The store of `usart_tick_handler_common`: when a poll of an armed channel
leaves a descriptor, armed or completed, with other buffer contents than
before, the contents differ by the received byte written at the receive index
the channel had when the poll began. -/
theorem usart_tick_store_index (ctx : ctx_usart_t) (tick : platform_timespec_t)
    (regs : sercom_usart_int_registers_t) (d d2 : platform_usart_rx_async_desc_t)
    (hd : ctx.rx.desc = some d)
    (h2 : (usart_tick_handler_common ctx tick regs).1.rx.desc = some d2 ∨
      (usart_tick_handler_common ctx tick regs).2.completed = some d2) :
    d2.max_len = d.max_len ∧
    (d2.buf = d.buf ∨ d2.buf = d.buf.map (fun b => b.set ctx.rx.idx (u8 regs.SERCOM_DATA))) := by
  have hrx := (usart_tick_tx_rx ctx regs).1
  have hd1 : (usart_tick_tx ctx regs).1.rx.desc = some d := by rw [hrx]; exact hd
  have hi1 : (usart_tick_tx ctx regs).1.rx.idx = ctx.rx.idx := by rw [hrx]
  simp only [usart_tick_handler_common, usart_tick_rx, hd1, hi1] at h2
  split_ifs at h2 <;>
    simp only [usart_rx_abort_helper, hd1, Option.some.injEq, or_self, false_or, or_false,
      reduceCtorEq] at h2 <;>
    subst h2 <;> first | contradiction | simp

/-- Claim C23. A channel is brought up (context zeroed, then its register
pointer and idle timeout set) and any sequence of receive, poll and
receive-abort calls is made on it. In the state reached, an armed channel has
its receive index below the `max_len` of its descriptor (at most 65528); so a
poll from that state that writes a byte writes it at that index, below
`max_len`, and leaves `max_len` as it was; and every descriptor completed on
the way, by a poll or an abort, reports kind data with `data_len` at most
`max_len`. -/
theorem usart_rx_index_below_max_len (regs0 : Option Nat) (cfg : ctx_usart_cfg_t)
    (calls : List usart_rx_call_t) (tick : platform_timespec_t)
    (regs : sercom_usart_int_registers_t) :
    usart_rx_in_bounds (usart_rx_calls { ctx_usart_zero with regs := regs0, cfg := cfg } calls).1 ∧
    (∀ d d2 : platform_usart_rx_async_desc_t,
      (usart_rx_calls { ctx_usart_zero with regs := regs0, cfg := cfg } calls).1.rx.desc =
        some d →
      ((usart_tick_handler_common
          (usart_rx_calls { ctx_usart_zero with regs := regs0, cfg := cfg } calls).1
          tick regs).1.rx.desc = some d2 ∨
        (usart_tick_handler_common
          (usart_rx_calls { ctx_usart_zero with regs := regs0, cfg := cfg } calls).1
          tick regs).2.completed = some d2) →
      (usart_rx_calls { ctx_usart_zero with regs := regs0, cfg := cfg } calls).1.rx.idx <
        d.max_len ∧
      d2.max_len = d.max_len ∧
      (d2.buf = d.buf ∨
        d2.buf = d.buf.map (fun b => b.set
          (usart_rx_calls { ctx_usart_zero with regs := regs0, cfg := cfg } calls).1.rx.idx
          (u8 regs.SERCOM_DATA)))) ∧
    (∀ d ∈ (usart_rx_calls { ctx_usart_zero with regs := regs0, cfg := cfg } calls).2,
      d.compl_type = PLATFORM_USART_RX_COMPL_DATA ∧ d.data_len ≤ d.max_len) ∧
    (∀ d, (usart_tick_handler_common
        (usart_rx_calls { ctx_usart_zero with regs := regs0, cfg := cfg } calls).1
        tick regs).2.completed = some d →
      d.compl_type = PLATFORM_USART_RX_COMPL_DATA ∧ d.data_len ≤ d.max_len) := by
  have h0 : usart_rx_in_bounds { ctx_usart_zero with regs := regs0, cfg := cfg } := by
    intro d hd
    cases hd
  obtain ⟨h1, h2⟩ := usart_rx_calls_in_bounds calls _ h0
  refine ⟨h1, fun d d2 hd hd2 => ?_, h2, ?_⟩
  · obtain ⟨s1, s2⟩ := usart_tick_store_index _ tick regs d d2 hd hd2
    exact ⟨(h1 d hd).1, s1, s2⟩
  · exact (usart_rx_call_in_bounds _ (usart_rx_call_t.poll tick regs) h1).2

theorem c_str_of_no_zero (l : List Nat) (h : ∀ b ∈ l, b ≠ 0) : c_str l = l := by
  unfold c_str
  rw [List.takeWhile_eq_self_iff]
  intro b hb
  simpa using h b hb

theorem c_str_no_zero (l : List Nat) : ∀ b ∈ c_str l, b ≠ 0 := by
  intro b hb
  have := List.mem_takeWhile_imp hb
  simpa using this

theorem take_strlen (l : List Nat) : l.take (strlen l) = c_str l := by
  unfold strlen
  exact (List.prefix_iff_eq_take.1 (c_str_initial l)).symm

theorem c_str_strcat (dest src : List Nat) :
    c_str (strcat dest src) = c_str dest ++ c_str src ∧
    strlen dest + strlen src + 1 ≤ (strcat dest src).length := by
  unfold strcat
  rw [take_strlen]
  constructor
  · have e : c_str dest ++ c_str src ++ [0] ++ dest.drop (strlen dest + strlen src + 1) =
        (c_str dest ++ c_str src) ++ 0 :: dest.drop (strlen dest + strlen src + 1) := by simp
    rw [e, c_str_append_zero]
    apply c_str_of_no_zero
    intro b hb
    rcases List.mem_append.1 hb with hb | hb
    · exact c_str_no_zero dest b hb
    · exact c_str_no_zero src b hb
  · simp only [List.length_append, List.length_singleton, strlen]
    omega

theorem GPS_Read_forward_match (fw : firmware_t) (hw : hw_t)
    (h : fw.gps_sentence_flag = true) (hs : strstr fw.gps_buf GPGGA = true) :
    (GPS_Read_forward fw hw).1.buffer = strcat fw.buffer fw.gps_buf ∧
    (GPS_Read_forward fw hw).2.length = 1 := by
  simp [GPS_Read_forward, h, hs]

/-- The terminator delivered to a listening decoder whose accumulator has
room, when the accumulated line contains the marker: the line is appended to
`buffer` by `strcat` and the accumulator is cleared. -/
theorem prog_loop_gps_byte_newline (fw : firmware_t) (k : Nat)
    (hl : gps_listening fw)
    (hi : fw.gps_idx < 127) (hk : k + 1 < 4294967296)
    (hm : strstr ((fw.gps_buf.set fw.gps_idx 10).set (fw.gps_idx + 1) 0) GPGGA = true) :
    gps_listening (prog_loop fw [hw_gps_byte k 0 10, hw_quiet (k + 1) 0]).1 ∧
    (prog_loop fw [hw_gps_byte k 0 10, hw_quiet (k + 1) 0]).1.gps_sentence_flag = false ∧
    (prog_loop fw [hw_gps_byte k 0 10, hw_quiet (k + 1) 0]).1.gps_idx = 0 ∧
    (prog_loop fw [hw_gps_byte k 0 10, hw_quiet (k + 1) 0]).1.gps_buf =
      memset_zero GPS_BUF_SIZE ∧
    (prog_loop fw [hw_gps_byte k 0 10, hw_quiet (k + 1) 0]).1.buffer =
      strcat fw.buffer ((fw.gps_buf.set fw.gps_idx 10).set (fw.gps_idx + 1) 0) ∧
    (prog_loop fw [hw_gps_byte k 0 10, hw_quiet (k + 1) 0]).2.length = 1 := by
  obtain ⟨fwB, b, e, h1, h2, h3, h4, h5, h6, h7, h8, h9, _⟩ := prog_loop_gps_byte fw k 10 hl hk
  have hd : b.getD 0 0 = 10 := by rw [h3]; rfl
  obtain ⟨r1, r2, r3, r4, r5, r6⟩ := GPS_Read_done fwB (hw_quiet (k + 1) 0) b h1 h2 h4 h5
  have hiB : fwB.gps_idx < 127 := by rw [h7]; exact hi
  rw [hd, GPS_Read_store_newline fwB hiB] at r1 r2 r3 r4 r5
  have hmB : strstr ((fwB.gps_buf.set fwB.gps_idx 10).set (fwB.gps_idx + 1) 0) GPGGA = true := by
    rw [h6, h7]; exact hm
  obtain ⟨c1, c2, c3⟩ := GPS_Read_forward_clears
    { fwB with
      gps_buf := (fwB.gps_buf.set fwB.gps_idx 10).set (fwB.gps_idx + 1) 0
      gps_idx := fwB.gps_idx + 1
      gps_sentence_flag := true } (hw_quiet (k + 1) 0) rfl
  obtain ⟨m1, m2⟩ := GPS_Read_forward_match
    { fwB with
      gps_buf := (fwB.gps_buf.set fwB.gps_idx 10).set (fwB.gps_idx + 1) 0
      gps_idx := fwB.gps_idx + 1
      gps_sentence_flag := true } (hw_quiet (k + 1) 0) rfl hmB
  rw [e]
  refine ⟨r6, r4.trans c3, r3.trans c2, r2.trans c1, ?_, ?_⟩
  · rw [r5, m1]
    show strcat fwB.buffer ((fwB.gps_buf.set fwB.gps_idx 10).set (fwB.gps_idx + 1) 0) = _
    rw [h6, h7, h9]
  · rw [r1, m2]

/-- As `prog_loop_gps_byte_stored`, with what it leaves alone. -/
theorem prog_loop_gps_byte_kept (fw : firmware_t) (k byte : Nat)
    (hl : gps_listening fw) (hf : fw.gps_sentence_flag = false)
    (hi : fw.gps_idx < 127) (hb : byte < 256) (hn : byte ≠ 10) (hk : k + 1 < 4294967296) :
    (prog_loop fw [hw_gps_byte k 0 byte, hw_quiet (k + 1) 0]).1.buffer = fw.buffer ∧
    (prog_loop fw [hw_gps_byte k 0 byte, hw_quiet (k + 1) 0]).2 = [] := by
  obtain ⟨fwB, b, e, h1, h2, h3, h4, h5, h6, h7, h8, h9, _⟩ := prog_loop_gps_byte fw k byte hl hk
  have hd : b.getD 0 0 = byte := by rw [h3]; exact Nat.mod_eq_of_lt hb
  obtain ⟨r1, _, _, _, r5, _⟩ := GPS_Read_done fwB (hw_quiet (k + 1) 0) b h1 h2 h4 h5
  have hfB : fwB.gps_sentence_flag = false := h8.trans hf
  rw [hd, GPS_Read_store_byte fwB byte (by rw [h7]; exact hi) hn,
    GPS_Read_forward_idle
      { fwB with gps_buf := fwB.gps_buf.set fwB.gps_idx byte, gps_idx := fwB.gps_idx + 1 }
      (hw_quiet (k + 1) 0) hfB] at r1 r5
  rw [e]
  exact ⟨r5.trans h9, r1⟩

theorem prog_loop_gps_fill_list (l : List Nat) :
    ∀ (fw : firmware_t) (k : Nat), gps_listening fw → fw.gps_sentence_flag = false →
      fw.gps_buf.length = GPS_BUF_SIZE → fw.gps_idx + l.length ≤ 127 →
      k + 2 * l.length < 4294967296 → (∀ b ∈ l, b < 256 ∧ b ≠ 10) →
      gps_listening (prog_loop fw (hw_gps_bytes k l)).1 ∧
      (prog_loop fw (hw_gps_bytes k l)).1.gps_sentence_flag = false ∧
      (prog_loop fw (hw_gps_bytes k l)).1.gps_idx = fw.gps_idx + l.length ∧
      (prog_loop fw (hw_gps_bytes k l)).1.gps_buf.take (fw.gps_idx + l.length) =
        fw.gps_buf.take fw.gps_idx ++ l ∧
      (prog_loop fw (hw_gps_bytes k l)).1.gps_buf.length = GPS_BUF_SIZE ∧
      (prog_loop fw (hw_gps_bytes k l)).1.buffer = fw.buffer ∧
      (prog_loop fw (hw_gps_bytes k l)).2 = [] := by
  induction l with
  | nil =>
    intro fw k hl hf hlen _ _ _
    exact ⟨hl, hf, rfl, by simp [hw_gps_bytes, prog_loop], hlen, rfl, rfl⟩
  | cons d l ih =>
    intro fw k hl hf hlen hi hk hb
    simp only [GPS_BUF_SIZE] at hlen
    simp only [List.length_cons] at hi hk
    obtain ⟨hd, hn⟩ := hb d (List.mem_cons_self _ _)
    obtain ⟨s1, s2, s3, s4⟩ := prog_loop_gps_byte_stored fw k d hl hf (by omega) hd hn (by omega)
    obtain ⟨s5, s6⟩ := prog_loop_gps_byte_kept fw k d hl hf (by omega) hd hn (by omega)
    have hlen2 : (prog_loop fw [hw_gps_byte k 0 d, hw_quiet (k + 1) 0]).1.gps_buf.length =
        GPS_BUF_SIZE := by rw [s4]; simp [hlen, GPS_BUF_SIZE]
    obtain ⟨t1, t2, t3, t4, t5, t6, t7⟩ :=
      ih (prog_loop fw [hw_gps_byte k 0 d, hw_quiet (k + 1) 0]).1
        (k + 2) s1 s2 hlen2 (by rw [s3]; omega) (by omega)
        (fun b hbm => hb b (List.mem_cons_of_mem _ hbm))
    have e : (prog_loop fw (hw_gps_bytes k (d :: l))).1 =
        (prog_loop (prog_loop fw [hw_gps_byte k 0 d, hw_quiet (k + 1) 0]).1
          (hw_gps_bytes (k + 2) l)).1 := by
      simp only [hw_gps_bytes, prog_loop]
    have e2 : (prog_loop fw (hw_gps_bytes k (d :: l))).2 =
        (prog_loop fw [hw_gps_byte k 0 d, hw_quiet (k + 1) 0]).2 ++
          (prog_loop (prog_loop fw [hw_gps_byte k 0 d, hw_quiet (k + 1) 0]).1
            (hw_gps_bytes (k + 2) l)).2 := prog_loop_two fw _ _ _
    have ea : fw.gps_idx + (l.length + 1) = fw.gps_idx + 1 + l.length := by omega
    rw [e, e2, List.length_cons, ea]
    rw [s3] at t3 t4
    refine ⟨t1, t2, t3, ?_, t5, t6.trans s5, by rw [s6, t7]; rfl⟩
    rw [t4, s4, take_succ_set _ _ _ (by omega)]
    simp

/-- One line that contains the marker, fed with its terminator to a listening
decoder whose accumulator is empty: the decoder is as before and the line has
been appended to the text of `buffer`. -/
theorem prog_loop_gps_line (l : List Nat) (fw : firmware_t) (k : Nat)
    (hl : gps_listening fw) (hf : fw.gps_sentence_flag = false)
    (hlen : fw.gps_buf.length = GPS_BUF_SIZE) (hidx : fw.gps_idx = 0)
    (hn : l.length ≤ 126) (hk : k + 2 * (l.length + 1) < 4294967296)
    (hb : ∀ b ∈ l, b < 256 ∧ b ≠ 10 ∧ b ≠ 0)
    (hm : occurs_in (c_str GPGGA) (l ++ [10]) = true) :
    gps_listening (prog_loop fw (hw_gps_bytes k (l ++ [10]))).1 ∧
    (prog_loop fw (hw_gps_bytes k (l ++ [10]))).1.gps_sentence_flag = false ∧
    (prog_loop fw (hw_gps_bytes k (l ++ [10]))).1.gps_buf.length = GPS_BUF_SIZE ∧
    (prog_loop fw (hw_gps_bytes k (l ++ [10]))).1.gps_idx = 0 ∧
    c_str (prog_loop fw (hw_gps_bytes k (l ++ [10]))).1.buffer =
      c_str fw.buffer ++ (l ++ [10]) ∧
    strlen fw.buffer + (l.length + 1) + 1 ≤
      (prog_loop fw (hw_gps_bytes k (l ++ [10]))).1.buffer.length := by
  obtain ⟨f1, f2, f3, f4, f5, f6, _⟩ := prog_loop_gps_fill_list l fw k hl hf hlen
    (by rw [hidx]; omega) (by omega) (fun b hbm => ⟨(hb b hbm).1, (hb b hbm).2.1⟩)
  rw [hidx, Nat.zero_add] at f3 f4
  rw [List.take_zero, List.nil_append] at f4
  simp only [GPS_BUF_SIZE] at f5
  have hcs : c_str (((prog_loop fw (hw_gps_bytes k l)).1.gps_buf.set
      (prog_loop fw (hw_gps_bytes k l)).1.gps_idx 10).set
      ((prog_loop fw (hw_gps_bytes k l)).1.gps_idx + 1) 0) = l ++ [10] := by
    rw [f3, c_str_set_zero _ _ (by simp; omega), take_succ_set _ _ _ (by omega), f4]
    apply c_str_of_no_zero
    intro b hbm
    rcases List.mem_append.1 hbm with h | h
    · exact (hb b h).2.2
    · simp only [List.mem_singleton] at h; omega
  have hst : strstr (((prog_loop fw (hw_gps_bytes k l)).1.gps_buf.set
      (prog_loop fw (hw_gps_bytes k l)).1.gps_idx 10).set
      ((prog_loop fw (hw_gps_bytes k l)).1.gps_idx + 1) 0) GPGGA = true := by
    unfold strstr
    rw [hcs]
    exact hm
  obtain ⟨n1, n2, n3, n4, n5, _⟩ := prog_loop_gps_byte_newline
    (prog_loop fw (hw_gps_bytes k l)).1 (k + 2 * l.length) f1 (by rw [f3]; omega)
    (by omega) hst
  have e : (prog_loop fw (hw_gps_bytes k (l ++ [10]))).1 =
      (prog_loop (prog_loop fw (hw_gps_bytes k l)).1
        [hw_gps_byte (k + 2 * l.length) 0 10, hw_quiet (k + 2 * l.length + 1) 0]).1 := by
    rw [hw_gps_bytes_append, prog_loop_append]
    rfl
  obtain ⟨q1, q2⟩ := c_str_strcat (prog_loop fw (hw_gps_bytes k l)).1.buffer
    (((prog_loop fw (hw_gps_bytes k l)).1.gps_buf.set
      (prog_loop fw (hw_gps_bytes k l)).1.gps_idx 10).set
      ((prog_loop fw (hw_gps_bytes k l)).1.gps_idx + 1) 0)
  rw [e]
  refine ⟨n1, n2, by rw [n4]; simp [memset_zero], n3, ?_, ?_⟩
  · rw [n5, q1, hcs, f6]
  · rw [n5, f6]
    simp only [strlen, hcs, f6] at q2
    simp only [strlen, List.length_append, List.length_singleton] at q2 ⊢
    exact q2

theorem gpgga_long_length : gpgga_long.length = 126 := by
  simp [gpgga_long]

theorem prog_loop_gpgga_long (fw : firmware_t) (k : Nat)
    (hl : gps_listening fw) (hf : fw.gps_sentence_flag = false)
    (hlen : fw.gps_buf.length = GPS_BUF_SIZE) (hidx : fw.gps_idx = 0)
    (hk : k + 254 < 4294967296) :
    gps_listening (prog_loop fw (hw_gps_bytes k (gpgga_long ++ [10]))).1 ∧
    (prog_loop fw (hw_gps_bytes k (gpgga_long ++ [10]))).1.gps_sentence_flag = false ∧
    (prog_loop fw (hw_gps_bytes k (gpgga_long ++ [10]))).1.gps_buf.length = GPS_BUF_SIZE ∧
    (prog_loop fw (hw_gps_bytes k (gpgga_long ++ [10]))).1.gps_idx = 0 ∧
    strlen (prog_loop fw (hw_gps_bytes k (gpgga_long ++ [10]))).1.buffer =
      strlen fw.buffer + 127 ∧
    strlen fw.buffer + 128 ≤
      (prog_loop fw (hw_gps_bytes k (gpgga_long ++ [10]))).1.buffer.length := by
  have hb : ∀ b ∈ gpgga_long, b < 256 ∧ b ≠ 10 ∧ b ≠ 0 := by
    intro b hb
    simp only [gpgga_long, List.mem_append, List.mem_cons, List.mem_replicate,
      List.mem_nil_iff, or_false] at hb
    omega
  have hm : occurs_in (c_str GPGGA) (gpgga_long ++ [10]) = true := by
    have h1 : c_str GPGGA = [0x24, 0x47, 0x50, 0x47, 0x47, 0x41] := by decide
    rw [h1]
    simp [gpgga_long, occurs_in, starts_with]
  obtain ⟨a1, a2, a3, a4, a5, a6⟩ := prog_loop_gps_line gpgga_long fw k hl hf hlen hidx
    (by rw [gpgga_long_length]) (by rw [gpgga_long_length]; omega) hb hm
  refine ⟨a1, a2, a3, a4, ?_, ?_⟩
  · unfold strlen
    rw [a5]
    simp only [List.length_append, List.length_singleton, gpgga_long_length]
  · rw [gpgga_long_length] at a6
    omega

theorem prog_loop_append_fst (fw : firmware_t) (xs ys : List hw_t) :
    (prog_loop fw (xs ++ ys)).1 = (prog_loop (prog_loop fw xs).1 ys).1 := by
  rw [prog_loop_append]

theorem firmware_start_buffer : firmware_start.buffer = List.replicate 256 0 := rfl

theorem firmware_start_buffer_length : firmware_start.buffer.length = 256 := by
  rw [firmware_start_buffer]
  exact List.length_replicate _ _

theorem c_str_replicate_zero (n : Nat) : c_str (List.replicate (n + 1) 0) = [] := by
  simp [c_str, List.replicate_succ]

theorem firmware_start_buffer_strlen : strlen firmware_start.buffer = 0 := by
  rw [firmware_start_buffer]
  unfold strlen
  rw [c_str_replicate_zero 255]
  rfl

theorem firmware_start_gps_buf_length : firmware_start.gps_buf.length = GPS_BUF_SIZE := by
  show (memset_zero 128).length = 128
  simp [memset_zero]

/-- Claim C24 (code defect). From the state after `prog_setup`, three lines
`$GPGGA` + 120 letters `A` + terminator (127 bytes each) are fed to `GPS_Read`
one byte per reception. `buffer` (256 bytes, empty at the start) is never
cleared: after two lines its text is 254 characters long; the `strcat` of the
third line makes it 381 characters, so 126 bytes are written past the end of
the array. -/
theorem GPS_Read_strcat_overflows_buffer :
    firmware_start.buffer.length = 256 ∧
    strlen firmware_start.buffer = 0 ∧
    strlen (prog_loop firmware_start
      (hw_gps_bytes 1 ((gpgga_long ++ [10]) ++ (gpgga_long ++ [10])))).1.buffer = 254 ∧
    strlen (prog_loop firmware_start
      (hw_gps_bytes 1 (((gpgga_long ++ [10]) ++ (gpgga_long ++ [10])) ++
        (gpgga_long ++ [10])))).1.buffer = 381 ∧
    256 < (prog_loop firmware_start
      (hw_gps_bytes 1 (((gpgga_long ++ [10]) ++ (gpgga_long ++ [10])) ++
        (gpgga_long ++ [10])))).1.buffer.length := by
  have hlen0 := firmware_start_gps_buf_length
  have hb0 := firmware_start_buffer_length
  have hs0 := firmware_start_buffer_strlen
  have hT : (gpgga_long ++ [10]).length = 127 := by
    simp [gpgga_long_length]
  obtain ⟨a1, a2, a3, a4, a5, _⟩ := prog_loop_gpgga_long firmware_start 1
    gps_listening_start rfl hlen0 rfl (by omega)
  obtain ⟨b1, b2, b3, b4, b5, _⟩ := prog_loop_gpgga_long
    (prog_loop firmware_start (hw_gps_bytes 1 (gpgga_long ++ [10]))).1 255 a1 a2 a3 a4 (by omega)
  obtain ⟨_, _, _, _, c5, c6⟩ := prog_loop_gpgga_long
    (prog_loop (prog_loop firmware_start (hw_gps_bytes 1 (gpgga_long ++ [10]))).1
      (hw_gps_bytes 255 (gpgga_long ++ [10]))).1 509 b1 b2 b3 b4 (by omega)
  have e2 : (prog_loop firmware_start
      (hw_gps_bytes 1 ((gpgga_long ++ [10]) ++ (gpgga_long ++ [10])))).1 =
      (prog_loop (prog_loop firmware_start (hw_gps_bytes 1 (gpgga_long ++ [10]))).1
        (hw_gps_bytes 255 (gpgga_long ++ [10]))).1 := by
    rw [hw_gps_bytes_append, prog_loop_append_fst, hT, show 1 + 2 * 127 = 255 from rfl]
  have e3 : (prog_loop firmware_start
      (hw_gps_bytes 1 (((gpgga_long ++ [10]) ++ (gpgga_long ++ [10])) ++
        (gpgga_long ++ [10])))).1 =
      (prog_loop (prog_loop (prog_loop firmware_start (hw_gps_bytes 1 (gpgga_long ++ [10]))).1
        (hw_gps_bytes 255 (gpgga_long ++ [10]))).1 (hw_gps_bytes 509 (gpgga_long ++ [10]))).1 := by
    rw [hw_gps_bytes_append, prog_loop_append_fst, e2, List.length_append, hT,
      show 1 + 2 * (127 + 127) = 509 from rfl]
  rw [e2, e3]
  rw [a5, hs0] at b5
  rw [b5] at c5 c6
  refine ⟨hb0, hs0, b5, c5, ?_⟩
  omega

end CanSat
